import Mathlib

/-!
Verification of the authentication service (`pkg/services/authn/authnimpl/service.go`).

A shallow embedding of `Service.Authenticate`, `Service.authenticate`, `Service.Login`,
`Service.RedirectURL`, `Service.RegisterClient` and the helpers they call, of the Loki state
history backend (`pkg/services/ngalert/state/historian/loki.go`), of the tile addresses
(`pkg/api/vectortile/tile.go`) and of parts of the frontend settings
(`pkg/api/frontendsettings.go`), followed by theorems about them.

Modelling conventions.

* Collaborators (strategies, hooks, the session service) are black boxes that may read and
  change state outside the service.  They are functions on an abstract world `σ` that return
  their Go results together with the new world.
* Every call the service makes to a collaborator or to its logger is recorded, in program
  order, as an `Event`.  A run of a service method returns the events it produced.
* A `*authn.Identity` is `Option Identity` (`none` is the nil pointer); a Go `error` is
  `Option Err` (`none` is nil).  A post-auth hook receives the identity pointer and may mutate
  the pointee, so it returns the updated identity.
* Collaborators receive the request pointer.  The model covers collaborators that leave the
  pointee alone: the request is passed to them by value, and the only writer of
  `Request.OrgID` is `Service.authenticate`.
* A nil-pointer dereference in the service itself is the outcome `Outcome.panic`.
-/

namespace Authn

/-! ## Errors -/

/-- A non-nil Go `error` value: either an ordinary error, identified by its message id and its
text, or the aggregate `*multierror.Error` with its list of causes. -/
inductive Err where
  | plain (messageID : String) (msg : String)
  | multi (causes : List Err)
  deriving Repr

mutual
/-- Decision procedure for equality of errors. -/
def Err.decEq : (a b : Err) → Decidable (a = b)
  | .plain i m, .plain j n =>
    if h : i = j ∧ m = n then isTrue (by rw [h.1, h.2])
    else isFalse (by intro e; cases e; exact h ⟨rfl, rfl⟩)
  | .multi l, .multi k =>
    match Err.decEqList l k with
    | isTrue h => isTrue (by rw [h])
    | isFalse h => isFalse (by intro e; cases e; exact h rfl)
  | .plain _ _, .multi _ => isFalse (by intro e; cases e)
  | .multi _, .plain _ _ => isFalse (by intro e; cases e)
/-- Decision procedure for equality of lists of errors. -/
def Err.decEqList : (a b : List Err) → Decidable (a = b)
  | [], [] => isTrue rfl
  | [], _ :: _ => isFalse (by intro e; cases e)
  | _ :: _, [] => isFalse (by intro e; cases e)
  | x :: l, y :: k =>
    match Err.decEq x y, Err.decEqList l k with
    | isTrue h, isTrue h2 => isTrue (by rw [h, h2])
    | isFalse h, _ => isFalse (by intro e; cases e; exact h rfl)
    | _, isFalse h => isFalse (by intro e; cases e; exact h rfl)
end

instance : DecidableEq Err := Err.decEq

/-- The call `multierror.Append(err, e)` of github.com/hashicorp/go-multierror with one error
to append: the result is always an aggregate; an `err` that is already an aggregate keeps its
causes, any other non-nil `err` becomes the first cause; an `e` that is itself an aggregate is
flattened one level (its causes are appended), any other `e` is appended as one cause. -/
def multierrorAppend (err : Option Err) (e : Err) : Err :=
  let causes : List Err :=
    match err with
    | none => []
    | some (.multi l) => l
    | some x => [x]
  match e with
  | .multi l => .multi (causes ++ l)
  | x => .multi (causes ++ [x])

/-- The error `errCantAuthenticateReq.Errorf("cannot authenticate request")`. -/
def errCantAuthenticateReq : Err := .plain "auth.unauthorized" "cannot authenticate request"

/-- The error `errDisabledIdentity.Errorf("identity is disabled")`. -/
def errDisabledIdentity : Err := .plain "identity.disabled" "identity is disabled"

/-- Modelled from the spec: the error base `authn.ErrClientNotConfigured` is declared in package
authn, which is not among the sources; this is the error
`authn.ErrClientNotConfigured.Errorf("client not configured: %s", client)`. -/
def ErrClientNotConfigured (client : String) : Err :=
  .plain "auth.client.notConfigured" ("client not configured: " ++ client)

/-- Modelled from the spec: the error base `authn.ErrUnsupportedIdentity` is declared in package
authn, which is not among the sources; this is the error
`authn.ErrUnsupportedIdentity.Errorf("expected identity of type user but got: %s", namespace)`. -/
def ErrUnsupportedIdentity (ns : String) : Err :=
  .plain "auth.identity.unsupported" ("expected identity of type user but got: " ++ ns)

/-- Modelled from the spec: the error base `authn.ErrUnsupportedClient` is declared in package
authn, which is not among the sources; this is the error
`authn.ErrUnsupportedClient.Errorf("client does not support generating redirect url: %s", client)`. -/
def ErrUnsupportedClient (client : String) : Err :=
  .plain "auth.client.unsupported" ("client does not support generating redirect url: " ++ client)

/-! ## Requests and org-id resolution -/

/-- The parts of a `*http.Request` the service reads: the decoded query pairs of `URL.Query()`
in order, the header fields under their canonical names, and the remote address. -/
structure HTTPRequest where
  Query : List (String × String)
  Header : List (String × String)
  RemoteAddr : String
  deriving DecidableEq, Repr

/-- The value of `url.Values.Has(key)`. -/
def HTTPRequest.queryHas (req : HTTPRequest) (key : String) : Bool :=
  req.Query.any (fun kv => kv.1 == key)

/-- The value of `url.Values.Get(key)`: the first value of the key, or the empty string. -/
def HTTPRequest.queryGet (req : HTTPRequest) (key : String) : String :=
  match req.Query.find? (fun kv => kv.1 == key) with
  | some kv => kv.2
  | none => ""

/-- The value of `http.Header.Get(key)` for a canonical key: the first value, or the empty
string. -/
def HTTPRequest.headerGet (req : HTTPRequest) (key : String) : String :=
  match req.Header.find? (fun kv => kv.1 == key) with
  | some kv => kv.2
  | none => ""

/-- The value of `(*http.Request).UserAgent()`. -/
def HTTPRequest.UserAgent (req : HTTPRequest) : String :=
  req.headerGet "User-Agent"

/-- The request `authn.Request`: the resolved org id and the nilable transport request. -/
structure Request where
  OrgID : Int
  HTTPRequest : Option HTTPRequest
  deriving DecidableEq, Repr

/-- Value of a run of decimal digits, most significant first, on top of the accumulator;
`none` when a character is not a decimal digit. -/
def parseDigits : List Char → Nat → Option Nat
  | [], acc => some acc
  | c :: cs, acc =>
    if c.isDigit then parseDigits cs (acc * 10 + (c.toNat - '0'.toNat)) else none

/-- The call `strconv.ParseInt(s, 10, 64)`: `none` stands for a non-nil error (empty input, no
digits, a character that is not a decimal digit, or a value outside int64). -/
def ParseInt (s : String) : Option Int :=
  match s.toList with
  | [] => none
  | '-' :: cs =>
    match cs with
    | [] => none
    | _ =>
      match parseDigits cs 0 with
      | some n => if n ≤ 2 ^ 63 then some (-(n : Int)) else none
      | none => none
  | '+' :: cs =>
    match cs with
    | [] => none
    | _ =>
      match parseDigits cs 0 with
      | some n => if n < 2 ^ 63 then some (n : Int) else none
      | none => none
  | cs =>
    match parseDigits cs 0 with
    | some n => if n < 2 ^ 63 then some (n : Int) else none
    | none => none

/-- The name of the query string used to target a specific org. -/
def orgIDTargetQuery : String := "targetOrgId"

/-- The name of the header containing the org id. -/
def orgIDHeaderName : String := "X-Grafana-Org-Id"

/-- The function `orgIDFromQuery`. -/
def orgIDFromQuery (req : HTTPRequest) : Int :=
  if !req.queryHas orgIDTargetQuery then 0
  else
    match ParseInt (req.queryGet orgIDTargetQuery) with
    | none => 0
    | some id => id

/-- The function `orgIDFromHeader`. -/
def orgIDFromHeader (req : HTTPRequest) : Int :=
  let header := req.headerGet orgIDHeaderName
  if header = "" then 0
  else
    match ParseInt header with
    | none => 0
    | some id => id

/-- The function `orgIDFromRequest`. -/
def orgIDFromRequest (r : Request) : Int :=
  match r.HTTPRequest with
  | none => 0
  | some req =>
    let orgID := orgIDFromQuery req
    if orgID > 0 then orgID else orgIDFromHeader req

/-! ## Identities, collaborators and events -/

/-- The session token handle `*auth.UserToken` minted by the session service. -/
structure UserToken where
  Id : Int
  UserId : Int
  AuthToken : String
  deriving DecidableEq, Repr

/-- Modelled from the spec: the type `authn.Identity` is declared in package authn, which is not
among the sources.  It carries the namespace+ID pair, auxiliary fields, the `IsDisabled` flag and
the optional session token handle. -/
structure Identity where
  Namespace : String
  ID : Int
  OrgID : Int
  Login : String
  Email : String
  IsDisabled : Bool
  SessionToken : Option UserToken
  deriving DecidableEq, Repr

/-- Modelled from the spec: the accessor `Identity.NamespacedID()` of package authn returns the
namespace+ID pair of the identity. -/
def Identity.NamespacedID (i : Identity) : String × Int := (i.Namespace, i.ID)

/-- The namespace `authn.NamespaceUser`. -/
def NamespaceUser : String := "user"

/-- The user reference `user.User` handed to the session service; `Login` sets only `ID`. -/
structure User where
  ID : Int
  deriving DecidableEq, Repr

/-- An IP address `net.IP`, a sequence of bytes. -/
abbrev IP := List Nat

/-- One observable step of a run, in program order: a call to a collaborator together with
what it returned, or a call to the logger. -/
inductive Event where
  /-- The call `item.v.Test(ctx, r)`, with `r.OrgID` at the call and the result. -/
  | test (client : String) (orgID : Int) (result : Bool)
  /-- The call `c.Authenticate(ctx, r)`, with `r.OrgID` at the call and the results. -/
  | clientAuthenticate (client : String) (orgID : Int) (identity : Option Identity)
      (err : Option Err)
  /-- The call of the post-auth hook at a position of `s.postAuthHooks`, with the identity it
  received and the error it returned. -/
  | postAuthHook (index : Nat) (identity : Option Identity) (err : Option Err)
  /-- The call `s.sessionService.CreateToken(ctx, usr, ip, userAgent)` with its results. -/
  | createToken (usr : User) (ip : IP) (userAgent : String) (token : Option UserToken)
      (err : Option Err)
  /-- The call of the post-login hook at a position of `s.postLoginHooks`. -/
  | postLoginHook (index : Nat) (identity : Option Identity) (err : Option Err)
  /-- The log line `s.log.Warn("failed to authenticate", "client", ..., "err", err)`. -/
  | logFailedToAuthenticate (client : String) (err : Err)
  /-- The log line `Warn("auth client could not authenticate request", ...)`. -/
  | logClientCouldNotAuthenticate (client : String) (err : Err)
  /-- The log line `Warn("post auth hook failed", "error", err, "id", identity)`. -/
  | logPostAuthHookFailed (err : Err) (identity : Option Identity)
  /-- The log line `s.log.Debug("failed to parse ip from address", "addr", addr)`. -/
  | logFailedToParseIP (addr : String)
  /-- The call `redirectClient.RedirectURL(ctx, r)` with its results. -/
  | redirectURL (client : String) (url : String) (err : Option Err)
  deriving DecidableEq, Repr

/-- The dispatch capability of `authn.ContextAwareClient`: `Test` and `Priority`. -/
structure ContextAware (σ : Type) where
  Test : Request → σ → Bool × σ
  Priority : Nat

/-- A strategy `authn.Client`: `Name` and `Authenticate`, and the optional capabilities that the
service finds by a type assertion (`authn.ContextAwareClient`, `authn.RedirectClient`).  The
methods receive the request pointer; here they get the request by value, which covers the
strategies that do not write through the pointer. -/
structure Client (σ : Type) where
  Name : String
  Authenticate : Request → σ → (Option Identity × Option Err) × σ
  contextAware : Option (ContextAware σ) := none
  RedirectURL : Option (Request → σ → (String × Option Err) × σ) := none

/-- A strategy seen through the interface `authn.ContextAwareClient`. -/
structure ContextAwareClient (σ : Type) where
  client : Client σ
  Test : Request → σ → Bool × σ
  Priority : Nat

/-- An entry `queueItem` of the priority queue: the value and its priority. -/
structure queueItem (σ : Type) where
  v : ContextAwareClient σ
  p : Nat

/-- A hook `authn.PostAuthHookFn`.  Called with a non-nil identity it returns its error, the
identity as it left it and the new world (`call`); called with the nil pointer there is no
pointee to change (`callNil`).  The request, which the hook receives by pointer, is passed by
value: the hooks covered are those that do not write through that pointer. -/
structure PostAuthHookFn (σ : Type) where
  call : Identity → Request → σ → Option Err × Identity × σ
  callNil : Request → σ → Option Err × σ := fun _ w => (none, w)

/-- A hook `authn.PostLoginHookFn`: it observes the identity, the request and the error, and
returns nothing. -/
abbrev PostLoginHookFn (σ : Type) := Option Identity → Request → Option Err → σ → σ

/-- The service.  `clients` is the map from names to strategies, `clientQueue` the field
`clientQueue.items`, `CreateToken` the method of `sessionService` that `Login` calls.
`RemoteAddr` and `GetIPFromAddress` stand for `web.RemoteAddr` (on a non-nil request) and
`network.GetIPFromAddress`, which are not among the sources. -/
structure Service (σ : Type) where
  clients : String → Option (Client σ)
  clientQueue : List (queueItem σ)
  postAuthHooks : List (PostAuthHookFn σ)
  postLoginHooks : List (PostLoginHookFn σ)
  CreateToken : User → IP → String → σ → (Option UserToken × Option Err) × σ
  RemoteAddr : HTTPRequest → String
  GetIPFromAddress : String → IP × Option Err

/-- How a call of a service method ends: it returns its two results, or it panics. -/
inductive Outcome where
  | ret (identity : Option Identity) (err : Option Err)
  | panic
  deriving DecidableEq, Repr

/-- A finished call: how it ended, the request and the world as it left them, and the events
it produced. -/
structure Run (σ : Type) where
  outcome : Outcome
  req : Request
  world : σ
  events : List Event
  deriving DecidableEq

/-! ## The shared subroutine `authenticate` -/

/-- The result of the loop over `s.postAuthHooks`: the error of the hook that stopped the loop
(`none` when every hook returned nil), the identity and the world after the last hook that ran,
and the events. -/
structure HooksRun (σ : Type) where
  err : Option Err
  identity : Option Identity
  world : σ
  events : List Event
  deriving DecidableEq

/-- The loop `for _, hook := range s.postAuthHooks` of `authenticate`, from position `idx`. -/
def runPostAuthHooks {σ : Type} : List (PostAuthHookFn σ) → Nat → Option Identity → Request →
    σ → HooksRun σ
  | [], _, identity, _, w => ⟨none, identity, w, []⟩
  | hook :: rest, idx, identity, r, w =>
    match identity with
    | some i =>
      match hook.call i r w with
      | (some err, i1, w1) =>
        ⟨some err, some i1, w1,
          [Event.postAuthHook idx (some i) (some err),
            Event.logPostAuthHookFailed err (some i1)]⟩
      | (none, i1, w1) =>
        let h := runPostAuthHooks rest (idx + 1) (some i1) r w1
        ⟨h.err, h.identity, h.world, Event.postAuthHook idx (some i) none :: h.events⟩
    | none =>
      match hook.callNil r w with
      | (some err, w1) =>
        ⟨some err, none, w1,
          [Event.postAuthHook idx none (some err), Event.logPostAuthHookFailed err none]⟩
      | (none, w1) =>
        let h := runPostAuthHooks rest (idx + 1) none r w1
        ⟨h.err, h.identity, h.world, Event.postAuthHook idx none none :: h.events⟩

/-- The method `Service.authenticate`: resolve the org id, call the strategy, run the post-auth
hooks, reject a disabled identity.  Reading `identity.IsDisabled` through a nil pointer
panics. -/
def Service.authenticate {σ : Type} (s : Service σ) (c : Client σ) (r : Request) (w : σ) :
    Run σ :=
  let r1 : Request := { r with OrgID := orgIDFromRequest r }
  match c.Authenticate r1 w with
  | ((identity, some err), w1) =>
    ⟨.ret none (some err), r1, w1,
      [Event.clientAuthenticate c.Name r1.OrgID identity (some err),
        Event.logClientCouldNotAuthenticate c.Name err]⟩
  | ((identity, none), w1) =>
    let h := runPostAuthHooks s.postAuthHooks 0 identity r1 w1
    let evs := Event.clientAuthenticate c.Name r1.OrgID identity none :: h.events
    match h.err with
    | some err => ⟨.ret none (some err), r1, h.world, evs⟩
    | none =>
      match h.identity with
      | none => ⟨.panic, r1, h.world, evs⟩
      | some i =>
        if i.IsDisabled then ⟨.ret none (some errDisabledIdentity), r1, h.world, evs⟩
        else ⟨.ret (some i) none, r1, h.world, evs⟩

/-- The method `Service.RegisterPostAuthHook`. -/
def Service.RegisterPostAuthHook {σ : Type} (s : Service σ) (hook : PostAuthHookFn σ) :
    Service σ :=
  { s with postAuthHooks := s.postAuthHooks ++ [hook] }

/-! ## The dispatcher `Authenticate` -/

/-- How the loop `for _, item := range s.clientQueue.items` of `Authenticate` ends: a statement
in its body returned (or a call in it panicked), or the items ran out, leaving `authErr`. -/
inductive Walk (σ : Type) where
  | returned (run : Run σ)
  | exhausted (authErr : Option Err) (req : Request) (world : σ) (events : List Event)
  deriving DecidableEq

/-- The events of a loop, whichever way it ended. -/
def Walk.events {σ : Type} : Walk σ → List Event
  | .returned run => run.events
  | .exhausted _ _ _ evs => evs

/-- Put events in front of those of a loop. -/
def Walk.prepend {σ : Type} (evs : List Event) : Walk σ → Walk σ
  | .returned run => .returned { run with events := evs ++ run.events }
  | .exhausted a r w evs1 => .exhausted a r w (evs ++ evs1)

/-- The loop of `Service.Authenticate` over the remaining items, with the current `authErr`. -/
def Service.walk {σ : Type} (s : Service σ) : List (queueItem σ) → Option Err → Request → σ →
    Walk σ
  | [], authErr, r, w => .exhausted authErr r w []
  | item :: rest, authErr, r, w =>
    match item.v.Test r w with
    | (false, w1) =>
      (s.walk rest authErr r w1).prepend [Event.test item.v.client.Name r.OrgID false]
    | (true, w1) =>
      let a := s.authenticate item.v.client r w1
      let evs := Event.test item.v.client.Name r.OrgID true :: a.events
      match a.outcome with
      | .panic => .returned ⟨.panic, a.req, a.world, evs⟩
      | .ret _ (some err) =>
        (s.walk rest (some (multierrorAppend authErr err)) a.req a.world).prepend
          (evs ++ [Event.logFailedToAuthenticate item.v.client.Name err])
      | .ret (some identity) none => .returned ⟨.ret (some identity) none, a.req, a.world, evs⟩
      | .ret none none => (s.walk rest authErr a.req a.world).prepend evs

/-- The method `Service.Authenticate`: the loop, then the two statements that follow it. -/
def Service.Authenticate {σ : Type} (s : Service σ) (r : Request) (w : σ) : Run σ :=
  match s.walk s.clientQueue none r w with
  | .returned run => run
  | .exhausted (some authErr) r1 w1 evs => ⟨.ret none (some authErr), r1, w1, evs⟩
  | .exhausted none r1 w1 evs => ⟨.ret none (some errCantAuthenticateReq), r1, w1, evs⟩

/-! ## The login flow -/

/-- The body of `Service.Login` up to the point where it is left: whether it was left by a
panic, the named results `identity` and `err` at that point, the request, the world and the
events. -/
structure LoginBody (σ : Type) where
  panicked : Bool
  identity : Option Identity
  err : Option Err
  req : Request
  world : σ
  events : List Event
  deriving DecidableEq

/-- The body of `Service.Login`.  `web.RemoteAddr` and `UserAgent` read through the transport
request, so a nil `r.HTTPRequest` panics before `CreateToken` is called. -/
def Service.loginBody {σ : Type} (s : Service σ) (client : String) (r : Request) (w : σ) :
    LoginBody σ :=
  match s.clients client with
  | none => ⟨false, none, some (ErrClientNotConfigured client), r, w, []⟩
  | some c =>
    let a := s.authenticate c r w
    match a.outcome with
    | .panic => ⟨true, none, none, a.req, a.world, a.events⟩
    | .ret _ (some err) => ⟨false, none, some err, a.req, a.world, a.events⟩
    | .ret none none => ⟨true, none, none, a.req, a.world, a.events⟩
    | .ret (some identity) none =>
      let (ns, id) := identity.NamespacedID
      if ns ≠ NamespaceUser ∨ id ≤ 0 then
        ⟨false, none, some (ErrUnsupportedIdentity ns), a.req, a.world, a.events⟩
      else
        match a.req.HTTPRequest with
        | none => ⟨true, some identity, none, a.req, a.world, a.events⟩
        | some req =>
          let addr := s.RemoteAddr req
          let (ip, ipErr) := s.GetIPFromAddress addr
          let logs : List Event :=
            match ipErr with
            | some _ => [Event.logFailedToParseIP addr]
            | none => []
          match s.CreateToken ⟨id⟩ ip req.UserAgent a.world with
          | ((token, some err), w1) =>
            ⟨false, none, some err, a.req, w1,
              a.events ++ logs ++ [Event.createToken ⟨id⟩ ip req.UserAgent token (some err)]⟩
          | ((token, none), w1) =>
            ⟨false, some { identity with SessionToken := token }, none, a.req, w1,
              a.events ++ logs ++ [Event.createToken ⟨id⟩ ip req.UserAgent token none]⟩

/-- The deferred loop `for _, hook := range s.postLoginHooks` of `Login`, from position
`idx`: every hook is called with the named results. -/
def runPostLoginHooks {σ : Type} : List (PostLoginHookFn σ) → Nat → Option Identity →
    Request → Option Err → σ → σ × List Event
  | [], _, _, _, _, w => (w, [])
  | hook :: rest, idx, identity, r, err, w =>
    let t := runPostLoginHooks rest (idx + 1) identity r err (hook identity r err w)
    (t.1, Event.postLoginHook idx identity err :: t.2)

/-- The method `Service.Login`: the body, then the deferred function, which runs on every way
out of the body with the named results `identity` and `err` as the body left them. -/
def Service.Login {σ : Type} (s : Service σ) (client : String) (r : Request) (w : σ) :
    Run σ :=
  let b := s.loginBody client r w
  let t := runPostLoginHooks s.postLoginHooks 0 b.identity b.req b.err b.world
  ⟨if b.panicked then .panic else .ret b.identity b.err, b.req, t.1, b.events ++ t.2⟩

/-- The method `Service.RegisterPostLoginHook`. -/
def Service.RegisterPostLoginHook {σ : Type} (s : Service σ) (hook : PostLoginHookFn σ) :
    Service σ :=
  { s with postLoginHooks := s.postLoginHooks ++ [hook] }

/-! ## Sample services

Concrete strategies, hooks and services on which the theorems below are exercised.  The world is
a counter of the calls the collaborators received. -/

/-- A user identity with the given id. -/
def sampleUser (id : Int) : Identity :=
  { Namespace := "user", ID := id, OrgID := 1, Login := "alice", Email := "alice@example.org",
    IsDisabled := false, SessionToken := none }

/-- An anonymous identity. -/
def sampleAnonymous : Identity :=
  { Namespace := "anonymous", ID := 0, OrgID := 1, Login := "", Email := "",
    IsDisabled := false, SessionToken := none }

/-- A strategy that returns fixed results and counts the call. -/
def sampleClient (name : String) (res : Option Identity × Option Err) : Client Nat :=
  { Name := name, Authenticate := fun _ w => (res, w + 1) }

/-- A queue entry for `sampleClient` whose `Test` returns a fixed answer. -/
def sampleItem (name : String) (test : Bool) (p : Nat) (res : Option Identity × Option Err) :
    queueItem Nat :=
  { v := { client := sampleClient name res, Test := fun _ w => (test, w), Priority := p },
    p := p }

/-- A service over the given queue and hooks; its session service always mints a token. -/
def sampleService (queue : List (queueItem Nat)) (postAuthHooks : List (PostAuthHookFn Nat))
    (postLoginHooks : List (PostLoginHookFn Nat)) : Service Nat :=
  { clients := fun n =>
      (queue.find? fun it => it.v.client.Name == n).map fun it => it.v.client
    clientQueue := queue
    postAuthHooks := postAuthHooks
    postLoginHooks := postLoginHooks
    CreateToken := fun u _ _ w =>
      ((some { Id := 1, UserId := u.ID, AuthToken := "tok" }, none), w + 1)
    RemoteAddr := fun req => req.RemoteAddr
    GetIPFromAddress := fun addr =>
      if addr = "" then ([], some (.plain "network" "not a valid ip address"))
      else ([127, 0, 0, 1], none) }

/-- A request with a transport request and no org id override. -/
def sampleRequest : Request :=
  { OrgID := 0
    HTTPRequest :=
      some { Query := [], Header := [("User-Agent", "curl")], RemoteAddr := "127.0.0.1" } }

/-- An ordinary error of a collaborator. -/
def sampleErr (msg : String) : Err := .plain "sample" msg

/-- A post-auth hook that succeeds and leaves the identity alone. -/
def hookOk : PostAuthHookFn Nat := { call := fun i _ w => (none, i, w + 1) }

/-- A post-auth hook that fails. -/
def hookFail (e : Err) : PostAuthHookFn Nat := { call := fun i _ w => (some e, i, w + 1) }

/-- A post-auth hook that finds the user locked and sets `IsDisabled`. -/
def hookDisable : PostAuthHookFn Nat :=
  { call := fun i _ w => (none, { i with IsDisabled := true }, w + 1) }

/-- A post-login hook that counts the call. -/
def loginHook : PostLoginHookFn Nat := fun _ _ _ w => w + 1

/-- Strategy A of the dispatch examples: it matches and fails. -/
def itemAFails : queueItem Nat := sampleItem "A" true 1 (none, some (sampleErr "bad credentials"))

/-- Strategy A of the dispatch examples: it matches and succeeds. -/
def itemAOk : queueItem Nat := sampleItem "A" true 1 (some (sampleUser 1), none)

/-- Strategy B of the dispatch examples: it matches and succeeds. -/
def itemBOk : queueItem Nat := sampleItem "B" true 2 (some (sampleUser 2), none)

/-- A (priority 1) and B (priority 2) both match and both would succeed. -/
def serviceBothOk : Service Nat := sampleService [itemAOk, itemBOk] [hookOk] []

/-- A (priority 1) matches and fails, B (priority 2) matches and succeeds. -/
def serviceFallback : Service Nat := sampleService [itemAFails, itemBOk] [hookOk] []

/-! ## Reading a trace -/

/-- Whether the event is a `Test` that returned true: a strategy matched. -/
def Event.isMatch : Event → Bool
  | .test _ _ true => true
  | _ => false

/-- The name of the strategy whose `Test` the event records. -/
def Event.tested : Event → Option String
  | .test n _ _ => some n
  | _ => none

/-- The name of the strategy whose `Authenticate` the event records. -/
def Event.called : Event → Option String
  | .clientAuthenticate n _ _ _ => some n
  | _ => none

/-- Whether the event is a call of a strategy's `Authenticate`. -/
def Event.isStrategyCall : Event → Bool
  | .clientAuthenticate _ _ _ _ => true
  | _ => false

/-- Whether the event is a call of a strategy's `Authenticate` that returned an identity and no
error. -/
def Event.isStrategySuccess : Event → Bool
  | .clientAuthenticate _ _ (some _) none => true
  | _ => false

/-- The error of a "failed to authenticate" log line: the error with which the authentication
of a matched strategy failed, as `Authenticate` aggregates it. -/
def Event.failure : Event → Option Err
  | .logFailedToAuthenticate _ e => some e
  | _ => none

/-- The position and the returned error of a post-auth hook call. -/
def Event.hookCall : Event → Option (Nat × Option Err)
  | .postAuthHook k _ e => some (k, e)
  | _ => none

/-- The position and the arguments of a post-login hook call. -/
def Event.loginHookCall : Event → Option (Nat × Option Identity × Option Err)
  | .postLoginHook k i e => some (k, i, e)
  | _ => none

/-- Whether the event is a call of `CreateToken`. -/
def Event.isCreateToken : Event → Bool
  | .createToken _ _ _ _ _ => true
  | _ => false

/-- Whether the event can come from the post-auth hook loop: a hook call or its log line. -/
def Event.inHooks : Event → Bool
  | .postAuthHook _ _ _ => true
  | .logPostAuthHookFailed _ _ => true
  | _ => false

/-- Whether the event can come from the subroutine `authenticate`: the strategy call, a
post-auth hook call, or one of its two log lines. -/
def Event.inAuthenticate : Event → Bool
  | .clientAuthenticate _ _ _ _ => true
  | .postAuthHook _ _ _ => true
  | .logClientCouldNotAuthenticate _ _ => true
  | .logPostAuthHookFailed _ _ => true
  | _ => false

/-- The causes that `multierror.Append` adds for an appended error: the causes of an aggregate,
the error itself otherwise. -/
def Err.appended : Err → List Err
  | .multi l => l
  | e => [e]

/-- The causes that appending a list of errors one after the other adds. -/
def appendedAll : List Err → List Err
  | [] => []
  | e :: es => e.appended ++ appendedAll es

/-- The causes that `multierror.Append` starts from for its first argument. -/
def causesOf : Option Err → List Err
  | none => []
  | some (.multi l) => l
  | some e => [e]

/-- The position-free error of a failed post-auth hook call. -/
def Event.hookFailure : Event → Option Err
  | .postAuthHook _ _ (some e) => some e
  | _ => none

/-- Strategy A failing with an error that is itself an aggregate of two causes. -/
def itemAAggregate : queueItem Nat :=
  sampleItem "A" true 1
    (none, some (.multi [sampleErr "ldap: bad credentials", sampleErr "grafana: bad credentials"]))

/-- Only A is queued; it matches and fails with an aggregate error. -/
def serviceAggregate : Service Nat := sampleService [itemAAggregate] [hookOk] []

/-- A and B both match and both fail with ordinary errors. -/
def serviceBothFail : Service Nat :=
  sampleService [itemAFails, sampleItem "B" true 2 (none, some (sampleErr "token expired"))]
    [hookOk] []

/-- Only A is queued; it matches and succeeds, and the only post-auth hook fails. -/
def serviceHookFails : Service Nat :=
  sampleService [itemAOk] [hookFail (sampleErr "user sync failed")] []

/-- A (priority 1) returns a disabled identity with no error, B (priority 2) succeeds. -/
def serviceDisabledThenOk : Service Nat :=
  sampleService
    [sampleItem "A" true 1 (some { sampleUser 1 with IsDisabled := true }, none), itemBOk]
    [hookOk] []

/-- A strategy named "form" that authenticates user 42. -/
def formClient : Client Nat := sampleClient "form" (some (sampleUser 42), none)

/-- A service whose second post-auth hook finds the user locked. -/
def serviceHookDisables : Service Nat := sampleService [] [hookOk, hookDisable] []

/-- A service with three post-auth hooks, the second of which fails. -/
def serviceSecondHookFails : Service Nat :=
  sampleService [] [hookOk, hookFail (sampleErr "org sync failed"), hookOk] []

/-- A strategy named "anonymous" that yields an identity outside the user namespace. -/
def anonymousClient : Client Nat := sampleClient "anonymous" (some sampleAnonymous, none)

/-- A service that knows the strategies "form" and "anonymous" by name and has two post-login
hooks. -/
def serviceLogin : Service Nat :=
  { sampleService [] [hookOk] [loginHook, loginHook] with
    clients := fun n =>
      if n = "form" then some formClient
      else if n = "anonymous" then some anonymousClient else none }

/-- A post-login hook that doubles the counter; next to `loginHook` it tells the order of the
calls. -/
def loginHookDouble : PostLoginHookFn Nat := fun _ _ _ w => 2 * w

/-- The login service with the post-login hooks `loginHook` and `loginHookDouble`, registered
in this order. -/
def serviceLoginOrdered : Service Nat :=
  (({ serviceLogin with postLoginHooks := [] }).RegisterPostLoginHook
    loginHook).RegisterPostLoginHook loginHookDouble

/-! ## Redirect and registration -/

/-- A finished call of `RedirectURL`: its two results, the world and the events. -/
structure RedirectRun (σ : Type) where
  url : String
  err : Option Err
  world : σ
  events : List Event
  deriving DecidableEq

/-- The method `Service.RedirectURL`: look the strategy up by name, assert that it is an
`authn.RedirectClient`, and delegate to it. -/
def Service.RedirectURL {σ : Type} (s : Service σ) (client : String) (r : Request) (w : σ) :
    RedirectRun σ :=
  match s.clients client with
  | none => ⟨"", some (ErrClientNotConfigured client), w, []⟩
  | some c =>
    match c.RedirectURL with
    | none => ⟨"", some (ErrUnsupportedClient client), w, []⟩
    | some redirect =>
      match redirect r w with
      | ((url, err), w1) => ⟨url, err, w1, [Event.redirectURL c.Name url err]⟩

/-- The type assertion `c.(authn.ContextAwareClient)`. -/
def Client.asContextAware {σ : Type} (c : Client σ) : Option (ContextAwareClient σ) :=
  match c.contextAware with
  | some ca => some { client := c, Test := ca.Test, Priority := ca.Priority }
  | none => none

/-- Modelled from the spec: the type `queue` and its method `insert` are declared in a file of
package authnimpl that is not among the sources.  `insert(v, p)` puts the entry into the
priority-ordered sequence at the position that keeps it ascending by priority, behind the
entries of the same priority (ties in insertion order); it is a linear scan to the first entry
of greater priority. -/
def queueInsert {σ : Type} (v : ContextAwareClient σ) (p : Nat) :
    List (queueItem σ) → List (queueItem σ)
  | [] => [{ v := v, p := p }]
  | item :: rest =>
    if p < item.p then { v := v, p := p } :: item :: rest
    else item :: queueInsert v p rest

/-- The method `Service.RegisterClient`: store the strategy under its name, and if it is
dispatch-aware insert it into the queue with its priority. -/
def Service.RegisterClient {σ : Type} (s : Service σ) (c : Client σ) : Service σ :=
  let s1 : Service σ :=
    { s with clients := fun n => if n = c.Name then some c else s.clients n }
  match c.asContextAware with
  | some cac => { s1 with clientQueue := queueInsert cac cac.Priority s1.clientQueue }
  | none => s1

/-- The queue entry that registering a strategy adds, if it is dispatch-aware. -/
def Client.queueEntry {σ : Type} (c : Client σ) : Option (queueItem σ) :=
  match c.asContextAware with
  | some cac => some { v := cac, p := cac.Priority }
  | none => none

/-- The request as a walk left it. -/
def Walk.req {σ : Type} : Walk σ → Request
  | .returned run => run.req
  | .exhausted _ r _ _ => r

/-- A dispatch-aware strategy that always matches and authenticates the given user. -/
def awareClient (name : String) (p : Nat) (id : Int) : Client Nat :=
  { Name := name
    Authenticate := fun _ w => ((some (sampleUser id), none), w + 1)
    contextAware := some { Test := fun _ w => (true, w), Priority := p } }

/-- A redirect-capable strategy. -/
def oauthClient : Client Nat :=
  { Name := "oauth"
    Authenticate := fun _ w => ((none, some (sampleErr "no code")), w + 1)
    RedirectURL := some fun _ w => (("https://idp.example.org/authorize", none), w + 1) }

/-- A service with no strategies and no hooks. -/
def emptyService : Service Nat := sampleService [] [] []

/-- A service that knows "session" (not redirect-capable) and "oauth" (redirect-capable). -/
def serviceRedirect : Service Nat :=
  { sampleService [] [hookOk] [loginHook] with
    clients := fun n =>
      if n = "session" then some (awareClient "session" 1 1)
      else if n = "oauth" then some oauthClient else none }

/-- A request whose query asks for org 7 while the header names org 9. -/
def requestQuery7Header9 : Request :=
  { OrgID := 0
    HTTPRequest := some
      { Query := [("targetOrgId", "7")], Header := [("X-Grafana-Org-Id", "9")],
        RemoteAddr := "127.0.0.1" } }

/-- A post-auth hook that fills in the id of the synchronised user. -/
def hookSetID (id : Int) : PostAuthHookFn Nat :=
  { call := fun i _ w => (none, { i with ID := id }, w + 1) }

/-- A service whose only post-auth hook reassigns the id of the identity. -/
def serviceHookReassigns : Service Nat := sampleService [] [hookSetID 99] []

/-- The identity and the world that the given post-auth hooks leave when they are called one
after the other on a non-nil identity, each with what the hook in front of it left. -/
def hooksState {σ : Type} (hooks : List (PostAuthHookFn σ)) (r : Request)
    (st : Identity × σ) : Identity × σ :=
  hooks.foldl (fun st hook => ((hook.call st.1 r st.2).2.1, (hook.call st.1 r st.2).2.2)) st

/-- Whether each of the given post-auth hooks, called in that way, returns a nil error. -/
def hooksSucceed {σ : Type} (r : Request) : List (PostAuthHookFn σ) → Identity × σ → Bool
  | [], _ => true
  | hook :: rest, st =>
    (hook.call st.1 r st.2).1.isNone &&
      hooksSucceed r rest ((hook.call st.1 r st.2).2.1, (hook.call st.1 r st.2).2.2)

/-- A service whose post-auth hooks are registered in this order: one that sets the id to 7,
one that fails, one that succeeds. -/
def serviceHookChain : Service Nat :=
  ((((sampleService [] [] []).RegisterPostAuthHook (hookSetID 7)).RegisterPostAuthHook
    (hookFail (sampleErr "org sync failed"))).RegisterPostAuthHook hookOk)

/-- A service whose post-auth hooks are registered in this order: one that sets the id to 1,
one that sets the id to 2. -/
def serviceHooksOrdered : Service Nat :=
  ((sampleService [] [] []).RegisterPostAuthHook (hookSetID 1)).RegisterPostAuthHook
    (hookSetID 2)

/-- The login service with an address resolution that always fails. -/
def serviceNoIP : Service Nat :=
  { serviceLogin with GetIPFromAddress := fun _ => ([], some (sampleErr "not a valid ip")) }

/-- The service after registering the dispatch-aware strategy "session" (priority 1, user 1)
and then, under the same name, a strategy that is not dispatch-aware (user 2). -/
def serviceReregistered : Service Nat :=
  (emptyService.RegisterClient (awareClient "session" 1 1)).RegisterClient
    (sampleClient "session" (some (sampleUser 2), none))

/-- Strategies registered in this order: "jwt" (priority 20), "form" (not dispatch-aware),
"apikey" (priority 10), "session" (priority 20). -/
def registrationOrder : List (Client Nat) :=
  [awareClient "jwt" 20 3, formClient, awareClient "apikey" 10 1, awareClient "session" 20 2]

/-- A service with one matching strategy. -/
def serviceOneMatch : Service Nat := sampleService [itemAOk] [hookOk] []

/-- A service with one strategy that does not match. -/
def serviceNoMatch : Service Nat :=
  sampleService [sampleItem "A" false 1 (some (sampleUser 1), none)] [hookOk] []

/-- A service whose first strategy does not match and whose second strategy matches. -/
def serviceSecondMatches : Service Nat :=
  sampleService [sampleItem "apikey" false 1 (some (sampleUser 1), none), itemBOk] [hookOk] []

/-- A request that an internal caller built without a transport request. -/
def requestNoHandle : Request := { OrgID := 0, HTTPRequest := none }

end Authn

namespace Historian

/-! ## The Loki state history backend (`pkg/services/ngalert/state/historian/loki.go`) -/

/-- Modelled from the spec: the types `QueryRes` and `Stream` are declared in a file of package
historian that is not among the sources.  As `merge` reads them, a stream has its labels (the
field `Stream`, here `Labels`) and `Values`, a slice of pairs `[2]string` holding a timestamp
and a log line. -/
structure Stream where
  Labels : List (String × String)
  Values : List (String × String)
  deriving DecidableEq, Repr

/-- The query result: `res.Data.Result`, the streams. -/
structure QueryRes where
  Result : List Stream
  deriving DecidableEq, Repr

/-- How `merge` ends: it returns the frame with its rows and a nil error, it returns the
timestamp-parse error, or an index expression panics. -/
inductive MergeResult where
  | frame (rows : List (String × String))
  | parseError
  | panic
  deriving DecidableEq, Repr

/-- The constant expression `^int64(0) >> 1` from which `merge` starts `minVal` in every pass.
On the signed type int64 the complement of 0 is -1, and the shift to the right of a signed
integer keeps the sign, so the value is -1. -/
def initialMinVal : Int := (~~~ (0 : Int)) >>> 1

/-- The variables `minVal`, `minIdx` and `minEl` of `merge`; `minIdx = none` stands for -1. -/
structure Min where
  minVal : Int
  minIdx : Option Nat
  minEl : String × String
  deriving DecidableEq, Repr

/-- How the inner loop of `merge` ends. -/
inductive Scan where
  | done (m : Min)
  | parseError
  | panic
  deriving DecidableEq, Repr

/-- The inner loop `for i, stream := range res.Data.Result` of `merge`, from index `i`.  The
element `stream.Values[pointers[i]]` is read and its timestamp parsed before `pointers[i]` is
compared with `len(stream.Values)`. -/
def scan (pointers : List Nat) : List Stream → Nat → Min → Scan
  | [], _, m => .done m
  | stream :: rest, i, m =>
    match pointers[i]? with
    | none => .panic
    | some p =>
      match stream.Values[p]? with
      | none => .panic
      | some el =>
        match Authn.ParseInt el.1 with
        | none => .parseError
        | some curVal =>
          if p < stream.Values.length ∧ curVal < m.minVal then
            scan pointers rest (i + 1) { minVal := curVal, minIdx := some i, minEl := el }
          else scan pointers rest (i + 1) m

/-- The outer loop `for { ... }` of `merge`, for at most `fuel` passes; `none` when the passes
are used up. -/
def mergeLoop (streams : List Stream) : Nat → List Nat → List (String × String) →
    Option MergeResult
  | 0, _, _ => none
  | fuel + 1, pointers, rows =>
    match scan pointers streams 0
        { minVal := initialMinVal, minIdx := none, minEl := ("", "") } with
    | .panic => some .panic
    | .parseError => some .parseError
    | .done m =>
      match m.minIdx with
      | none => some (.frame rows)
      | some idx =>
        mergeLoop streams fuel (pointers.modify (· + 1) idx) (rows ++ [m.minEl])

/-- The number `totalLen` that `merge` computes first. -/
def totalLen (res : QueryRes) : Nat :=
  (res.Result.map fun arr => arr.Values.length).sum

/-- The function `merge`.  Every pass but the last moves one pointer that was below the length
of its stream, so `totalLen + 1` passes are enough. -/
def merge (res : QueryRes) : Option MergeResult :=
  mergeLoop res.Result (totalLen res + 1) (List.replicate res.Result.length 0) []

/-- A query result with one stream that holds one entry. -/
def oneEntry : QueryRes :=
  { Result := [{ Labels := [("ruleUID", "abc")], Values := [("1", "a")] }] }

/-- A query result with two streams in ascending timestamp order. -/
def twoStreams : QueryRes :=
  { Result :=
      [{ Labels := [("ruleUID", "abc")], Values := [("1", "a"), ("3", "c")] },
        { Labels := [("ruleUID", "abc")], Values := [("2", "b")] }] }

/-- A query result with one stream that holds no entry. -/
def emptyStream : QueryRes := { Result := [{ Labels := [("ruleUID", "abc")], Values := [] }] }

/-- A query result with streams of different lengths: two entries and none. -/
def unevenStreams : QueryRes :=
  { Result :=
      [{ Labels := [("ruleUID", "abc")], Values := [("1", "a"), ("3", "c")] },
        { Labels := [("ruleUID", "xyz")], Values := [] }] }

/-- A query result with one stream that holds one entry, with a timestamp below -1. -/
def negativeEntry : QueryRes :=
  { Result := [{ Labels := [("ruleUID", "abc")], Values := [("-5", "a")] }] }

/-! ## Selectors and labels -/

/-- The label under which the org id of the rule is recorded. -/
def OrgIDLabel : String := "orgID"

/-- The label under which the UID of the rule is recorded. -/
def RuleUIDLabel : String := "ruleUID"

/-- The label under which the group of the rule is recorded. -/
def GroupLabel : String := "group"

/-- The label under which the folder of the rule is recorded. -/
def FolderUIDLabel : String := "folderUID"

/-- Modelled from the spec: the function `isValidOperator` is declared in a file of package
historian that is not among the sources.  The valid operators are the label matching operators
of a log query: `=`, `!=`, `=~` and `!~`. -/
def isValidOperator (op : String) : Bool :=
  op == "=" || op == "!=" || op == "=~" || op == "!~"

/-- One selector rendered as label, operator and double-quoted value. -/
def renderSelector (s : String × String × String) : String :=
  s.1 ++ s.2.1 ++ "\"" ++ s.2.2 ++ "\""

/-- Modelled from the spec: the function `selectorString` is declared in a file of package
historian that is not among the sources; its test `TestSelectorString` is.  For selectors
(label, operator, value) it returns the selectors rendered and joined by commas between braces
and a nil error; if a selector has an operator that is not valid it returns the empty string
and an error that names the first such operator. -/
def selectorString (selectors : List (String × String × String)) : String × Option String :=
  match selectors.find? (fun s => !isValidOperator s.2.1) with
  | some s => ("", some ("'" ++ s.2.1 ++ "' is not a valid query operator"))
  | none => ("\x7b" ++ ",".intercalate (selectors.map renderSelector) ++ "\x7d", none)

/-- The selectors that `QueryStates` passes to `client.query` for a rule UID. -/
def queryStatesSelectors (ruleUID : String) : List (String × String × String) :=
  [("rule_id", "=", ruleUID)]

/-- The assignment `labels[key] = value` on a label map. -/
def setLabel (labels : List (String × String)) (key value : String) : List (String × String) :=
  (key, value) :: labels.filter (fun kv => kv.1 != key)

/-- The fields of `models.AlertRule` that `statesToStreams` reads. -/
structure AlertRule where
  OrgID : Int
  UID : String
  RuleGroup : String
  NamespaceUID : String
  deriving DecidableEq, Repr

/-- The labels that `statesToStreams` puts on the stream of a state: the public labels of the
state (the result of `removePrivateLabels`) with the four labels of the rule set. -/
def streamLabels (rule : AlertRule) (publicLabels : List (String × String)) :
    List (String × String) :=
  setLabel
    (setLabel
      (setLabel (setLabel publicLabels OrgIDLabel (toString rule.OrgID)) RuleUIDLabel rule.UID)
      GroupLabel rule.RuleGroup)
    FolderUIDLabel rule.NamespaceUID

/-- Whether a stream with the given labels is selected by equality selectors: every selector
names a label that the stream carries with exactly that value. -/
def selectorsMatch (selectors : List (String × String × String))
    (labels : List (String × String)) : Bool :=
  selectors.all fun s => s.2.1 == "=" && labels.lookup s.1 == some s.2.2

/-- A rule with the UID "abc". -/
def ruleAbc : AlertRule := { OrgID := 1, UID := "abc", RuleGroup := "cpu", NamespaceUID := "f1" }

end Historian

namespace Vectortile

/-! ## Tiles (`pkg/api/vectortile/tile.go`) -/

/-- A value brought into the range of a 64-bit `int` (two's complement wrap-around). -/
def wrapInt64 (n : Int) : Int := (n + 2 ^ 63) % 2 ^ 64 - 2 ^ 63

/-- The conversion `uint(n)` of a 64-bit `int`. -/
def toUint64 (n : Int) : Nat := (n % 2 ^ 64).toNat

/-- The expression `int(1) << uint(zoom)` on 64-bit `int`: a shift by 64 or more gives 0. -/
def shiftLeftOne (zoom : Int) : Int :=
  if toUint64 zoom < 64 then wrapInt64 (2 ^ toUint64 zoom) else 0

/-- The type `Tile`.  `β` is the type `Bounds`, whose coordinates are floating-point numbers
that the model does not look into. -/
structure Tile (β : Type) where
  Zoom : Int
  X : Int
  Y : Int
  Ext : String
  Bounds : β
  deriving DecidableEq, Repr

/-- The type `TileAppError`; `SrcErr` is the text of the wrapped error. -/
structure TileAppError where
  HTTPCode : Int
  SrcErr : String
  Topic : String
  Message : String
  deriving DecidableEq, Repr

/-- The method `TileAppError.Error`. -/
def TileAppError.Error (tae : TileAppError) : String :=
  if tae.Message ≠ "" then tae.Message ++ "\n" ++ tae.SrcErr else tae.SrcErr

/-- A non-nil `error` that `MakeTile` returns: a `TileAppError`, or the error that
`CalculateBounds` passes on from `getServerBounds`. -/
inductive TileError where
  | tileApp (e : TileAppError)
  | serverBounds (msg : String)
  deriving DecidableEq, Repr

/-- The method `Tile.IsValid`. -/
def Tile.IsValid {β : Type} (tile : Tile β) : Bool :=
  if tile.Zoom > 32 ∨ tile.Zoom < 0 then false
  else
    let worldTileSize := shiftLeftOne tile.Zoom
    if tile.X < 0 ∨ tile.X ≥ worldTileSize ∨ tile.Y < 0 ∨ tile.Y ≥ worldTileSize then false
    else true

/-- The method `Tile.CalculateBounds`.  `bounds` stands for `getServerBounds`, which is not
among the sources, followed by the floating-point computation of the bounds of the tile: it
gives the error of `getServerBounds` or the bounds.  On an error the tile is left as it was. -/
def Tile.CalculateBounds {β : Type} (bounds : Int → Int → Int → Except String β)
    (tile : Tile β) : Tile β × Option TileError :=
  match bounds tile.Zoom tile.X tile.Y with
  | .error e => (tile, some (.serverBounds e))
  | .ok b => ({ tile with Bounds := b }, none)

/-- The method `Tile.String`: the format `%d/%d/%d.%s`. -/
def Tile.String {β : Type} (tile : Tile β) : String :=
  toString tile.Zoom ++ "/" ++ toString tile.X ++ "/" ++ toString tile.Y ++ "." ++ tile.Ext

/-- The function `MakeTile`; `zero` is the zero value of `Bounds`. -/
def MakeTile {β : Type} (zero : β) (bounds : Int → Int → Int → Except String β)
    (x y zoom : Int) (ext : String) : Tile β × Option TileError :=
  let tile : Tile β := { Zoom := zoom, X := x, Y := y, Ext := ext, Bounds := zero }
  if !tile.IsValid then
    let invalidTileError : TileAppError :=
      { HTTPCode := 400, SrcErr := "invalid tile address " ++ tile.String, Topic := "",
        Message := "" }
    (tile, some (.tileApp invalidTileError))
  else
    tile.CalculateBounds bounds

/-- Bounds for the examples: the coordinates are left out, only the tile address is kept. -/
def sampleBounds : Int → Int → Int → Except String (Int × Int × Int) :=
  fun z x y => .ok (z, x, y)

end Vectortile

namespace Api

/-! ## Frontend settings (`pkg/api/frontendsettings.go`) -/

/-- The type `FrontendSettingsBuildInfoDTO`. -/
structure FrontendSettingsBuildInfoDTO where
  HideVersion : Bool
  Version : String
  Commit : String
  Buildstamp : Int
  Edition : String
  LatestVersion : String
  HasUpdate : Bool
  Env : String
  deriving DecidableEq, Repr

/-- The variables of package setting that the build info reads: `setting.BuildVersion`,
`setting.BuildCommit`, `setting.BuildStamp` and `setting.Env`. -/
structure BuildSettings where
  BuildVersion : String
  BuildCommit : String
  BuildStamp : Int
  Env : String
  deriving DecidableEq, Repr

/-- The field `BuildInfo` that `getFrontendSettingsMap` builds: the statements that compute
`hideVersion`, `version`, `commit` and `buildstamp`, and the struct literal.
`anonymousHideVersion` is `hs.Cfg.AnonymousHideVersion`, `isSignedIn` is `c.IsSignedIn`;
`edition`, `latestVersion` and `hasUpdate` are what the license and the update checker
return. -/
def getFrontendSettingsMapBuildInfo (anonymousHideVersion isSignedIn : Bool)
    (st : BuildSettings) (edition latestVersion : String) (hasUpdate : Bool) :
    FrontendSettingsBuildInfoDTO :=
  let hideVersion := anonymousHideVersion && !isSignedIn
  let version := if hideVersion then "" else st.BuildVersion
  let commit := if hideVersion then "" else st.BuildCommit
  let buildstamp := if hideVersion then 0 else st.BuildStamp
  { HideVersion := hideVersion
    Version := version
    Commit := commit
    Buildstamp := buildstamp
    Edition := edition
    LatestVersion := latestVersion
    HasUpdate := hasUpdate
    Env := st.Env }

/-- The JSON keys of `FrontendSettingsDTO`, from its struct tags, in declaration order: the
members of the object that `GetFrontendSettings` sends. -/
def FrontendSettingsDTO.jsonKeys : List String :=
  ["defaultDatasource", "datasources", "minRefreshInterval", "panels", "appUrl", "appSubUrl",
    "allowOrgCreate", "authProxyEnabled", "ldapEnabled", "jwtHeaderName", "jwtUrlLogin",
    "alertingEnabled", "alertingErrorOrTimeout", "alertingNoDataOrNullValues",
    "alertingMinInterval", "liveEnabled", "autoAssignOrg", "verifyEmailEnabled",
    "sigV4AuthEnabled", "azureAuthEnabled", "rbacEnabled", "exploreEnabled", "helpEnabled",
    "profileEnabled", "queryHistoryEnabled", "googleAnalyticsId", "googleAnalytics4Id",
    "GoogleAnalytics4SendManualPageViews", "rudderstackWriteKey", "rudderstackDataPlaneUrl",
    "rudderstackSdkUrl", "rudderstackConfigUrl", "feedbackLinksEnabled",
    "applicationInsightsConnectionString", "applicationInsightsEndpointUrl", "disableLoginForm",
    "disableUserSignUp", "loginHint", "passwordHint", "externalUserMngInfo",
    "externalUserMngLinkUrl", "externalUserMngLinkName", "viewersCanEdit",
    "angularSupportEnabled", "editorsCanAdmin", "disableSanitizeHtml", "pluginsToPreload",
    "auth", "buildInfo", "licenseInfo", "featureToggles", "rendererAvailable", "rendererVersion",
    "secretsManagerPluginEnabled", "http2Enabled", "sentry", "grafanaJavascriptAgent",
    "pluginCatalogURL", "pluginAdminEnabled", "pluginAdminExternalManageEnabled",
    "pluginCatalogHiddenPlugins", "expressionsEnabled", "awsAllowedAuthProviders",
    "awsAssumeRoleEnabled", "supportBundlesEnabled", "azure", "caching", "recordedQueries",
    "reporting", "unifiedAlertingEnabled", "unifiedAlerting", "oauth", "samlEnabled", "samlName",
    "tokenExpirationDayLimit", "dashboardPreviews", "geomapDefaultBaseLayerConfig",
    "geomapDisableCustomBaseLayer"]

/-- A key with its letters in lower case, as the JSON decoder compares keys. -/
def lowerKey (key : String) : String := String.mk (key.toList.map Char.toLower)

/-- What `TestHTTPServer_GetFrontendSettings_pluginsCDNBaseURL` reads from the response: the
member `pluginsCDNBaseURL` of the object, matched without regard to case, or the empty string
when the object has no such member. -/
def decodePluginsCDNBaseURL (object : List (String × String)) : String :=
  match object.find? (fun kv => lowerKey kv.1 == "pluginscdnbaseurl") with
  | some kv => kv.2
  | none => ""

/-! ## Data sources for the frontend -/

/-- The access mode `datasources.DS_ACCESS_DIRECT`. -/
def DS_ACCESS_DIRECT : String := "direct"

/-- The access mode `datasources.DS_ACCESS_PROXY`. -/
def DS_ACCESS_PROXY : String := "proxy"

/-- The data source type `datasources.DS_INFLUXDB_08`. -/
def DS_INFLUXDB_08 : String := "influxdb_08"

/-- The data source type `datasources.DS_INFLUXDB`. -/
def DS_INFLUXDB : String := "influxdb"

/-- The data source type `datasources.DS_ES`. -/
def DS_ES : String := "elasticsearch"

/-- The data source type `datasources.DS_PROMETHEUS`. -/
def DS_PROMETHEUS : String := "prometheus"

/-- The stored credentials of a data source: the basic-auth switch and user, the
with-credentials switch, the user, and the encrypted secrets that the decryption functions of
the data source service read. -/
structure Credentials where
  BasicAuth : Bool
  BasicAuthUser : String
  WithCredentials : Bool
  User : String
  SecureJsonData : List (String × String)
  deriving DecidableEq, Repr

/-- The fields of `datasources.DataSource` that `getFSDataSources` reads.  `TypeName` is the
field `Type`, `JsonData` is `none` for a nil pointer, and the credentials are grouped in
`Creds`. -/
structure DataSource where
  Id : Int
  Uid : String
  TypeName : String
  Name : String
  Url : String
  Access : String
  IsDefault : Bool
  ReadOnly : Bool
  JsonData : Option (List (String × String))
  Database : String
  Creds : Credentials
  deriving DecidableEq, Repr

/-- The fields of `plugins.PluginDTO` that `getFSDataSources` copies. -/
structure PluginDTO where
  Preload : Bool
  Module : String
  BaseURL : String
  Signature : String
  JSONData : String
  deriving DecidableEq, Repr

/-- The type `plugins.PluginMetaDTO`. -/
structure PluginMetaDTO where
  JSONData : String
  Signature : String
  Module : String
  BaseURL : String
  deriving DecidableEq, Repr

/-- The type `plugins.DataSourceDTO`, the entry sent to the frontend; `TypeName` is the field
`Type`. -/
structure DataSourceDTO where
  ID : Int
  UID : String
  TypeName : String
  Name : String
  PluginMeta : Option PluginMetaDTO
  URL : String
  IsDefault : Bool
  Access : String
  Preload : Bool
  Module : String
  JSONData : List (String × String)
  ReadOnly : Bool
  BasicAuth : String
  WithCredentials : Bool
  Username : String
  Password : String
  Database : String
  deriving DecidableEq, Repr

/-- A call to a decryption function of the data source service. -/
inductive DecryptCall where
  | basicAuthPassword (id : Int)
  | password (id : Int)
  deriving DecidableEq, Repr

/-- How the body of the loop over the data sources ends for one data source: `continue`
because the plugin is not found, the entry to store under the name of the data source, the
error of a decryption that the function returns, or a panic. -/
inductive BodyOutcome where
  | skip
  | dto (d : DataSourceDTO)
  | err (e : String)
  | panic
  deriving DecidableEq, Repr

/-- The outcome of the body and the decryption calls it made, in order. -/
structure BodyRun where
  outcome : BodyOutcome
  decrypts : List DecryptCall
  deriving DecidableEq, Repr

/-- The collaborators of the loop: the lookup `enabledPlugins.Get(plugins.DataSource, type)`,
the two decryption functions of the data source service, and `util.GetBasicAuthHeader`. -/
structure Deps where
  plugin : String → Option PluginDTO
  DecryptedBasicAuthPassword : DataSource → Except String String
  DecryptedPassword : DataSource → Except String String
  GetBasicAuthHeader : String → String → String

/-- The assignment `m[key] = value` on a JSON object. -/
def setKey (m : List (String × String)) (key value : String) : List (String × String) :=
  (key, value) :: m.filter (fun kv => kv.1 != key)

/-- The last statements of the body: the database name, and for Prometheus the call
`ds.JsonData.Set("directUrl", ds.Url)`, which panics on a nil `JsonData` and otherwise writes
into the map that `dsDTO.JSONData` shares. -/
def finishBody (ds : DataSource) (d : DataSourceDTO) (decrypts : List DecryptCall) : BodyRun :=
  let d1 : DataSourceDTO :=
    if ds.TypeName = DS_INFLUXDB ∨ ds.TypeName = DS_ES then { d with Database := ds.Database }
    else d
  if ds.TypeName = DS_PROMETHEUS then
    match ds.JsonData with
    | none => ⟨.panic, decrypts⟩
    | some m => ⟨.dto { d1 with JSONData := setKey m "directUrl" ds.Url }, decrypts⟩
  else ⟨.dto d1, decrypts⟩

/-- The statements of the body for a data source with direct access, type InfluxDB 0.8 and
InfluxDB: the password is decrypted and sent with the user. -/
def influxBody (deps : Deps) (ds : DataSource) (url : String) (d : DataSourceDTO)
    (decrypts : List DecryptCall) : BodyRun :=
  let step08 : Except String (DataSourceDTO × List DecryptCall) :=
    if ds.TypeName = DS_INFLUXDB_08 then
      match deps.DecryptedPassword ds with
      | .error e => .error e
      | .ok password =>
        .ok ({ d with Username := ds.Creds.User, Password := password,
                      URL := url ++ "/db/" ++ ds.Database },
          decrypts ++ [.password ds.Id])
    else .ok (d, decrypts)
  match step08 with
  | .error e => ⟨.err e, decrypts ++ [.password ds.Id]⟩
  | .ok (d1, calls1) =>
    if ds.TypeName = DS_INFLUXDB then
      match deps.DecryptedPassword ds with
      | .error e => ⟨.err e, calls1 ++ [.password ds.Id]⟩
      | .ok password =>
        finishBody ds
          { d1 with Username := ds.Creds.User, Password := password, URL := url }
          (calls1 ++ [.password ds.Id])
    else finishBody ds d1 calls1

/-- The body of the loop `for _, ds := range orgDataSources` of `getFSDataSources`. -/
def dataSourceBody (deps : Deps) (ds : DataSource) : BodyRun :=
  let url := if ds.Access = DS_ACCESS_PROXY then "/api/datasources/proxy/" ++ toString ds.Id
    else ds.Url
  let dsDTO : DataSourceDTO :=
    { ID := ds.Id, UID := ds.Uid, TypeName := ds.TypeName, Name := ds.Name, PluginMeta := none,
      URL := url, IsDefault := ds.IsDefault, Access := ds.Access, Preload := false,
      Module := "", JSONData := [], ReadOnly := ds.ReadOnly, BasicAuth := "",
      WithCredentials := false, Username := "", Password := "", Database := "" }
  match deps.plugin ds.TypeName with
  | none => ⟨.skip, []⟩
  | some plugin =>
    let d1 : DataSourceDTO :=
      { dsDTO with
        Preload := plugin.Preload
        Module := plugin.Module
        PluginMeta := some
          { JSONData := plugin.JSONData, Signature := plugin.Signature,
            Module := plugin.Module, BaseURL := plugin.BaseURL }
        JSONData := match ds.JsonData with
          | none => []
          | some m => m }
    if ds.Access = DS_ACCESS_DIRECT then
      if ds.Creds.BasicAuth then
        match deps.DecryptedBasicAuthPassword ds with
        | .error e => ⟨.err e, [.basicAuthPassword ds.Id]⟩
        | .ok password =>
          let d2 : DataSourceDTO :=
            { d1 with BasicAuth := deps.GetBasicAuthHeader ds.Creds.BasicAuthUser password }
          let d3 : DataSourceDTO :=
            if ds.Creds.WithCredentials then { d2 with WithCredentials := true } else d2
          influxBody deps ds url d3 [.basicAuthPassword ds.Id]
      else
        let d3 : DataSourceDTO :=
          if ds.Creds.WithCredentials then { d1 with WithCredentials := true } else d1
        influxBody deps ds url d3 []
    else finishBody ds d1 []

/-- A proxied Prometheus data source with basic auth. -/
def sampleProxied : DataSource :=
  { Id := 7, Uid := "p1", TypeName := "prometheus", Name := "Prometheus",
    Url := "http://prometheus:9090", Access := "proxy", IsDefault := true, ReadOnly := false,
    JsonData := some [("httpMethod", "POST")], Database := "",
    Creds :=
      { BasicAuth := true, BasicAuthUser := "admin", WithCredentials := true, User := "root",
        SecureJsonData := [("basicAuthPassword", "c2VjcmV0")] } }

/-- Collaborators for the examples: every plugin is enabled, decryption returns the stored
secret. -/
def sampleDeps : Deps :=
  { plugin := fun t =>
      some { Preload := false, Module := "app/plugins/datasource/" ++ t ++ "/module",
             BaseURL := "public/app/plugins/datasource/" ++ t, Signature := "internal",
             JSONData := t }
    DecryptedBasicAuthPassword := fun ds =>
      match ds.Creds.SecureJsonData.lookup "basicAuthPassword" with
      | some p => .ok p
      | none => .error "no basic auth password"
    DecryptedPassword := fun ds =>
      match ds.Creds.SecureJsonData.lookup "password" with
      | some p => .ok p
      | none => .error "no password"
    GetBasicAuthHeader := fun u p => "Basic " ++ u ++ ":" ++ p }

end Api

namespace Authn

/-! ## Facts about the loops -/

theorem Walk.events_prepend {σ : Type} (evs : List Event) (x : Walk σ) :
    (x.prepend evs).events = evs ++ x.events := by
  cases x <;> rfl

theorem Walk.prepend_returned {σ : Type} (evs : List Event) (run : Run σ) :
    (Walk.returned run).prepend evs = .returned { run with events := evs ++ run.events } := rfl

theorem Walk.prepend_exhausted {σ : Type} (evs evs1 : List Event) (a : Option Err)
    (r : Request) (w : σ) :
    (Walk.exhausted a r w evs1).prepend evs = .exhausted a r w (evs ++ evs1) := rfl

theorem Walk.prepend_nil {σ : Type} (x : Walk σ) : x.prepend [] = x := by
  cases x <;> rfl

theorem Walk.prepend_prepend {σ : Type} (e1 e2 : List Event) (x : Walk σ) :
    (x.prepend e2).prepend e1 = x.prepend (e1 ++ e2) := by
  cases x <;> simp [Walk.prepend_returned, Walk.prepend_exhausted]

/-- Walking a concatenation: if the walk over the first part is left by a return, so is the
whole walk; otherwise the walk goes on over the second part from where the first ended. -/
theorem Service.walk_append {σ : Type} (s : Service σ) (pre post : List (queueItem σ)) :
    ∀ (a : Option Err) (r : Request) (w : σ),
      s.walk (pre ++ post) a r w =
        match s.walk pre a r w with
        | .returned run => .returned run
        | .exhausted a1 r1 w1 evs => (s.walk post a1 r1 w1).prepend evs := by
  induction pre with
  | nil => intro a r w; simp [Service.walk, Walk.prepend_nil]
  | cons item rest ih =>
    intro a r w
    simp only [List.cons_append, Service.walk]
    rcases hT : item.v.Test r w with ⟨b, w1⟩
    cases b
    · simp only [List.append_eq]
      rw [ih]
      cases s.walk rest a r w1 <;>
        simp [Walk.prepend_returned, Walk.prepend_exhausted, Walk.prepend_prepend]
    · simp only
      rcases hO : (s.authenticate item.v.client r w1).outcome with _ | _
      · rename_i identity err
        cases err with
        | some e =>
          simp only [List.append_eq]
          rw [ih]
          cases s.walk rest _ _ _ <;>
        simp [Walk.prepend_returned, Walk.prepend_exhausted, Walk.prepend_prepend]
        | none =>
          cases identity with
          | some i => simp
          | none =>
            simp only [List.append_eq]
            rw [ih]
            cases s.walk rest _ _ _ <;>
        simp [Walk.prepend_returned, Walk.prepend_exhausted, Walk.prepend_prepend]
      · simp

/-- A walk in which no `Test` returns true runs out of items, leaves `authErr` and the request
as they were, and produces one `test` event per item and nothing else. -/
theorem Service.walk_no_match {σ : Type} (s : Service σ) (items : List (queueItem σ)) :
    ∀ (a : Option Err) (r : Request) (w : σ),
      (∀ n o, Event.test n o true ∉ (s.walk items a r w).events) →
      ∃ w1, s.walk items a r w =
        .exhausted a r w1 (items.map fun it => Event.test it.v.client.Name r.OrgID false) := by
  induction items with
  | nil => intro a r w _; exact ⟨w, rfl⟩
  | cons item rest ih =>
    intro a r w h
    simp only [Service.walk] at h ⊢
    rcases hT : item.v.Test r w with ⟨b, w1⟩
    rw [hT] at h
    cases b
    · simp only [Walk.events_prepend] at h
      obtain ⟨w2, h2⟩ := ih a r w1 (fun n o hm => h n o (by simp [hm]))
      exact ⟨w2, by simp [h2, Walk.prepend_exhausted]⟩
    · exfalso
      apply h item.v.client.Name r.OrgID
      simp only
      rcases (s.authenticate item.v.client r w1).outcome with _ | _
      · rename_i identity err
        cases err with
        | some e => simp [Walk.events_prepend]
        | none =>
          cases identity with
          | some i => simp [Walk.events]
          | none => simp [Walk.events_prepend]
      · simp [Walk.events]

/-! ## The dispatcher -/

/-- C2: whenever no `Test` evaluated for the request returns true (the empty queue included),
`Authenticate` returns no identity and the "cannot authenticate request" error, leaves the
request as it was, and its only events are one `test` event per queued strategy, in order: no
strategy's `Authenticate`, no post-auth hook and no logger is called. -/
theorem Authenticate_no_match {σ : Type} (s : Service σ) (r : Request) (w : σ)
    (h : ∀ n o, Event.test n o true ∉ (s.Authenticate r w).events) :
    (s.Authenticate r w).outcome = .ret none (some errCantAuthenticateReq) ∧
    (s.Authenticate r w).req = r ∧
    (s.Authenticate r w).events =
      s.clientQueue.map (fun it => Event.test it.v.client.Name r.OrgID false) ∧
    (∀ n o i e, Event.clientAuthenticate n o i e ∉ (s.Authenticate r w).events) ∧
    (∀ k i e, Event.postAuthHook k i e ∉ (s.Authenticate r w).events) := by
  have hw : ∀ n o, Event.test n o true ∉ (s.walk s.clientQueue none r w).events := by
    intro n o hm
    apply h n o
    unfold Service.Authenticate
    cases hx : s.walk s.clientQueue none r w with
    | returned run => rw [hx] at hm; exact hm
    | exhausted a r1 w1 evs =>
      rw [hx] at hm
      cases a <;> exact hm
  obtain ⟨w1, h1⟩ := s.walk_no_match s.clientQueue none r w hw
  have hA : s.Authenticate r w =
      ⟨.ret none (some errCantAuthenticateReq), r, w1,
        s.clientQueue.map (fun it => Event.test it.v.client.Name r.OrgID false)⟩ := by
    unfold Service.Authenticate
    rw [h1]
  rw [hA]
  refine ⟨rfl, rfl, rfl, ?_, ?_⟩ <;> simp

/-- Witness for C2: a queue of two strategies neither of which matches. -/
theorem Authenticate_no_match_witness :
    (∀ n o, Event.test n o true ∉
      ((sampleService [sampleItem "apikey" false 1 (some (sampleUser 1), none),
          sampleItem "session" false 2 (some (sampleUser 2), none)] [hookOk] []).Authenticate
        sampleRequest 0).events) ∧
    ((sampleService [sampleItem "apikey" false 1 (some (sampleUser 1), none),
          sampleItem "session" false 2 (some (sampleUser 2), none)] [hookOk] []).Authenticate
        sampleRequest 0).outcome = .ret none (some errCantAuthenticateReq) :=
  have hev : ((sampleService [sampleItem "apikey" false 1 (some (sampleUser 1), none),
          sampleItem "session" false 2 (some (sampleUser 2), none)] [hookOk] []).Authenticate
        sampleRequest 0).events =
      [Event.test "apikey" 0 false, Event.test "session" 0 false] := by decide
  have hyp : ∀ n o, Event.test n o true ∉
      ((sampleService [sampleItem "apikey" false 1 (some (sampleUser 1), none),
          sampleItem "session" false 2 (some (sampleUser 2), none)] [hookOk] []).Authenticate
        sampleRequest 0).events := by
    intro n o hm
    rw [hev] at hm
    simp at hm
  ⟨hyp, (Authenticate_no_match _ sampleRequest 0 hyp).1⟩

/-! ## Facts about the subroutine and the trace -/

theorem multierrorAppend_eq (a : Option Err) (e : Err) :
    multierrorAppend a e = .multi (causesOf a ++ e.appended) := by
  cases e <;> rcases a with _ | (_ | _) <;> rfl

theorem causesOf_multierrorAppend (a : Option Err) (e : Err) :
    causesOf (some (multierrorAppend a e)) = causesOf a ++ e.appended := by
  rw [multierrorAppend_eq]; rfl

/-- Every event of the post-auth hook loop is a hook call or the hook log line. -/
theorem runPostAuthHooks_inHooks {σ : Type} (hooks : List (PostAuthHookFn σ)) :
    ∀ (idx : Nat) (identity : Option Identity) (r : Request) (w : σ),
      ∀ ev ∈ (runPostAuthHooks hooks idx identity r w).events, ev.inHooks = true := by
  induction hooks with
  | nil => intro idx identity r w ev hev; simp [runPostAuthHooks] at hev
  | cons hook rest ih =>
    intro idx identity r w ev hev
    cases identity with
    | some i =>
      simp only [runPostAuthHooks] at hev
      rcases hc : hook.call i r w with ⟨e, i1, w1⟩
      rw [hc] at hev
      cases e with
      | some err =>
        simp only [List.mem_cons, List.mem_singleton, List.not_mem_nil, or_false] at hev
        rcases hev with rfl | rfl <;> rfl
      | none =>
        simp only [List.mem_cons] at hev
        rcases hev with rfl | hev
        · rfl
        · exact ih _ _ _ _ ev hev
    | none =>
      simp only [runPostAuthHooks] at hev
      rcases hc : hook.callNil r w with ⟨e, w1⟩
      rw [hc] at hev
      cases e with
      | some err =>
        simp only [List.mem_cons, List.mem_singleton, List.not_mem_nil, or_false] at hev
        rcases hev with rfl | rfl <;> rfl
      | none =>
        simp only [List.mem_cons] at hev
        rcases hev with rfl | hev
        · rfl
        · exact ih _ _ _ _ ev hev

/-- The shape of a run of the subroutine, by the results of the strategy and of the hook
loop. -/
theorem Service.authenticate_cases {σ : Type} (s : Service σ) (c : Client σ) (r : Request)
    (w : σ) :
    (∃ identity err w1,
      c.Authenticate { r with OrgID := orgIDFromRequest r } w = ((identity, some err), w1) ∧
      s.authenticate c r w =
        ⟨.ret none (some err), { r with OrgID := orgIDFromRequest r }, w1,
          [Event.clientAuthenticate c.Name (orgIDFromRequest r) identity (some err),
            Event.logClientCouldNotAuthenticate c.Name err]⟩) ∨
    (∃ identity w1,
      c.Authenticate { r with OrgID := orgIDFromRequest r } w = ((identity, none), w1) ∧
      s.authenticate c r w =
        ⟨match (runPostAuthHooks s.postAuthHooks 0 identity
              { r with OrgID := orgIDFromRequest r } w1).err with
          | some err => .ret none (some err)
          | none =>
            match (runPostAuthHooks s.postAuthHooks 0 identity
                { r with OrgID := orgIDFromRequest r } w1).identity with
            | none => .panic
            | some i =>
              if i.IsDisabled then .ret none (some errDisabledIdentity) else .ret (some i) none,
          { r with OrgID := orgIDFromRequest r },
          (runPostAuthHooks s.postAuthHooks 0 identity
              { r with OrgID := orgIDFromRequest r } w1).world,
          Event.clientAuthenticate c.Name (orgIDFromRequest r) identity none ::
            (runPostAuthHooks s.postAuthHooks 0 identity
              { r with OrgID := orgIDFromRequest r } w1).events⟩) := by
  rcases hc : c.Authenticate { r with OrgID := orgIDFromRequest r } w with ⟨⟨identity, e⟩, w1⟩
  cases e with
  | some err =>
    left
    exact ⟨identity, err, w1, rfl, by simp only [Service.authenticate, hc]⟩
  | none =>
    right
    refine ⟨identity, w1, rfl, ?_⟩
    simp only [Service.authenticate, hc]
    cases (runPostAuthHooks s.postAuthHooks 0 identity
      { r with OrgID := orgIDFromRequest r } w1).err with
    | some err => rfl
    | none =>
      simp only
      cases (runPostAuthHooks s.postAuthHooks 0 identity
        { r with OrgID := orgIDFromRequest r } w1).identity with
      | none => rfl
      | some i =>
        simp only
        cases i.IsDisabled <;> rfl

theorem Event.inHooks_classes (ev : Event) (h : ev.inHooks = true) :
    ev.inAuthenticate = true ∧ ev.isStrategyCall = false := by
  cases ev <;> simp_all [Event.inHooks, Event.inAuthenticate, Event.isStrategyCall]

theorem Event.inAuthenticate_classes (ev : Event) (h : ev.inAuthenticate = true) :
    ev.isMatch = false ∧ ev.failure = none ∧ ev.isCreateToken = false ∧
      ev.loginHookCall = none := by
  cases ev <;>
    simp_all [Event.inAuthenticate, Event.isMatch, Event.failure, Event.isCreateToken,
      Event.loginHookCall]

/-- The subroutine never returns a nil identity together with a nil error. -/
theorem Service.authenticate_ne_nil_nil {σ : Type} (s : Service σ) (c : Client σ)
    (r : Request) (w : σ) : (s.authenticate c r w).outcome ≠ .ret none none := by
  rcases s.authenticate_cases c r w with ⟨identity, err, w1, _, h⟩ | ⟨identity, w1, _, h⟩
  · rw [h]; simp
  · rw [h]
    simp only
    cases (runPostAuthHooks s.postAuthHooks 0 identity
      { r with OrgID := orgIDFromRequest r } w1).err with
    | some err => simp
    | none =>
      simp only
      cases (runPostAuthHooks s.postAuthHooks 0 identity
        { r with OrgID := orgIDFromRequest r } w1).identity with
      | none => simp
      | some i =>
        simp only
        cases i.IsDisabled <;> simp

/-- Every event of the subroutine is the strategy call, a hook call or one of its log lines. -/
theorem Service.authenticate_inAuthenticate {σ : Type} (s : Service σ) (c : Client σ)
    (r : Request) (w : σ) :
    ∀ ev ∈ (s.authenticate c r w).events, ev.inAuthenticate = true := by
  intro ev hev
  rcases s.authenticate_cases c r w with ⟨identity, err, w1, _, h⟩ | ⟨identity, w1, _, h⟩
  · rw [h] at hev
    simp only [List.mem_cons, List.mem_singleton, List.not_mem_nil, or_false] at hev
    rcases hev with rfl | rfl <;> rfl
  · rw [h] at hev
    simp only [List.mem_cons] at hev
    rcases hev with rfl | hev
    · rfl
    · exact (Event.inHooks_classes ev (runPostAuthHooks_inHooks _ _ _ _ _ ev hev)).1

/-- The subroutine calls the strategy exactly once. -/
theorem Service.authenticate_one_call {σ : Type} (s : Service σ) (c : Client σ)
    (r : Request) (w : σ) :
    ((s.authenticate c r w).events.filter Event.isStrategyCall).length = 1 := by
  have hh : ∀ (identity : Option Identity) (w1 : σ),
      (runPostAuthHooks s.postAuthHooks 0 identity
        { r with OrgID := orgIDFromRequest r } w1).events.filter Event.isStrategyCall = [] := by
    intro identity w1
    rw [List.filter_eq_nil_iff]
    intro ev hev
    rw [(Event.inHooks_classes ev (runPostAuthHooks_inHooks _ _ _ _ _ ev hev)).2]
    simp
  rcases s.authenticate_cases c r w with ⟨identity, err, w1, _, h⟩ | ⟨identity, w1, _, h⟩
  · rw [h]; simp [Event.isStrategyCall]
  · rw [h]; simp [Event.isStrategyCall, hh]

/-- The events of the subroutine hold no match, no failure report, no `CreateToken` call and no
post-login hook call. -/
theorem Service.authenticate_filters {σ : Type} (s : Service σ) (c : Client σ)
    (r : Request) (w : σ) :
    (s.authenticate c r w).events.filter Event.isMatch = [] ∧
    (s.authenticate c r w).events.filterMap Event.failure = [] ∧
    (s.authenticate c r w).events.filter Event.isCreateToken = [] ∧
    (s.authenticate c r w).events.filterMap Event.loginHookCall = [] := by
  have h := s.authenticate_inAuthenticate c r w
  refine ⟨?_, ?_, ?_, ?_⟩
  · rw [List.filter_eq_nil_iff]
    intro ev hev
    rw [(Event.inAuthenticate_classes ev (h ev hev)).1]; simp
  · rw [List.filterMap_eq_nil_iff]
    intro ev hev
    exact (Event.inAuthenticate_classes ev (h ev hev)).2.1
  · rw [List.filter_eq_nil_iff]
    intro ev hev
    rw [(Event.inAuthenticate_classes ev (h ev hev)).2.2.1]; simp
  · rw [List.filterMap_eq_nil_iff]
    intro ev hev
    exact (Event.inAuthenticate_classes ev (h ev hev)).2.2.2

theorem Walk.prepend_eq_exhausted {σ : Type} (evs : List Event) (x : Walk σ) (a : Option Err)
    (r : Request) (w : σ) (all : List Event) (h : x.prepend evs = .exhausted a r w all) :
    ∃ evs1, x = .exhausted a r w evs1 ∧ all = evs ++ evs1 := by
  cases x with
  | returned run => simp [Walk.prepend_returned] at h
  | exhausted a1 r1 w1 evs1 =>
    simp only [Walk.prepend_exhausted, Walk.exhausted.injEq] at h
    obtain ⟨rfl, rfl, rfl, rfl⟩ := h
    exact ⟨evs1, rfl, rfl⟩

theorem Walk.prepend_eq_returned {σ : Type} (evs : List Event) (x : Walk σ) (run : Run σ)
    (h : x.prepend evs = .returned run) :
    ∃ run1, x = .returned run1 ∧ run.outcome = run1.outcome ∧
      run.events = evs ++ run1.events := by
  cases x with
  | exhausted a1 r1 w1 evs1 => simp [Walk.prepend_exhausted] at h
  | returned run1 =>
    simp only [Walk.prepend_returned, Walk.returned.injEq] at h
    subst h
    exact ⟨run1, rfl, rfl, rfl⟩

/-- What a walk leaves behind.  Every match is followed by one strategy call.  If the items ran
out, every match was reported as failed and `authErr` is the aggregate of the reported
failures appended to the `authErr` it started from; if a statement returned, exactly one match
was not reported as failed and the outcome is a panic or an identity. -/
theorem Service.walk_counts {σ : Type} (s : Service σ) (items : List (queueItem σ)) :
    ∀ (a : Option Err) (r : Request) (w : σ),
      (∀ a1 r1 w1 evs, s.walk items a r w = .exhausted a1 r1 w1 evs →
        (evs.filter Event.isMatch).length = (evs.filterMap Event.failure).length ∧
        (evs.filter Event.isStrategyCall).length = (evs.filter Event.isMatch).length ∧
        a1 = if evs.filterMap Event.failure = [] then a
              else some (.multi (causesOf a ++ appendedAll (evs.filterMap Event.failure)))) ∧
      (∀ run, s.walk items a r w = .returned run →
        (run.events.filter Event.isMatch).length =
          (run.events.filterMap Event.failure).length + 1 ∧
        (run.events.filter Event.isStrategyCall).length =
          (run.events.filter Event.isMatch).length ∧
        (run.outcome = .panic ∨ ∃ i, run.outcome = .ret (some i) none)) := by
  induction items with
  | nil =>
    intro a r w
    constructor
    · intro a1 r1 w1 evs h
      simp only [Service.walk, Walk.exhausted.injEq] at h
      obtain ⟨rfl, rfl, rfl, rfl⟩ := h
      simp
    · intro run h
      simp [Service.walk] at h
  | cons item rest ih =>
    intro a r w
    simp only [Service.walk]
    rcases hT : item.v.Test r w with ⟨b, w1⟩
    cases b
    · simp only
      constructor
      · intro a1 r1 w2 evs h
        obtain ⟨evs1, h1, rfl⟩ := Walk.prepend_eq_exhausted _ _ _ _ _ _ h
        obtain ⟨c1, c2, c3⟩ := (ih a r w1).1 a1 r1 w2 evs1 h1
        simp [Event.isMatch, Event.failure, Event.isStrategyCall, c1, c2, c3]
      · intro run h
        obtain ⟨run1, h1, ho, he⟩ := Walk.prepend_eq_returned _ _ _ h
        obtain ⟨c1, c2, c3⟩ := (ih a r w1).2 run1 h1
        rw [he, ho]
        simp [Event.isMatch, Event.failure, Event.isStrategyCall, c1, c2, c3]
    · simp only
      obtain ⟨f1, f2, _, _⟩ := s.authenticate_filters item.v.client r w1
      have f3 := s.authenticate_one_call item.v.client r w1
      have f4 := s.authenticate_ne_nil_nil item.v.client r w1
      rcases hO : (s.authenticate item.v.client r w1).outcome with _ | _
      · rename_i identity err
        cases err with
        | some e =>
          simp only
          constructor
          · intro a1 r1 w2 evs h
            obtain ⟨evs1, h1, rfl⟩ := Walk.prepend_eq_exhausted _ _ _ _ _ _ h
            obtain ⟨c1, c2, c3⟩ := (ih _ _ _).1 a1 r1 w2 evs1 h1
            refine ⟨?_, ?_, ?_⟩
            · simp [Event.isMatch, Event.failure, f1, f2, c1]
            · simp [Event.isMatch, Event.isStrategyCall, f1, f3, c2, List.filter_cons]
              omega
            · rw [c3]
              simp only [List.cons_append, List.filterMap_cons, List.filterMap_append, f2,
                Event.failure, List.nil_append, List.singleton_append, reduceCtorEq,
                if_false, appendedAll, causesOf_multierrorAppend]
              by_cases hF : List.filterMap Event.failure evs1 = []
              · simp [hF, appendedAll, multierrorAppend_eq]
              · simp [hF, List.append_assoc]
          · intro run h
            obtain ⟨run1, h1, ho, he⟩ := Walk.prepend_eq_returned _ _ _ h
            obtain ⟨c1, c2, c3⟩ := (ih _ _ _).2 run1 h1
            rw [he, ho]
            refine ⟨?_, ?_, c3⟩
            · simp [Event.isMatch, Event.failure, f1, f2, c1]
            · simp [Event.isMatch, Event.isStrategyCall, f1, f3, c2, List.filter_cons]
              omega
        | none =>
          cases identity with
          | some i =>
            simp only
            constructor
            · intro a1 r1 w2 evs h
              simp at h
            · intro run h
              simp only [Walk.returned.injEq] at h
              subst h
              refine ⟨?_, ?_, Or.inr ⟨i, rfl⟩⟩
              · rw [List.filterMap_cons_none rfl, f2]; simp [Event.isMatch, f1]
              · simp [Event.isMatch, Event.isStrategyCall, f1, f3]
          | none => exact absurd hO f4
      · simp only
        constructor
        · intro a1 r1 w2 evs h
          simp at h
        · intro run h
          simp only [Walk.returned.injEq] at h
          subst h
          refine ⟨?_, ?_, Or.inl rfl⟩
          · rw [List.filterMap_cons_none rfl, f2]; simp [Event.isMatch, f1]
          · simp [Event.isMatch, Event.isStrategyCall, f1, f3]

/-- A failed hook call stops the hook loop with the error of that call. -/
theorem runPostAuthHooks_failure {σ : Type} (hooks : List (PostAuthHookFn σ)) :
    ∀ (idx : Nat) (identity : Option Identity) (r : Request) (w : σ) (k : Nat)
      (i : Option Identity) (e : Err),
      Event.postAuthHook k i (some e) ∈ (runPostAuthHooks hooks idx identity r w).events →
      (runPostAuthHooks hooks idx identity r w).err = some e := by
  induction hooks with
  | nil => intro idx identity r w k i e hev; simp [runPostAuthHooks] at hev
  | cons hook rest ih =>
    intro idx identity r w k i e hev
    cases identity with
    | some i0 =>
      simp only [runPostAuthHooks] at hev ⊢
      rcases hc : hook.call i0 r w with ⟨e1, i1, w1⟩
      rw [hc] at hev
      cases e1 with
      | some err =>
        simp only [List.mem_cons, Event.postAuthHook.injEq, reduceCtorEq, List.not_mem_nil,
          or_false, Option.some.injEq] at hev
        simp [hev.2.2]
      | none =>
        simp only [List.mem_cons, Event.postAuthHook.injEq, reduceCtorEq, and_false,
          false_or] at hev
        exact ih _ _ _ _ k i e hev
    | none =>
      simp only [runPostAuthHooks] at hev ⊢
      rcases hc : hook.callNil r w with ⟨e1, w1⟩
      rw [hc] at hev
      cases e1 with
      | some err =>
        simp only [List.mem_cons, Event.postAuthHook.injEq, reduceCtorEq, List.not_mem_nil,
          or_false, Option.some.injEq] at hev
        simp [hev.2.2]
      | none =>
        simp only [List.mem_cons, Event.postAuthHook.injEq, reduceCtorEq, and_false,
          false_or] at hev
        exact ih _ _ _ _ k i e hev

/-- If a hook call of the subroutine failed, the subroutine returns the error of that call. -/
theorem Service.authenticate_hook_failure {σ : Type} (s : Service σ) (c : Client σ)
    (r : Request) (w : σ) (k : Nat) (i : Option Identity) (e : Err)
    (hev : Event.postAuthHook k i (some e) ∈ (s.authenticate c r w).events) :
    (s.authenticate c r w).outcome = .ret none (some e) := by
  rcases s.authenticate_cases c r w with ⟨identity, err, w1, _, h⟩ | ⟨identity, w1, _, h⟩
  · rw [h] at hev
    simp at hev
  · rw [h] at hev ⊢
    simp only [List.mem_cons, reduceCtorEq, false_or] at hev
    rw [runPostAuthHooks_failure _ _ _ _ _ k i e hev]

/-- In a walk every failed hook call is reported as a failed authentication with the error of
the hook. -/
theorem Service.walk_hook_failure_reported {σ : Type} (s : Service σ)
    (items : List (queueItem σ)) :
    ∀ (a : Option Err) (r : Request) (w : σ) (k : Nat) (i : Option Identity) (e : Err),
      Event.postAuthHook k i (some e) ∈ (s.walk items a r w).events →
      ∃ n, Event.logFailedToAuthenticate n e ∈ (s.walk items a r w).events := by
  induction items with
  | nil => intro a r w k i e hev; simp [Service.walk, Walk.events] at hev
  | cons item rest ih =>
    intro a r w k i e
    simp only [Service.walk]
    rcases hT : item.v.Test r w with ⟨b, w1⟩
    cases b
    · simp only [Walk.events_prepend, List.singleton_append, List.mem_cons, reduceCtorEq,
        false_or]
      exact ih a r w1 k i e
    · simp only
      have hA := s.authenticate_hook_failure item.v.client r w1 k i e
      rcases hO : (s.authenticate item.v.client r w1).outcome with _ | _
      · rename_i identity err
        rw [hO] at hA
        cases err with
        | some e1 =>
          simp only [Walk.events_prepend]
          intro hev
          have hev1 : Event.postAuthHook k i (some e) ∈
                (s.authenticate item.v.client r w1).events ∨
              Event.postAuthHook k i (some e) ∈
                (s.walk rest (some (multierrorAppend a e1))
                  (s.authenticate item.v.client r w1).req
                  (s.authenticate item.v.client r w1).world).events := by
            simpa using hev
          rcases hev1 with hev | hev
          · have h1 := hA hev
            simp only [Outcome.ret.injEq, Option.some.injEq] at h1
            refine ⟨item.v.client.Name, ?_⟩
            rw [h1.2]
            simp
          · obtain ⟨n, hn⟩ := ih _ _ _ k i e hev
            exact ⟨n, by simp [hn]⟩
        | none =>
          cases identity with
          | some i0 =>
            simp only [Walk.events, List.mem_cons, reduceCtorEq, false_or]
            intro hev
            have h1 := hA hev
            simp at h1
          | none => exact absurd hO (s.authenticate_ne_nil_nil _ _ _)
      · rw [hO] at hA
        simp only [Walk.events, List.mem_cons, reduceCtorEq, false_or]
        intro hev
        have h1 := hA hev
        simp at h1

/-- The events of `Authenticate` are those of its loop. -/
theorem Service.Authenticate_events {σ : Type} (s : Service σ) (r : Request) (w : σ) :
    (s.Authenticate r w).events = (s.walk s.clientQueue none r w).events := by
  unfold Service.Authenticate
  rcases s.walk s.clientQueue none r w with _ | ⟨_ | _, _, _, _⟩ <;> rfl

theorem appendedAll_of_no_aggregate (l : List Err) (h : ∀ e ∈ l, ∀ k, e ≠ .multi k) :
    appendedAll l = l := by
  induction l with
  | nil => rfl
  | cons e es ih =>
    have he : e.appended = [e] := by
      cases e with
      | plain _ _ => rfl
      | multi k => exact absurd rfl (h _ (List.mem_cons_self _ _) k)
    simp [appendedAll, he, ih (fun x hx => h x (List.mem_cons_of_mem _ hx))]

/-! ## The first strategy that succeeds -/

theorem Event.inAuthenticate_names (ev : Event) (h : ev.inAuthenticate = true) :
    ev.tested = none := by
  cases ev <;> simp_all [Event.inAuthenticate, Event.tested]

theorem Event.inHooks_called (ev : Event) (h : ev.inHooks = true) : ev.called = none := by
  cases ev <;> simp_all [Event.inHooks, Event.called]

/-- The events of the subroutine hold no `Test` and exactly one strategy call, that of the
strategy it was called for. -/
theorem Service.authenticate_names {σ : Type} (s : Service σ) (c : Client σ) (r : Request)
    (w : σ) :
    (s.authenticate c r w).events.filterMap Event.tested = [] ∧
    (s.authenticate c r w).events.filterMap Event.called = [c.Name] := by
  constructor
  · rw [List.filterMap_eq_nil_iff]
    intro ev hev
    exact Event.inAuthenticate_names ev (s.authenticate_inAuthenticate c r w ev hev)
  · have hh : ∀ (identity : Option Identity) (w1 : σ),
        (runPostAuthHooks s.postAuthHooks 0 identity
          { r with OrgID := orgIDFromRequest r } w1).events.filterMap Event.called = [] := by
      intro identity w1
      rw [List.filterMap_eq_nil_iff]
      intro ev hev
      exact Event.inHooks_called ev (runPostAuthHooks_inHooks _ _ _ _ _ ev hev)
    rcases s.authenticate_cases c r w with ⟨identity, err, w1, _, h⟩ | ⟨identity, w1, _, h⟩
    · rw [h]; simp [Event.called]
    · rw [h]; simp [Event.called, hh]

/-- A walk over strategies each of which, wherever the property `P` of the request and the
world holds, either does not match or matches and fails, keeping `P`: the walk tests every one
of them once, in order, calls only strategies among them, and runs out of items with `P`
holding. -/
theorem Service.walk_rejected {σ : Type} (s : Service σ) (P : Request → σ → Prop)
    (pre : List (queueItem σ))
    (hpre : ∀ it ∈ pre, ∀ r1 w1, P r1 w1 →
      P r1 (it.v.Test r1 w1).2 ∧
      ((it.v.Test r1 w1).1 = true →
        (∃ i e, (s.authenticate it.v.client r1 (it.v.Test r1 w1).2).outcome =
          .ret i (some e)) ∧
        P (s.authenticate it.v.client r1 (it.v.Test r1 w1).2).req
          (s.authenticate it.v.client r1 (it.v.Test r1 w1).2).world)) :
    ∀ (a : Option Err) (r : Request) (w : σ), P r w →
      ∃ a1 r1 w1 evs, s.walk pre a r w = .exhausted a1 r1 w1 evs ∧ P r1 w1 ∧
        evs.filterMap Event.tested = pre.map (fun it => it.v.client.Name) ∧
        (evs.filterMap Event.called).Sublist (pre.map fun it => it.v.client.Name) := by
  induction pre with
  | nil =>
    intro a r w h0
    exact ⟨a, r, w, [], rfl, h0, rfl, List.Sublist.refl _⟩
  | cons item rest ih =>
    intro a r w h0
    have hrest : ∀ it ∈ rest, ∀ r1 w1, P r1 w1 →
        P r1 (it.v.Test r1 w1).2 ∧
        ((it.v.Test r1 w1).1 = true →
          (∃ i e, (s.authenticate it.v.client r1 (it.v.Test r1 w1).2).outcome =
            .ret i (some e)) ∧
          P (s.authenticate it.v.client r1 (it.v.Test r1 w1).2).req
            (s.authenticate it.v.client r1 (it.v.Test r1 w1).2).world) :=
      fun it hit => hpre it (List.mem_cons_of_mem _ hit)
    obtain ⟨hP, hfail⟩ := hpre item (List.mem_cons_self _ _) r w h0
    rcases hT : item.v.Test r w with ⟨b, w1⟩
    rw [hT] at hP hfail
    simp only at hP hfail
    cases b
    · obtain ⟨a1, r1, w2, evs, hw, hP1, ht, hcl⟩ := ih hrest a r w1 hP
      refine ⟨a1, r1, w2, Event.test item.v.client.Name r.OrgID false :: evs, ?_, hP1, ?_, ?_⟩
      · simp only [Service.walk, hT, hw, Walk.prepend_exhausted, List.singleton_append]
      · simp [Event.tested, ht]
      · simpa [Event.called] using List.Sublist.cons item.v.client.Name hcl
    · obtain ⟨⟨i, e, hout⟩, hP2⟩ := hfail rfl
      obtain ⟨a1, r1, w2, evs, hw, hP1, ht, hcl⟩ := ih hrest (some (multierrorAppend a e))
        (s.authenticate item.v.client r w1).req (s.authenticate item.v.client r w1).world hP2
      obtain ⟨hn1, hn2⟩ := s.authenticate_names item.v.client r w1
      refine ⟨a1, r1, w2,
        (Event.test item.v.client.Name r.OrgID true ::
            (s.authenticate item.v.client r w1).events ++
          [Event.logFailedToAuthenticate item.v.client.Name e]) ++ evs, ?_, hP1, ?_, ?_⟩
      · simp only [Service.walk, hT, hout, hw, Walk.prepend_exhausted]
      · simp [Event.tested, ht, hn1]
      · simpa [Event.called, hn2] using List.Sublist.cons₂ item.v.client.Name hcl

/-- C1: let the queue be the strategies `pre`, then `item`, then `post`, and let `P` be any
property of the request and the world that holds when `Authenticate` is called (the property
that always holds will do when the strategies behave the same whatever they find).  If, where
`P` holds, every strategy in front either does not match or matches and fails in its
authentication (strategy `Authenticate`, post-auth hooks, disabled check), keeping `P`, and
`item` matches and its authentication succeeds, then `Authenticate` returns the identity that
the authentication of `item` yields, with a nil error.  The strategies tested are exactly those
in front, once each and in order, and then `item`; the strategies called are among those in
front, and then `item`; the events end with the `Test` and the authentication of `item`, so
that no strategy behind it is tested or called. -/
theorem Authenticate_first_success {σ : Type} (s : Service σ) (P : Request → σ → Prop)
    (r : Request) (w : σ) (pre post : List (queueItem σ)) (item : queueItem σ)
    (hq : s.clientQueue = pre ++ item :: post)
    (h0 : P r w)
    (hpre : ∀ it ∈ pre, ∀ r1 w1, P r1 w1 →
      P r1 (it.v.Test r1 w1).2 ∧
      ((it.v.Test r1 w1).1 = true →
        (∃ i e, (s.authenticate it.v.client r1 (it.v.Test r1 w1).2).outcome =
          .ret i (some e)) ∧
        P (s.authenticate it.v.client r1 (it.v.Test r1 w1).2).req
          (s.authenticate it.v.client r1 (it.v.Test r1 w1).2).world))
    (hitem : ∀ r1 w1, P r1 w1 →
      (item.v.Test r1 w1).1 = true ∧
      ∃ identity, (s.authenticate item.v.client r1 (item.v.Test r1 w1).2).outcome =
        .ret (some identity) none) :
    ∃ r1 w1 identity,
      (s.authenticate item.v.client r1 w1).outcome = .ret (some identity) none ∧
      (s.Authenticate r w).outcome = .ret (some identity) none ∧
      (s.Authenticate r w).world = (s.authenticate item.v.client r1 w1).world ∧
      (∃ evs, (s.Authenticate r w).events =
        evs ++ Event.test item.v.client.Name r1.OrgID true ::
          (s.authenticate item.v.client r1 w1).events) ∧
      (s.Authenticate r w).events.filterMap Event.tested =
        (pre ++ [item]).map (fun it => it.v.client.Name) ∧
      ∃ names, names.Sublist (pre.map fun it => it.v.client.Name) ∧
        (s.Authenticate r w).events.filterMap Event.called = names ++ [item.v.client.Name] := by
  obtain ⟨a1, r1, w1, evs, hw, hP1, ht, hcl⟩ := s.walk_rejected P pre hpre none r w h0
  obtain ⟨htest, identity, hauth⟩ := hitem r1 w1 hP1
  rcases hT : item.v.Test r1 w1 with ⟨b, w2⟩
  rw [hT] at htest hauth
  simp only at htest hauth
  subst htest
  obtain ⟨hn1, hn2⟩ := s.authenticate_names item.v.client r1 w2
  have hA : s.Authenticate r w =
      ⟨.ret (some identity) none, (s.authenticate item.v.client r1 w2).req,
        (s.authenticate item.v.client r1 w2).world,
        evs ++ Event.test item.v.client.Name r1.OrgID true ::
          (s.authenticate item.v.client r1 w2).events⟩ := by
    unfold Service.Authenticate
    rw [hq, s.walk_append, hw]
    simp only [Service.walk, hT, hauth, Walk.prepend_returned]
  refine ⟨r1, w2, identity, hauth, ?_, ?_, ⟨evs, ?_⟩, ?_, _, hcl, ?_⟩
  · rw [hA]
  · rw [hA]
  · rw [hA]
  · rw [hA]
    simp [Event.tested, ht, hn1]
  · rw [hA]
    simp [Event.called, hn2]

/-- Witness for C1.  With A (priority 1) and B (priority 2) both matching and A succeeding the
result is the identity of A and B is neither tested nor called; with A matching and failing and B
matching and succeeding the result is the identity of B. -/
theorem Authenticate_first_success_witness :
    serviceBothOk.clientQueue = [] ++ itemAOk :: [itemBOk] ∧
    serviceBothOk.Authenticate sampleRequest 0 =
      ⟨.ret (some (sampleUser 1)) none, sampleRequest, 2,
        [Event.test "A" 0 true, Event.clientAuthenticate "A" 0 (some (sampleUser 1)) none,
          Event.postAuthHook 0 (some (sampleUser 1)) none]⟩ ∧
    (∃ r1 w1 identity,
      (serviceBothOk.authenticate itemAOk.v.client r1 w1).outcome = .ret (some identity) none ∧
      (serviceBothOk.Authenticate sampleRequest 0).outcome = .ret (some identity) none) ∧
    serviceFallback.clientQueue = [itemAFails] ++ itemBOk :: [] ∧
    serviceFallback.Authenticate sampleRequest 0 =
      ⟨.ret (some (sampleUser 2)) none, sampleRequest, 3,
        [Event.test "A" 0 true,
          Event.clientAuthenticate "A" 0 none (some (sampleErr "bad credentials")),
          Event.logClientCouldNotAuthenticate "A" (sampleErr "bad credentials"),
          Event.logFailedToAuthenticate "A" (sampleErr "bad credentials"),
          Event.test "B" 0 true, Event.clientAuthenticate "B" 0 (some (sampleUser 2)) none,
          Event.postAuthHook 0 (some (sampleUser 2)) none]⟩ ∧
    (∃ r1 w1 identity,
      (serviceFallback.authenticate itemBOk.v.client r1 w1).outcome =
        .ret (some identity) none ∧
      (serviceFallback.Authenticate sampleRequest 0).outcome = .ret (some identity) none) :=
  ⟨rfl, by decide,
    (by
      obtain ⟨r1, w1, identity, h1, h2, _⟩ :=
        Authenticate_first_success serviceBothOk (fun _ _ => True) sampleRequest 0 []
          [itemBOk] itemAOk rfl trivial (fun it hit => absurd hit (List.not_mem_nil it))
          (fun _ _ _ => ⟨rfl, sampleUser 1, rfl⟩)
      exact ⟨r1, w1, identity, h1, h2⟩),
    rfl, by decide,
    (by
      obtain ⟨r1, w1, identity, h1, h2, _⟩ :=
        Authenticate_first_success serviceFallback (fun _ _ => True) sampleRequest 0
          [itemAFails] [] itemBOk rfl trivial
          (fun it hit r1 w1 _ => by
            rw [List.mem_singleton] at hit
            subst hit
            exact ⟨trivial, fun _ => ⟨⟨none, sampleErr "bad credentials", rfl⟩, trivial⟩⟩)
          (fun _ _ _ => ⟨rfl, sampleUser 2, rfl⟩)
      exact ⟨r1, w1, identity, h1, h2⟩)⟩

/-! ## Failure of every matched strategy -/

/-- Counterexample to C3 as stated: the only strategy matches and fails with an error that is
itself an aggregate of two causes.  `Authenticate` returns an aggregate whose causes are those
two causes: the error of the matched strategy is not among the causes of the returned
aggregate, so the aggregate does not contain the error of each matched strategy once. -/
theorem Authenticate_all_failed_counterexample :
    (serviceAggregate.Authenticate sampleRequest 0).events.filter Event.isMatch =
      [Event.test "A" 0 true] ∧
    (serviceAggregate.Authenticate sampleRequest 0).events.filterMap Event.failure =
      [.multi [sampleErr "ldap: bad credentials", sampleErr "grafana: bad credentials"]] ∧
    (serviceAggregate.Authenticate sampleRequest 0).outcome =
      .ret none
        (some (.multi [sampleErr "ldap: bad credentials", sampleErr "grafana: bad credentials"])) ∧
    Err.multi [sampleErr "ldap: bad credentials", sampleErr "grafana: bad credentials"] ∉
      [sampleErr "ldap: bad credentials", sampleErr "grafana: bad credentials"] ∧
    ¬ (serviceAggregate.Authenticate sampleRequest 0).outcome =
      .ret none (some (.multi
        ((serviceAggregate.Authenticate sampleRequest 0).events.filterMap Event.failure))) := by
  decide

/-- C3, amended: if at least one strategy matched and every match was reported as failed, then
`Authenticate` returns no identity and an aggregate error, which is not the
"cannot authenticate request" error.  Its causes are, in priority order, what
`multierror.Append` adds for the error of each matched strategy: the error itself, or its causes
when that error is itself an aggregate.  When no strategy error is an aggregate, the causes
are exactly the errors of the matched strategies, each once, in priority order. -/
theorem Authenticate_all_failed {σ : Type} (s : Service σ) (r : Request) (w : σ)
    (hmatch : ∃ n o, Event.test n o true ∈ (s.Authenticate r w).events)
    (hfail : ((s.Authenticate r w).events.filter Event.isMatch).length =
      ((s.Authenticate r w).events.filterMap Event.failure).length) :
    (s.Authenticate r w).outcome =
      .ret none (some (.multi
        (appendedAll ((s.Authenticate r w).events.filterMap Event.failure)))) ∧
    Err.multi (appendedAll ((s.Authenticate r w).events.filterMap Event.failure)) ≠
      errCantAuthenticateReq ∧
    ((∀ e ∈ (s.Authenticate r w).events.filterMap Event.failure, ∀ k, e ≠ .multi k) →
      (s.Authenticate r w).outcome =
        .ret none (some (.multi ((s.Authenticate r w).events.filterMap Event.failure)))) := by
  have hmain : (s.Authenticate r w).outcome =
      .ret none (some (.multi
        (appendedAll ((s.Authenticate r w).events.filterMap Event.failure)))) := by
    obtain ⟨n, o, hm⟩ := hmatch
    have hpos : 0 < ((s.Authenticate r w).events.filter Event.isMatch).length :=
      List.length_pos_of_mem (List.mem_filter.mpr ⟨hm, rfl⟩)
    rw [s.Authenticate_events] at hfail hpos ⊢
    have hc := s.walk_counts s.clientQueue none r w
    unfold Service.Authenticate
    cases hx : s.walk s.clientQueue none r w with
    | returned run =>
      rw [hx] at hfail
      have := (hc.2 run hx).1
      simp only [Walk.events] at hfail
      omega
    | exhausted a1 r1 w1 evs =>
      rw [hx] at hfail hpos
      simp only [Walk.events] at hfail hpos ⊢
      have h3 := (hc.1 a1 r1 w1 evs hx).2.2
      have hne : evs.filterMap Event.failure ≠ [] := by
        intro h0
        rw [h0] at hfail
        simp only [List.length_nil] at hfail
        omega
      rw [if_neg hne] at h3
      subst h3
      simp [causesOf]
  refine ⟨hmain, ?_, ?_⟩
  · simp [errCantAuthenticateReq]
  · intro hno
    rw [hmain, appendedAll_of_no_aggregate _ hno]

/-- Witness for C3 (amended): A and B match and fail with ordinary errors; the aggregate holds
the error of A, then the error of B. -/
theorem Authenticate_all_failed_witness :
    (∃ n o, Event.test n o true ∈ (serviceBothFail.Authenticate sampleRequest 0).events) ∧
    (((serviceBothFail.Authenticate sampleRequest 0).events.filter Event.isMatch).length =
      ((serviceBothFail.Authenticate sampleRequest 0).events.filterMap Event.failure).length) ∧
    (serviceBothFail.Authenticate sampleRequest 0).events.filterMap Event.failure =
      [sampleErr "bad credentials", sampleErr "token expired"] ∧
    (serviceBothFail.Authenticate sampleRequest 0).outcome =
      .ret none (some (.multi
        (appendedAll ((serviceBothFail.Authenticate sampleRequest 0).events.filterMap
          Event.failure)))) :=
  ⟨⟨"A", 0, by decide⟩, by decide, by decide,
    (Authenticate_all_failed serviceBothFail sampleRequest 0 ⟨"A", 0, by decide⟩
      (by decide)).1⟩

/-! ## A hook failure for the only matching strategy -/

/-- Counterexample to C4 as stated: the only strategy matches and succeeds, the post-auth hook
fails with an ordinary error.  `Authenticate` does not return the error of the hook itself: it
returns the aggregate whose only cause is that error. -/
theorem Authenticate_single_hook_failure_counterexample :
    (serviceHookFails.Authenticate sampleRequest 0).events =
      [Event.test "A" 0 true, Event.clientAuthenticate "A" 0 (some (sampleUser 1)) none,
        Event.postAuthHook 0 (some (sampleUser 1)) (some (sampleErr "user sync failed")),
        Event.logPostAuthHookFailed (sampleErr "user sync failed") (some (sampleUser 1)),
        Event.logFailedToAuthenticate "A" (sampleErr "user sync failed")] ∧
    (serviceHookFails.Authenticate sampleRequest 0).outcome =
      .ret none (some (.multi [sampleErr "user sync failed"])) ∧
    (serviceHookFails.Authenticate sampleRequest 0).outcome ≠
      .ret none (some (sampleErr "user sync failed")) := by
  decide

/-- C4, amended: if exactly one strategy matched and a post-auth hook returned the error `e`,
then `Authenticate` fails, and the error it returns is the aggregate that `multierror.Append`
builds from `e` alone: its causes are `e` itself when `e` is not an aggregate (the causes of `e`
otherwise).  The error of the hook is the cause inside the top-level aggregate. -/
theorem Authenticate_single_hook_failure {σ : Type} (s : Service σ) (r : Request) (w : σ)
    (k : Nat) (i : Option Identity) (e : Err)
    (hone : ((s.Authenticate r w).events.filter Event.isMatch).length = 1)
    (hhook : Event.postAuthHook k i (some e) ∈ (s.Authenticate r w).events) :
    (s.Authenticate r w).outcome = .ret none (some (multierrorAppend none e)) ∧
    multierrorAppend none e = .multi e.appended ∧
    ((∀ l, e ≠ .multi l) → (s.Authenticate r w).outcome = .ret none (some (.multi [e]))) := by
  have happ : multierrorAppend none e = .multi e.appended := by
    rw [multierrorAppend_eq]; rfl
  have hmain : (s.Authenticate r w).outcome = .ret none (some (multierrorAppend none e)) := by
    rw [s.Authenticate_events] at hone hhook
    obtain ⟨n, hn⟩ := s.walk_hook_failure_reported s.clientQueue none r w k i e hhook
    have hF : e ∈ (s.walk s.clientQueue none r w).events.filterMap Event.failure :=
      List.mem_filterMap.mpr ⟨_, hn, rfl⟩
    have hc := s.walk_counts s.clientQueue none r w
    unfold Service.Authenticate
    cases hx : s.walk s.clientQueue none r w with
    | returned run =>
      rw [hx] at hone hF
      simp only [Walk.events] at hone hF
      have h1 := (hc.2 run hx).1
      have h2 : 0 < (run.events.filterMap Event.failure).length := List.length_pos_of_mem hF
      omega
    | exhausted a1 r1 w1 evs =>
      rw [hx] at hone hF
      simp only [Walk.events] at hone hF
      obtain ⟨h1, _, h3⟩ := hc.1 a1 r1 w1 evs hx
      have hlen : (evs.filterMap Event.failure).length = 1 := by omega
      obtain ⟨x, hx1⟩ := List.length_eq_one.mp hlen
      rw [hx1] at hF h3
      simp only [List.mem_singleton] at hF
      subst hF
      simp only [reduceCtorEq, if_false, causesOf, appendedAll, List.nil_append,
        List.append_nil] at h3
      subst h3
      simp [happ]
  refine ⟨hmain, happ, ?_⟩
  intro hno
  rw [hmain, happ]
  cases e with
  | plain _ _ => rfl
  | multi l => exact absurd rfl (hno l)

/-- Witness for C4 (amended): the only strategy matches, the hook fails with "user sync
failed", and the result is the aggregate of that error. -/
theorem Authenticate_single_hook_failure_witness :
    ((serviceHookFails.Authenticate sampleRequest 0).events.filter Event.isMatch).length = 1 ∧
    Event.postAuthHook 0 (some (sampleUser 1)) (some (sampleErr "user sync failed")) ∈
      (serviceHookFails.Authenticate sampleRequest 0).events ∧
    (serviceHookFails.Authenticate sampleRequest 0).outcome =
      .ret none (some (multierrorAppend none (sampleErr "user sync failed"))) :=
  ⟨by decide, by decide,
    (Authenticate_single_hook_failure serviceHookFails sampleRequest 0 0
      (some (sampleUser 1)) (sampleErr "user sync failed") (by decide) (by decide)).1⟩

/-! ## At most one accepted authentication -/

/-- Counterexample to C5 as stated: A returns a disabled identity with no error, which the
disabled check rejects, and B is tried next and returns its identity with no error.  Two
strategies' `Authenticate` calls returned an identity with no error in one invocation. -/
theorem Authenticate_one_success_counterexample :
    (serviceDisabledThenOk.Authenticate sampleRequest 0).events.filter
        Event.isStrategySuccess =
      [Event.clientAuthenticate "A" 0 (some { sampleUser 1 with IsDisabled := true }) none,
        Event.clientAuthenticate "B" 0 (some (sampleUser 2)) none] ∧
    ¬ ((serviceDisabledThenOk.Authenticate sampleRequest 0).events.filter
        Event.isStrategySuccess).length ≤ 1 ∧
    (serviceDisabledThenOk.Authenticate sampleRequest 0).outcome =
      .ret (some (sampleUser 2)) none := by
  decide

/-- C5, amended: during one invocation of `Authenticate` at most one strategy's authentication
(its `Authenticate` call, then the post-auth hooks, then the disabled check) is accepted.  Of the
strategy `Authenticate` calls made, all but at most one are reported as failed; when
`Authenticate` returns an error every call was reported as failed, and when it returns an
identity exactly one call was not. -/
theorem Authenticate_at_most_one_accepted {σ : Type} (s : Service σ) (r : Request) (w : σ) :
    ((s.Authenticate r w).events.filter Event.isStrategyCall).length ≤
      ((s.Authenticate r w).events.filterMap Event.failure).length + 1 ∧
    (∀ e, (s.Authenticate r w).outcome = .ret none (some e) →
      ((s.Authenticate r w).events.filter Event.isStrategyCall).length =
        ((s.Authenticate r w).events.filterMap Event.failure).length) ∧
    (∀ i, (s.Authenticate r w).outcome = .ret (some i) none →
      ((s.Authenticate r w).events.filter Event.isStrategyCall).length =
        ((s.Authenticate r w).events.filterMap Event.failure).length + 1) := by
  have hc := s.walk_counts s.clientQueue none r w
  unfold Service.Authenticate
  cases hx : s.walk s.clientQueue none r w with
  | returned run =>
    obtain ⟨h1, h2, h3⟩ := hc.2 run hx
    simp only
    refine ⟨by omega, ?_, fun _ _ => by omega⟩
    intro e he
    rcases h3 with h3 | ⟨i, h3⟩ <;> rw [h3] at he <;> simp at he
  | exhausted a1 r1 w1 evs =>
    obtain ⟨h1, h2, _⟩ := hc.1 a1 r1 w1 evs hx
    cases a1 with
    | some a =>
      simp only
      refine ⟨by omega, fun _ _ => by omega, ?_⟩
      intro i hi
      simp at hi
    | none =>
      simp only
      refine ⟨by omega, fun _ _ => by omega, ?_⟩
      intro i hi
      simp at hi

/-- Witness for C5 (amended): with A rejected by the disabled check and B accepted, two
strategy calls were made and one failure was reported. -/
theorem Authenticate_at_most_one_accepted_witness :
    (serviceDisabledThenOk.Authenticate sampleRequest 0).outcome =
      .ret (some (sampleUser 2)) none ∧
    ((serviceDisabledThenOk.Authenticate sampleRequest 0).events.filter
        Event.isStrategyCall).length = 2 ∧
    ((serviceDisabledThenOk.Authenticate sampleRequest 0).events.filter
        Event.isStrategyCall).length =
      ((serviceDisabledThenOk.Authenticate sampleRequest 0).events.filterMap
        Event.failure).length + 1 :=
  ⟨by decide, by decide,
    (Authenticate_at_most_one_accepted serviceDisabledThenOk sampleRequest 0).2.2
      (sampleUser 2) (by decide)⟩

/-! ## The post-auth hook chain -/

theorem Service.postAuthHooks_foldl_register {σ : Type} (hs : List (PostAuthHookFn σ)) :
    ∀ s : Service σ,
      (hs.foldl Service.RegisterPostAuthHook s).postAuthHooks = s.postAuthHooks ++ hs := by
  induction hs with
  | nil => intro s; simp
  | cons h rest ih =>
    intro s
    simp [List.foldl_cons, ih, Service.RegisterPostAuthHook]

/-- The hook calls of the hook loop: if no hook failed, every hook was called once, in order;
if a hook failed with `e`, the hooks in front of it were called once each, in order, and
returned nil, it was called and returned `e`, and no hook behind it was called. -/
theorem runPostAuthHooks_calls {σ : Type} (hooks : List (PostAuthHookFn σ)) :
    ∀ (idx : Nat) (identity : Option Identity) (r : Request) (w : σ),
      ((runPostAuthHooks hooks idx identity r w).err = none →
        (runPostAuthHooks hooks idx identity r w).events.filterMap Event.hookCall =
          (List.range' idx hooks.length).map (fun k => (k, none))) ∧
      (∀ e, (runPostAuthHooks hooks idx identity r w).err = some e →
        ∃ k, k < hooks.length ∧
          (runPostAuthHooks hooks idx identity r w).events.filterMap Event.hookCall =
            (List.range' idx k).map (fun k => (k, none)) ++ [(idx + k, some e)]) := by
  induction hooks with
  | nil => intro idx identity r w; simp [runPostAuthHooks]
  | cons hook rest ih =>
    intro idx identity r w
    cases identity with
    | some i0 =>
      simp only [runPostAuthHooks]
      rcases hc : hook.call i0 r w with ⟨e1, i1, w1⟩
      cases e1 with
      | some err =>
        simp only [reduceCtorEq, false_implies, Option.some.injEq, true_and]
        rintro e rfl
        exact ⟨0, by simp, by simp [Event.hookCall]⟩
      | none =>
        simp only
        obtain ⟨ih1, ih2⟩ := ih (idx + 1) (some i1) r w1
        constructor
        · intro h
          simp [Event.hookCall, ih1 h, List.range'_succ]
        · intro e h
          obtain ⟨k, hk, hev⟩ := ih2 e h
          refine ⟨k + 1, by simp [hk], ?_⟩
          simp [Event.hookCall, hev, List.range'_succ]
          omega
    | none =>
      simp only [runPostAuthHooks]
      rcases hc : hook.callNil r w with ⟨e1, w1⟩
      cases e1 with
      | some err =>
        simp only [reduceCtorEq, false_implies, Option.some.injEq, true_and]
        rintro e rfl
        exact ⟨0, by simp, by simp [Event.hookCall]⟩
      | none =>
        simp only
        obtain ⟨ih1, ih2⟩ := ih (idx + 1) none r w1
        constructor
        · intro h
          simp [Event.hookCall, ih1 h, List.range'_succ]
        · intro e h
          obtain ⟨k, hk, hev⟩ := ih2 e h
          refine ⟨k + 1, by simp [hk], ?_⟩
          simp [Event.hookCall, hev, List.range'_succ]
          omega

/-- A hook loop that starts from a non-nil identity ends with a non-nil identity. -/
theorem runPostAuthHooks_identity {σ : Type} (hooks : List (PostAuthHookFn σ)) :
    ∀ (idx : Nat) (i : Identity) (r : Request) (w : σ),
      ∃ i1, (runPostAuthHooks hooks idx (some i) r w).identity = some i1 := by
  induction hooks with
  | nil => intro idx i r w; exact ⟨i, rfl⟩
  | cons hook rest ih =>
    intro idx i r w
    simp only [runPostAuthHooks]
    rcases hc : hook.call i r w with ⟨e1, i1, w1⟩
    cases e1 with
    | some err => exact ⟨i1, rfl⟩
    | none => exact ih (idx + 1) i1 r w1

theorem hooksState_cons {σ : Type} (hook : PostAuthHookFn σ) (rest : List (PostAuthHookFn σ))
    (r : Request) (st : Identity × σ) :
    hooksState (hook :: rest) r st =
      hooksState rest r ((hook.call st.1 r st.2).2.1, (hook.call st.1 r st.2).2.2) := rfl

/-- The hook loop over hooks of which the first ones return nil: these are called one after the
other, each with the identity and the world that the hook in front of it left, and the loop goes
on with the remaining hooks from what the last of them left. -/
theorem runPostAuthHooks_prefix {σ : Type} (rest : List (PostAuthHookFn σ)) (r : Request) :
    ∀ (pre : List (PostAuthHookFn σ)) (idx : Nat) (st : Identity × σ),
      hooksSucceed r pre st = true →
      runPostAuthHooks (pre ++ rest) idx (some st.1) r st.2 =
        ⟨(runPostAuthHooks rest (idx + pre.length) (some (hooksState pre r st).1) r
            (hooksState pre r st).2).err,
          (runPostAuthHooks rest (idx + pre.length) (some (hooksState pre r st).1) r
            (hooksState pre r st).2).identity,
          (runPostAuthHooks rest (idx + pre.length) (some (hooksState pre r st).1) r
            (hooksState pre r st).2).world,
          (List.range pre.length).map
              (fun k => Event.postAuthHook (idx + k)
                (some (hooksState (pre.take k) r st).1) none) ++
            (runPostAuthHooks rest (idx + pre.length) (some (hooksState pre r st).1) r
              (hooksState pre r st).2).events⟩ := by
  intro pre
  induction pre with
  | nil =>
    intro idx st _
    simp [hooksState]
  | cons hook pre ih =>
    intro idx st h
    simp only [hooksSucceed, Bool.and_eq_true, Option.isNone_iff_eq_none] at h
    obtain ⟨h1, h2⟩ := h
    rcases hc : hook.call st.1 r st.2 with ⟨e1, i1, w1⟩
    rw [hc] at h1 h2
    simp only at h1 h2
    subst h1
    have hst : hooksState (hook :: pre) r st = hooksState pre r (i1, w1) := by
      rw [hooksState_cons, hc]
    have htake : ∀ k, hooksState ((hook :: pre).take (k + 1)) r st =
        hooksState (pre.take k) r (i1, w1) := by
      intro k
      rw [List.take_succ_cons, hooksState_cons, hc]
    have ih1 := ih (idx + 1) (i1, w1) h2
    simp only at ih1
    simp only [List.cons_append, runPostAuthHooks, hc, List.length_cons, List.append_eq]
    rw [ih1, hst]
    have hidx : idx + 1 + pre.length = idx + (pre.length + 1) := by omega
    rw [hidx, List.range_succ_eq_map]
    simp only [List.map_cons, List.map_map, List.cons_append, HooksRun.mk.injEq, true_and,
      List.cons.injEq, Nat.add_zero, List.take_zero]
    refine ⟨rfl, ?_⟩
    congr 1
    apply List.map_congr_left
    intro k _
    simp only [Function.comp, htake]
    congr 1
    omega

/-- C6: hooks registered with `RegisterPostAuthHook` are kept in registration order.  In the
subroutine `authenticate`, if the strategy's `Authenticate` fails no hook is called and its error
is returned.  If it succeeds, the strategy call is the first event and all later events are hook
calls or their log line; the hooks are called once each in registration order, and either all
of them run, or the loop stops at the first hook that fails: the hooks before it returned nil,
no hook behind it is called, and its error is returned with no identity.  The hook called at
position `k` is the hook registered at position `k`: it receives the identity and the world
that the hooks registered in front of it left, one after the other, and what the subroutine
leaves is what the hook that failed left, or, when none failed, what the hook registered last
left, which is then the identity that the disabled check reads. -/
theorem authenticate_hook_chain {σ : Type} (s : Service σ) (hs : List (PostAuthHookFn σ))
    (c : Client σ) (r : Request) (w : σ) :
    (hs.foldl Service.RegisterPostAuthHook s).postAuthHooks = s.postAuthHooks ++ hs ∧
    (∀ identity e w1,
      c.Authenticate { r with OrgID := orgIDFromRequest r } w = ((identity, some e), w1) →
      (s.authenticate c r w).outcome = .ret none (some e) ∧
      (s.authenticate c r w).events.filterMap Event.hookCall = []) ∧
    (∀ identity w1,
      c.Authenticate { r with OrgID := orgIDFromRequest r } w = ((identity, none), w1) →
      (∃ tl, (s.authenticate c r w).events =
          Event.clientAuthenticate c.Name (orgIDFromRequest r) identity none :: tl ∧
        ∀ ev ∈ tl, ev.inHooks = true) ∧
      ((s.authenticate c r w).events.filterMap Event.hookCall =
          (List.range s.postAuthHooks.length).map (fun k => (k, none)) ∨
        ∃ k e, k < s.postAuthHooks.length ∧
          (s.authenticate c r w).events.filterMap Event.hookCall =
            (List.range k).map (fun k => (k, none)) ++ [(k, some e)] ∧
          (s.authenticate c r w).outcome = .ret none (some e))) ∧
    (∀ i0 w1 pre hook post e,
      c.Authenticate { r with OrgID := orgIDFromRequest r } w = ((some i0, none), w1) →
      s.postAuthHooks = pre ++ hook :: post →
      hooksSucceed { r with OrgID := orgIDFromRequest r } pre (i0, w1) = true →
      (hook.call (hooksState pre { r with OrgID := orgIDFromRequest r } (i0, w1)).1
        { r with OrgID := orgIDFromRequest r }
        (hooksState pre { r with OrgID := orgIDFromRequest r } (i0, w1)).2).1 = some e →
      (s.authenticate c r w).outcome = .ret none (some e) ∧
      (s.authenticate c r w).world =
        (hook.call (hooksState pre { r with OrgID := orgIDFromRequest r } (i0, w1)).1
          { r with OrgID := orgIDFromRequest r }
          (hooksState pre { r with OrgID := orgIDFromRequest r } (i0, w1)).2).2.2 ∧
      (s.authenticate c r w).events =
        Event.clientAuthenticate c.Name (orgIDFromRequest r) (some i0) none ::
          ((List.range pre.length).map
              (fun k => Event.postAuthHook k
                (some (hooksState (pre.take k) { r with OrgID := orgIDFromRequest r }
                  (i0, w1)).1) none) ++
            [Event.postAuthHook pre.length
                (some (hooksState pre { r with OrgID := orgIDFromRequest r } (i0, w1)).1)
                (some e),
              Event.logPostAuthHookFailed e
                (some (hook.call
                  (hooksState pre { r with OrgID := orgIDFromRequest r } (i0, w1)).1
                  { r with OrgID := orgIDFromRequest r }
                  (hooksState pre { r with OrgID := orgIDFromRequest r }
                    (i0, w1)).2).2.1)])) ∧
    (∀ i0 w1,
      c.Authenticate { r with OrgID := orgIDFromRequest r } w = ((some i0, none), w1) →
      hooksSucceed { r with OrgID := orgIDFromRequest r } s.postAuthHooks (i0, w1) = true →
      (s.authenticate c r w).outcome =
        (if (hooksState s.postAuthHooks { r with OrgID := orgIDFromRequest r }
              (i0, w1)).1.IsDisabled then
          .ret none (some errDisabledIdentity)
        else
          .ret (some (hooksState s.postAuthHooks { r with OrgID := orgIDFromRequest r }
            (i0, w1)).1) none) ∧
      (s.authenticate c r w).world =
        (hooksState s.postAuthHooks { r with OrgID := orgIDFromRequest r } (i0, w1)).2 ∧
      (s.authenticate c r w).events =
        Event.clientAuthenticate c.Name (orgIDFromRequest r) (some i0) none ::
          (List.range s.postAuthHooks.length).map
            (fun k => Event.postAuthHook k
              (some (hooksState (s.postAuthHooks.take k)
                { r with OrgID := orgIDFromRequest r } (i0, w1)).1) none)) := by
  refine ⟨Service.postAuthHooks_foldl_register hs s, ?_, ?_, ?_, ?_⟩
  · intro identity e w1 hc
    rcases s.authenticate_cases c r w with ⟨i2, e2, w2, hc2, h⟩ | ⟨i2, w2, hc2, h⟩
    · rw [hc] at hc2
      simp only [Prod.mk.injEq, Option.some.injEq] at hc2
      obtain ⟨⟨rfl, rfl⟩, rfl⟩ := hc2
      rw [h]
      simp [Event.hookCall]
    · rw [hc] at hc2
      simp at hc2
  · intro identity w1 hc
    rcases s.authenticate_cases c r w with ⟨i2, e2, w2, hc2, h⟩ | ⟨i2, w2, hc2, h⟩
    · rw [hc] at hc2
      simp at hc2
    · rw [hc] at hc2
      simp only [Prod.mk.injEq, and_true] at hc2
      obtain ⟨rfl, rfl⟩ := hc2
      rw [h]
      refine ⟨⟨_, rfl, runPostAuthHooks_inHooks _ _ _ _ _⟩, ?_⟩
      obtain ⟨h1, h2⟩ := runPostAuthHooks_calls s.postAuthHooks 0 identity
        { r with OrgID := orgIDFromRequest r } w1
      cases he : (runPostAuthHooks s.postAuthHooks 0 identity
        { r with OrgID := orgIDFromRequest r } w1).err with
      | none =>
        left
        rw [List.filterMap_cons_none rfl, h1 he, List.range_eq_range']
      | some e =>
        right
        obtain ⟨k, hk, hev⟩ := h2 e he
        refine ⟨k, e, hk, ?_, rfl⟩
        rw [List.filterMap_cons_none rfl, hev, List.range_eq_range']
        simp
  · intro i0 w1 pre hook post e hc hsplit hpre hfail
    have hrun := runPostAuthHooks_prefix (hook :: post) { r with OrgID := orgIDFromRequest r }
      pre 0 (i0, w1) hpre
    rcases hcall : hook.call (hooksState pre { r with OrgID := orgIDFromRequest r } (i0, w1)).1
        { r with OrgID := orgIDFromRequest r }
        (hooksState pre { r with OrgID := orgIDFromRequest r } (i0, w1)).2 with ⟨e1, i1, w2⟩
    rw [hcall] at hfail
    simp only at hfail
    subst hfail
    simp only [runPostAuthHooks, hcall, Nat.zero_add] at hrun
    simp only [Service.authenticate, hc, hsplit, hrun]
    exact ⟨trivial, trivial, trivial⟩
  · intro i0 w1 hc hall
    have hrun := runPostAuthHooks_prefix [] { r with OrgID := orgIDFromRequest r }
      s.postAuthHooks 0 (i0, w1) hall
    simp only [List.append_nil, runPostAuthHooks, Nat.zero_add] at hrun
    simp only [Service.authenticate, hc, hrun]
    cases (hooksState s.postAuthHooks { r with OrgID := orgIDFromRequest r }
      (i0, w1)).1.IsDisabled <;> exact ⟨rfl, rfl, rfl⟩

/-- Witness for C6.  Of three registered hooks the second fails: the first two are called, the
second with the identity that the first left (id 7), the third is not, and the error of the
second is returned.  Of two registered hooks that both succeed, the one registered second runs
last: the identity returned has the id 2 that it sets. -/
theorem authenticate_hook_chain_witness :
    formClient.Authenticate { sampleRequest with OrgID := orgIDFromRequest sampleRequest } 0 =
      ((some (sampleUser 42), none), 1) ∧
    serviceHookChain.postAuthHooks =
      [hookSetID 7] ++ hookFail (sampleErr "org sync failed") :: [hookOk] ∧
    (serviceHookChain.authenticate formClient sampleRequest 0).events =
      [Event.clientAuthenticate "form" 0 (some (sampleUser 42)) none,
        Event.postAuthHook 0 (some (sampleUser 42)) none,
        Event.postAuthHook 1 (some { sampleUser 42 with ID := 7 })
          (some (sampleErr "org sync failed")),
        Event.logPostAuthHookFailed (sampleErr "org sync failed")
          (some { sampleUser 42 with ID := 7 })] ∧
    (serviceHookChain.authenticate formClient sampleRequest 0).outcome =
      .ret none (some (sampleErr "org sync failed")) ∧
    (serviceHooksOrdered.authenticate formClient sampleRequest 0).outcome =
      .ret (some { sampleUser 42 with ID := 2 }) none ∧
    (serviceHooksOrdered.authenticate formClient sampleRequest 0).outcome =
      (if (hooksState serviceHooksOrdered.postAuthHooks
            { sampleRequest with OrgID := orgIDFromRequest sampleRequest }
            (sampleUser 42, 1)).1.IsDisabled then
        .ret none (some errDisabledIdentity)
      else
        .ret (some (hooksState serviceHooksOrdered.postAuthHooks
          { sampleRequest with OrgID := orgIDFromRequest sampleRequest }
          (sampleUser 42, 1)).1) none) :=
  ⟨by decide, rfl, by decide,
    ((authenticate_hook_chain serviceHookChain [] formClient sampleRequest 0).2.2.2.1
      (sampleUser 42) 1 [hookSetID 7] (hookFail (sampleErr "org sync failed")) [hookOk]
      (sampleErr "org sync failed") (by decide) rfl (by decide) (by decide)).1,
    by decide,
    ((authenticate_hook_chain serviceHooksOrdered [] formClient sampleRequest 0).2.2.2.2
      (sampleUser 42) 1 (by decide) (by decide)).1⟩

/-- C7: when the strategy's `Authenticate` and every post-auth hook succeed, the subroutine
`authenticate` fails with the "identity is disabled" error if and only if the `IsDisabled` flag
of the identity as the last hook left it is set, whoever set it; otherwise it returns that
identity with a nil error. -/
theorem authenticate_disabled_check {σ : Type} (s : Service σ) (c : Client σ) (r : Request)
    (w w1 : σ) (identity : Identity)
    (hc : c.Authenticate { r with OrgID := orgIDFromRequest r } w =
      ((some identity, none), w1))
    (hh : (runPostAuthHooks s.postAuthHooks 0 (some identity)
      { r with OrgID := orgIDFromRequest r } w1).err = none) :
    ∃ i, (runPostAuthHooks s.postAuthHooks 0 (some identity)
        { r with OrgID := orgIDFromRequest r } w1).identity = some i ∧
      ((s.authenticate c r w).outcome = .ret none (some errDisabledIdentity) ↔
        i.IsDisabled = true) ∧
      (i.IsDisabled = false → (s.authenticate c r w).outcome = .ret (some i) none) := by
  obtain ⟨i, hi⟩ := runPostAuthHooks_identity s.postAuthHooks 0 identity
    { r with OrgID := orgIDFromRequest r } w1
  refine ⟨i, hi, ?_⟩
  rcases s.authenticate_cases c r w with ⟨i2, e2, w2, hc2, h⟩ | ⟨i2, w2, hc2, h⟩
  · rw [hc] at hc2
    simp at hc2
  · rw [hc] at hc2
    simp only [Prod.mk.injEq, and_true] at hc2
    obtain ⟨rfl, rfl⟩ := hc2
    rw [h, hh, hi]
    cases hd : i.IsDisabled <;> simp [hd]

/-- Witness for C7: the strategy returns an enabled identity, the second hook sets
`IsDisabled`, and the subroutine fails with the "identity is disabled" error. -/
theorem authenticate_disabled_check_witness :
    formClient.Authenticate { sampleRequest with OrgID := orgIDFromRequest sampleRequest } 0 =
      ((some (sampleUser 42), none), 1) ∧
    (sampleUser 42).IsDisabled = false ∧
    (runPostAuthHooks serviceHookDisables.postAuthHooks 0 (some (sampleUser 42))
      { sampleRequest with OrgID := orgIDFromRequest sampleRequest } 1).err = none ∧
    (serviceHookDisables.authenticate formClient sampleRequest 0).outcome =
      .ret none (some errDisabledIdentity) ∧
    ∃ i, (runPostAuthHooks serviceHookDisables.postAuthHooks 0 (some (sampleUser 42))
        { sampleRequest with OrgID := orgIDFromRequest sampleRequest } 1).identity = some i ∧
      ((serviceHookDisables.authenticate formClient sampleRequest 0).outcome =
          .ret none (some errDisabledIdentity) ↔ i.IsDisabled = true) ∧
      (i.IsDisabled = false →
        (serviceHookDisables.authenticate formClient sampleRequest 0).outcome =
          .ret (some i) none) :=
  ⟨by decide, by decide, by decide, by decide,
    authenticate_disabled_check serviceHookDisables formClient sampleRequest 0 1
      (sampleUser 42) (by decide) (by decide)⟩

/-! ## The login flow -/

theorem Service.postLoginHooks_foldl_register {σ : Type} (hs : List (PostLoginHookFn σ)) :
    ∀ s : Service σ,
      (hs.foldl Service.RegisterPostLoginHook s).postLoginHooks = s.postLoginHooks ++ hs := by
  induction hs with
  | nil => intro s; simp
  | cons h rest ih =>
    intro s
    simp [List.foldl_cons, ih, Service.RegisterPostLoginHook]

/-- The deferred loop calls every post-login hook once, in order, with the same arguments. -/
theorem runPostLoginHooks_events {σ : Type} (hooks : List (PostLoginHookFn σ)) :
    ∀ (idx : Nat) (identity : Option Identity) (r : Request) (err : Option Err) (w : σ),
      (runPostLoginHooks hooks idx identity r err w).2 =
        (List.range' idx hooks.length).map (fun k => Event.postLoginHook k identity err) := by
  induction hooks with
  | nil => intro idx identity r err w; rfl
  | cons hook rest ih =>
    intro idx identity r err w
    simp [runPostLoginHooks, ih, List.range'_succ]

/-- The subroutine leaves the request with the resolved org id and the same transport
request. -/
theorem Service.authenticate_req {σ : Type} (s : Service σ) (c : Client σ) (r : Request)
    (w : σ) : (s.authenticate c r w).req = { r with OrgID := orgIDFromRequest r } := by
  rcases s.authenticate_cases c r w with ⟨_, _, _, _, h⟩ | ⟨_, _, _, h⟩ <;> rw [h]

theorem filterMap_loginHookCall_map (l : List Nat) (identity : Option Identity)
    (err : Option Err) :
    (l.map (fun k => Event.postLoginHook k identity err)).filterMap Event.loginHookCall =
      l.map (fun k => (k, identity, err)) := by
  induction l with
  | nil => rfl
  | cons k rest ih => simp [Event.loginHookCall, ih]

/-- The body of `Login` calls no post-login hook. -/
theorem Service.loginBody_no_login_hook {σ : Type} (s : Service σ) (client : String)
    (r : Request) (w : σ) :
    (s.loginBody client r w).events.filterMap Event.loginHookCall = [] := by
  unfold Service.loginBody
  split
  · rfl
  · rename_i c hcl
    have hf := (s.authenticate_filters c r w).2.2.2
    simp only
    split
    · exact hf
    · exact hf
    · exact hf
    · simp only [Identity.NamespacedID]
      split
      · exact hf
      · split
        · exact hf
        · split <;>
            (simp only [List.filterMap_append, hf, List.nil_append]
             split <;> simp [Event.loginHookCall])

/-- The world that the deferred loop leaves is the one obtained by calling the hooks one after
the other, in the order of the list, each with the named results and the request. -/
theorem runPostLoginHooks_world {σ : Type} (hooks : List (PostLoginHookFn σ)) :
    ∀ (idx : Nat) (identity : Option Identity) (r : Request) (err : Option Err) (w : σ),
      (runPostLoginHooks hooks idx identity r err w).1 =
        hooks.foldl (fun w1 hook => hook identity r err w1) w := by
  induction hooks with
  | nil => intro idx identity r err w; rfl
  | cons hook rest ih =>
    intro idx identity r err w
    simp only [runPostLoginHooks, List.foldl_cons]
    exact ih _ _ _ _ _

/-- C8: whenever `Login` returns, whatever the way out of its body (unknown client, strategy
failure, post-auth hook failure, disabled identity, unsupported identity, session-creation
failure or success), its events are those of the body, which hold no post-login hook call,
followed by one call of every registered post-login hook, in registration order, each with
exactly the identity and the error that `Login` returns; and the world that `Login` leaves is
the world that the body left after every registered hook has acted on it, in registration
order, each called with that identity, the request and that error.  In particular, when the
strategy yields an identity that is not a user with a positive id, every hook is called with no
identity and the unsupported-identity error. -/
theorem Login_post_login_hooks {σ : Type} (s : Service σ) (hs : List (PostLoginHookFn σ))
    (client : String) (r : Request) (w : σ) :
    (hs.foldl Service.RegisterPostLoginHook s).postLoginHooks = s.postLoginHooks ++ hs ∧
    (∀ identity err, (s.Login client r w).outcome = .ret identity err →
      (s.Login client r w).events =
        (s.loginBody client r w).events ++
          (List.range s.postLoginHooks.length).map
            (fun k => Event.postLoginHook k identity err) ∧
      (s.loginBody client r w).events.filterMap Event.loginHookCall = [] ∧
      (s.Login client r w).events.filterMap Event.loginHookCall =
        (List.range s.postLoginHooks.length).map (fun k => (k, identity, err)) ∧
      (s.Login client r w).world =
        s.postLoginHooks.foldl
          (fun w1 hook => hook identity (s.loginBody client r w).req err w1)
          (s.loginBody client r w).world) ∧
    (∀ c i, s.clients client = some c →
      (s.authenticate c r w).outcome = .ret (some i) none →
      (i.Namespace ≠ NamespaceUser ∨ i.ID ≤ 0) →
      (s.Login client r w).events.filterMap Event.loginHookCall =
        (List.range s.postLoginHooks.length).map
          (fun k => (k, none, some (ErrUnsupportedIdentity i.Namespace))) ∧
      (s.Login client r w).world =
        s.postLoginHooks.foldl
          (fun w1 hook =>
            hook none (s.authenticate c r w).req (some (ErrUnsupportedIdentity i.Namespace)) w1)
          (s.authenticate c r w).world) := by
  have hgen : ∀ identity err, (s.Login client r w).outcome = .ret identity err →
      (s.Login client r w).events =
        (s.loginBody client r w).events ++
          (List.range s.postLoginHooks.length).map
            (fun k => Event.postLoginHook k identity err) ∧
      (s.loginBody client r w).events.filterMap Event.loginHookCall = [] ∧
      (s.Login client r w).events.filterMap Event.loginHookCall =
        (List.range s.postLoginHooks.length).map (fun k => (k, identity, err)) ∧
      (s.Login client r w).world =
        s.postLoginHooks.foldl
          (fun w1 hook => hook identity (s.loginBody client r w).req err w1)
          (s.loginBody client r w).world := by
    intro identity err hout
    have hb := s.loginBody_no_login_hook client r w
    simp only [Service.Login] at hout ⊢
    cases hp : (s.loginBody client r w).panicked with
    | true => rw [hp] at hout; simp at hout
    | false =>
      rw [hp] at hout
      simp only [Bool.false_eq_true, if_false, Outcome.ret.injEq] at hout
      obtain ⟨h1, h2⟩ := hout
      rw [runPostLoginHooks_events, runPostLoginHooks_world, h1, h2, List.range_eq_range']
      refine ⟨rfl, hb, ?_, rfl⟩
      rw [List.filterMap_append, hb, List.nil_append, filterMap_loginHookCall_map]
  refine ⟨Service.postLoginHooks_foldl_register hs s, hgen, ?_⟩
  intro c i hcl hauth hshape
  have hbody : s.loginBody client r w =
      ⟨false, none, some (ErrUnsupportedIdentity i.Namespace), (s.authenticate c r w).req,
        (s.authenticate c r w).world, (s.authenticate c r w).events⟩ := by
    simp only [Service.loginBody, hcl, hauth, Identity.NamespacedID]
    rw [if_pos hshape]
  have hout : (s.Login client r w).outcome =
      .ret none (some (ErrUnsupportedIdentity i.Namespace)) := by
    simp only [Service.Login, hbody]
    rfl
  obtain ⟨_, _, h3, h4⟩ := hgen none (some (ErrUnsupportedIdentity i.Namespace)) hout
  refine ⟨h3, ?_⟩
  rw [h4, hbody]

/-- Witness for C8: a login through the strategy "anonymous" fails with the
unsupported-identity error, and both registered post-login hooks observe that error.  The body
leaves the counter at 2; the hook registered first adds 1 and the hook registered second
doubles, which leaves 6 (the other order would leave 5). -/
theorem Login_post_login_hooks_witness :
    (serviceLoginOrdered.Login "anonymous" sampleRequest 0).outcome =
      .ret none (some (ErrUnsupportedIdentity "anonymous")) ∧
    (serviceLoginOrdered.Login "anonymous" sampleRequest 0).events =
      [Event.clientAuthenticate "anonymous" 0 (some sampleAnonymous) none,
        Event.postAuthHook 0 (some sampleAnonymous) none,
        Event.postLoginHook 0 none (some (ErrUnsupportedIdentity "anonymous")),
        Event.postLoginHook 1 none (some (ErrUnsupportedIdentity "anonymous"))] ∧
    (serviceLoginOrdered.loginBody "anonymous" sampleRequest 0).world = 2 ∧
    (serviceLoginOrdered.Login "anonymous" sampleRequest 0).world = 6 ∧
    (serviceLoginOrdered.Login "anonymous" sampleRequest 0).events.filterMap
        Event.loginHookCall =
      (List.range serviceLoginOrdered.postLoginHooks.length).map
        (fun k => (k, none, some (ErrUnsupportedIdentity "anonymous"))) ∧
    (serviceLoginOrdered.Login "anonymous" sampleRequest 0).world =
      serviceLoginOrdered.postLoginHooks.foldl
        (fun w1 hook =>
          hook none (serviceLoginOrdered.loginBody "anonymous" sampleRequest 0).req
            (some (ErrUnsupportedIdentity "anonymous")) w1)
        (serviceLoginOrdered.loginBody "anonymous" sampleRequest 0).world :=
  ⟨by decide, by decide, by decide, by decide,
    ((Login_post_login_hooks serviceLoginOrdered [] "anonymous" sampleRequest 0).2.1 none
      (some (ErrUnsupportedIdentity "anonymous")) (by decide)).2.2.1,
    ((Login_post_login_hooks serviceLoginOrdered [] "anonymous" sampleRequest 0).2.1 none
      (some (ErrUnsupportedIdentity "anonymous")) (by decide)).2.2.2⟩

theorem filter_isCreateToken_map (l : List Nat) (identity : Option Identity)
    (err : Option Err) :
    (l.map (fun k => Event.postLoginHook k identity err)).filter Event.isCreateToken = [] := by
  induction l with
  | nil => rfl
  | cons k rest ih => simp [Event.isCreateToken, ih]

/-- C9: when the named strategy authenticates a user identity with a positive id `n` and
`CreateToken`, called for the user with id `n`, the resolved address and the user agent of the
transport request, succeeds, `Login` returns that identity, with namespace "user" and id `n`,
a nil error and `SessionToken` set to the token that `CreateToken` returned; `CreateToken` is
called exactly once, with a user reference whose id is `n`. -/
theorem Login_success {σ : Type} (s : Service σ) (client : String) (r : Request) (w w1 : σ)
    (c : Client σ) (identity : Identity) (req : HTTPRequest) (n : Int)
    (token : Option UserToken)
    (hcl : s.clients client = some c)
    (hauth : (s.authenticate c r w).outcome = .ret (some identity) none)
    (hns : identity.Namespace = NamespaceUser) (hid : identity.ID = n) (hn : 0 < n)
    (hreq : r.HTTPRequest = some req)
    (htok : s.CreateToken ⟨n⟩ (s.GetIPFromAddress (s.RemoteAddr req)).1 req.UserAgent
      (s.authenticate c r w).world = ((token, none), w1)) :
    (s.Login client r w).outcome = .ret (some { identity with SessionToken := token }) none ∧
    ({ identity with SessionToken := token } : Identity).Namespace = "user" ∧
    ({ identity with SessionToken := token } : Identity).ID = n ∧
    ({ identity with SessionToken := token } : Identity).SessionToken = token ∧
    (s.Login client r w).events.filter Event.isCreateToken =
      [Event.createToken ⟨n⟩ (s.GetIPFromAddress (s.RemoteAddr req)).1 req.UserAgent token
        none] := by
  have hr : (s.authenticate c r w).req.HTTPRequest = some req := by
    rw [s.authenticate_req]; exact hreq
  have hshape : ¬ (identity.Namespace ≠ NamespaceUser ∨ identity.ID ≤ 0) := by
    rw [hns, hid]
    simp only [ne_eq, not_true_eq_false, false_or, not_le]
    exact hn
  have hf := (s.authenticate_filters c r w).2.2.1
  have hbody : s.loginBody client r w =
      ⟨false, some { identity with SessionToken := token }, none, (s.authenticate c r w).req,
        w1,
        (s.authenticate c r w).events ++
          (match (s.GetIPFromAddress (s.RemoteAddr req)).2 with
            | some _ => [Event.logFailedToParseIP (s.RemoteAddr req)]
            | none => []) ++
          [Event.createToken ⟨n⟩ (s.GetIPFromAddress (s.RemoteAddr req)).1 req.UserAgent token
            none]⟩ := by
    simp only [Service.loginBody, hcl, hauth, Identity.NamespacedID]
    rw [if_neg hshape]
    simp only [hr, hid, htok]
  refine ⟨?_, hns, hid, rfl, ?_⟩
  · simp only [Service.Login, hbody]
    rfl
  · simp only [Service.Login, hbody, runPostLoginHooks_events, List.filter_append, hf,
      filter_isCreateToken_map, List.nil_append, List.append_nil]
    cases (s.GetIPFromAddress (s.RemoteAddr req)).2 <;> simp [Event.isCreateToken]

/-- Witness for C9: a login through "form" for user 42 returns the identity of user 42 with
the token that the session service minted for user 42. -/
theorem Login_success_witness :
    serviceLogin.clients "form" = some formClient ∧
    (serviceLogin.authenticate formClient sampleRequest 0).outcome =
      .ret (some (sampleUser 42)) none ∧
    (0 : Int) < 42 ∧
    (serviceLogin.Login "form" sampleRequest 0).outcome =
      .ret (some { sampleUser 42 with
        SessionToken := some { Id := 1, UserId := 42, AuthToken := "tok" } }) none ∧
    (serviceLogin.Login "form" sampleRequest 0).events.filter Event.isCreateToken =
      [Event.createToken ⟨42⟩ [127, 0, 0, 1] "curl"
        (some { Id := 1, UserId := 42, AuthToken := "tok" }) none] :=
  ⟨rfl, by decide, by decide,
    (Login_success serviceLogin "form" sampleRequest 0 3 formClient (sampleUser 42)
      { Query := [], Header := [("User-Agent", "curl")], RemoteAddr := "127.0.0.1" } 42
      (some { Id := 1, UserId := 42, AuthToken := "tok" }) rfl (by decide) rfl rfl (by decide)
      rfl (by decide)).1,
    by decide⟩

/-- C10: when the identity that the named strategy's authentication yields has a namespace
other than "user" or an id that is not positive, `Login` returns no identity and the
unsupported-identity error, and `CreateToken` is never called. -/
theorem Login_unsupported_identity {σ : Type} (s : Service σ) (client : String) (r : Request)
    (w : σ) (c : Client σ) (identity : Identity)
    (hcl : s.clients client = some c)
    (hauth : (s.authenticate c r w).outcome = .ret (some identity) none)
    (hshape : identity.Namespace ≠ NamespaceUser ∨ identity.ID ≤ 0) :
    (s.Login client r w).outcome =
      .ret none (some (ErrUnsupportedIdentity identity.Namespace)) ∧
    (s.Login client r w).events.filter Event.isCreateToken = [] ∧
    (∀ u ip ua t e, Event.createToken u ip ua t e ∉ (s.Login client r w).events) := by
  have hf := (s.authenticate_filters c r w).2.2.1
  have hbody : s.loginBody client r w =
      ⟨false, none, some (ErrUnsupportedIdentity identity.Namespace),
        (s.authenticate c r w).req, (s.authenticate c r w).world,
        (s.authenticate c r w).events⟩ := by
    simp only [Service.loginBody, hcl, hauth, Identity.NamespacedID]
    rw [if_pos hshape]
  have hnone : (s.Login client r w).events.filter Event.isCreateToken = [] := by
    simp only [Service.Login, hbody, runPostLoginHooks_events, List.filter_append, hf,
      filter_isCreateToken_map, List.nil_append]
  refine ⟨?_, hnone, ?_⟩
  · simp only [Service.Login, hbody]
    rfl
  · intro u ip ua t e hmem
    have : Event.createToken u ip ua t e ∈
        (s.Login client r w).events.filter Event.isCreateToken :=
      List.mem_filter.mpr ⟨hmem, rfl⟩
    rw [hnone] at this
    simp at this

/-- Witness for C10: a login through "anonymous" yields an identity of namespace
"anonymous"; it fails with the unsupported-identity error and mints no token. -/
theorem Login_unsupported_identity_witness :
    serviceLogin.clients "anonymous" = some anonymousClient ∧
    (serviceLogin.authenticate anonymousClient sampleRequest 0).outcome =
      .ret (some sampleAnonymous) none ∧
    (sampleAnonymous.Namespace ≠ NamespaceUser ∨ sampleAnonymous.ID ≤ 0) ∧
    (serviceLogin.Login "anonymous" sampleRequest 0).outcome =
      .ret none (some (ErrUnsupportedIdentity sampleAnonymous.Namespace)) ∧
    (serviceLogin.Login "anonymous" sampleRequest 0).events.filter Event.isCreateToken = [] :=
  ⟨rfl, by decide, by decide,
    (Login_unsupported_identity serviceLogin "anonymous" sampleRequest 0 anonymousClient
      sampleAnonymous rfl (by decide) (by decide)).1,
    (Login_unsupported_identity serviceLogin "anonymous" sampleRequest 0 anonymousClient
      sampleAnonymous rfl (by decide) (by decide)).2.1⟩

/-! ## Login: unknown client and address resolution -/

/-- C11: for a client name that is not in the registry, `Login` returns no identity and the
client-not-configured error; its body produces no event at all, so no strategy is tested or
called, no post-auth hook runs and the session service is not called; the only events are the
post-login hook calls. -/
theorem Login_client_not_configured {σ : Type} (s : Service σ) (client : String)
    (r : Request) (w : σ) (hcl : s.clients client = none) :
    (s.Login client r w).outcome = .ret none (some (ErrClientNotConfigured client)) ∧
    (s.Login client r w).req = r ∧
    (s.loginBody client r w).events = [] ∧
    (s.Login client r w).events =
      (List.range s.postLoginHooks.length).map
        (fun k => Event.postLoginHook k none (some (ErrClientNotConfigured client))) ∧
    (∀ n o b, Event.test n o b ∉ (s.Login client r w).events) ∧
    (∀ n o i e, Event.clientAuthenticate n o i e ∉ (s.Login client r w).events) ∧
    (∀ k i e, Event.postAuthHook k i e ∉ (s.Login client r w).events) ∧
    (∀ u ip ua t e, Event.createToken u ip ua t e ∉ (s.Login client r w).events) := by
  have hbody : s.loginBody client r w =
      ⟨false, none, some (ErrClientNotConfigured client), r, w, []⟩ := by
    simp only [Service.loginBody, hcl]
  have hev : (s.Login client r w).events =
      (List.range s.postLoginHooks.length).map
        (fun k => Event.postLoginHook k none (some (ErrClientNotConfigured client))) := by
    simp only [Service.Login, hbody, runPostLoginHooks_events, List.nil_append,
      List.range_eq_range']
  refine ⟨?_, ?_, ?_, hev, ?_, ?_, ?_, ?_⟩
  · simp only [Service.Login, hbody]; rfl
  · simp only [Service.Login, hbody]
  · rw [hbody]
  all_goals rw [hev]; simp

/-- Witness for C11: the login service does not know the client "ldap". -/
theorem Login_client_not_configured_witness :
    serviceLogin.clients "ldap" = none ∧
    (serviceLogin.Login "ldap" sampleRequest 0).outcome =
      .ret none (some (ErrClientNotConfigured "ldap")) ∧
    (serviceLogin.Login "ldap" sampleRequest 0).events =
      [Event.postLoginHook 0 none (some (ErrClientNotConfigured "ldap")),
        Event.postLoginHook 1 none (some (ErrClientNotConfigured "ldap"))] :=
  ⟨rfl, (Login_client_not_configured serviceLogin "ldap" sampleRequest 0 rfl).1, by decide⟩

/-- C12: when the strategy authenticates a user and resolving the address of the caller
fails, `Login` logs the failure and still calls `CreateToken`, once, with the address value
that the failed resolution returned.  What `Login` returns, and what the post-login hooks
observe, is decided by the result of `CreateToken` alone: its error with no identity, or the
identity with the token and a nil error.  The address error occurs in neither. -/
theorem Login_ip_parse_failure {σ : Type} (s : Service σ) (client : String) (r : Request)
    (w w1 : σ) (c : Client σ) (identity : Identity) (req : HTTPRequest) (ip : IP)
    (ipErr : Err) (token : Option UserToken) (tokErr : Option Err)
    (hcl : s.clients client = some c)
    (hauth : (s.authenticate c r w).outcome = .ret (some identity) none)
    (hns : identity.Namespace = NamespaceUser) (hid : 0 < identity.ID)
    (hreq : r.HTTPRequest = some req)
    (hip : s.GetIPFromAddress (s.RemoteAddr req) = (ip, some ipErr))
    (htok : s.CreateToken ⟨identity.ID⟩ ip req.UserAgent (s.authenticate c r w).world =
      ((token, tokErr), w1)) :
    (s.Login client r w).outcome =
      (match tokErr with
        | some e => .ret none (some e)
        | none => .ret (some { identity with SessionToken := token }) none) ∧
    (s.Login client r w).events.filter Event.isCreateToken =
      [Event.createToken ⟨identity.ID⟩ ip req.UserAgent token tokErr] ∧
    Event.logFailedToParseIP (s.RemoteAddr req) ∈ (s.Login client r w).events ∧
    (s.Login client r w).events.filterMap Event.loginHookCall =
      (List.range s.postLoginHooks.length).map (fun k =>
        match tokErr with
        | some e => (k, none, some e)
        | none => (k, some { identity with SessionToken := token }, none)) := by
  have hr : (s.authenticate c r w).req.HTTPRequest = some req := by
    rw [s.authenticate_req]; exact hreq
  have hshape : ¬ (identity.Namespace ≠ NamespaceUser ∨ identity.ID ≤ 0) := by
    rw [hns]
    simp only [ne_eq, not_true_eq_false, false_or, not_le]
    exact hid
  obtain ⟨_, _, hf, hl⟩ := s.authenticate_filters c r w
  have hbody : s.loginBody client r w =
      ⟨false,
        (match tokErr with
          | some _ => none
          | none => some { identity with SessionToken := token }),
        tokErr, (s.authenticate c r w).req, w1,
        (s.authenticate c r w).events ++ [Event.logFailedToParseIP (s.RemoteAddr req)] ++
          [Event.createToken ⟨identity.ID⟩ ip req.UserAgent token tokErr]⟩ := by
    simp only [Service.loginBody, hcl, hauth, Identity.NamespacedID]
    rw [if_neg hshape]
    simp only [hr, hip, htok]
    cases tokErr <;> rfl
  refine ⟨?_, ?_, ?_, ?_⟩
  · simp only [Service.Login, hbody]
    cases tokErr <;> rfl
  · simp only [Service.Login, hbody, runPostLoginHooks_events, List.filter_append, hf,
      filter_isCreateToken_map, List.nil_append, List.append_nil]
    simp [Event.isCreateToken]
  · simp only [Service.Login, hbody]
    simp
  · simp only [Service.Login, hbody, runPostLoginHooks_events, List.filterMap_append, hl,
      filterMap_loginHookCall_map, List.nil_append, List.range_eq_range']
    cases tokErr <;> simp [Event.loginHookCall]

/-- Witness for C12: the address resolution fails, the session service mints a token, and the
login succeeds with that token. -/
theorem Login_ip_parse_failure_witness :
    serviceNoIP.clients "form" = some formClient ∧
    serviceNoIP.GetIPFromAddress (serviceNoIP.RemoteAddr
        { Query := [], Header := [("User-Agent", "curl")], RemoteAddr := "127.0.0.1" }) =
      ([], some (sampleErr "not a valid ip")) ∧
    (serviceNoIP.Login "form" sampleRequest 0).outcome =
      .ret (some { sampleUser 42 with
        SessionToken := some { Id := 1, UserId := 42, AuthToken := "tok" } }) none ∧
    (serviceNoIP.Login "form" sampleRequest 0).events.filter Event.isCreateToken =
      [Event.createToken ⟨42⟩ [] "curl" (some { Id := 1, UserId := 42, AuthToken := "tok" })
        none] :=
  ⟨rfl, rfl,
    (Login_ip_parse_failure serviceNoIP "form" sampleRequest 0 3 formClient (sampleUser 42)
      { Query := [], Header := [("User-Agent", "curl")], RemoteAddr := "127.0.0.1" } []
      (sampleErr "not a valid ip") (some { Id := 1, UserId := 42, AuthToken := "tok" }) none
      rfl (by decide) rfl (by decide) rfl rfl (by decide)).1,
    by decide⟩

/-! ## The redirect delegate -/

/-- C13: `RedirectURL` returns the empty string and the client-not-configured error when the
name is not registered, the empty string and the unsupported-client error when the registered
strategy is not redirect-capable, and otherwise exactly the results of the strategy's
`RedirectURL`.  On each of these paths no post-auth hook and no post-login hook is called: the
only possible event is the call of the strategy's `RedirectURL`. -/
theorem RedirectURL_delegates {σ : Type} (s : Service σ) (client : String) (r : Request)
    (w : σ) :
    (s.clients client = none →
      (s.RedirectURL client r w).url = "" ∧
      (s.RedirectURL client r w).err = some (ErrClientNotConfigured client) ∧
      (s.RedirectURL client r w).events = []) ∧
    (∀ c, s.clients client = some c → c.RedirectURL = none →
      (s.RedirectURL client r w).url = "" ∧
      (s.RedirectURL client r w).err = some (ErrUnsupportedClient client) ∧
      (s.RedirectURL client r w).events = []) ∧
    (∀ c redirect, s.clients client = some c → c.RedirectURL = some redirect →
      (s.RedirectURL client r w).url = (redirect r w).1.1 ∧
      (s.RedirectURL client r w).err = (redirect r w).1.2 ∧
      (s.RedirectURL client r w).world = (redirect r w).2 ∧
      (s.RedirectURL client r w).events =
        [Event.redirectURL c.Name (redirect r w).1.1 (redirect r w).1.2]) ∧
    (s.RedirectURL client r w).events.filterMap Event.hookCall = [] ∧
    (s.RedirectURL client r w).events.filterMap Event.loginHookCall = [] := by
  refine ⟨?_, ?_, ?_, ?_, ?_⟩
  · intro h
    simp [Service.RedirectURL, h]
  · intro c h1 h2
    simp [Service.RedirectURL, h1, h2]
  · intro c redirect h1 h2
    simp [Service.RedirectURL, h1, h2]
  · unfold Service.RedirectURL
    split
    · rfl
    · split
      · rfl
      · rfl
  · unfold Service.RedirectURL
    split
    · rfl
    · split
      · rfl
      · rfl

/-- Witness for C13: "ldap" is unknown, "session" is registered but not redirect-capable, and
"oauth" delegates. -/
theorem RedirectURL_delegates_witness :
    serviceRedirect.clients "ldap" = none ∧
    (serviceRedirect.RedirectURL "ldap" sampleRequest 0).err =
      some (ErrClientNotConfigured "ldap") ∧
    serviceRedirect.clients "session" = some (awareClient "session" 1 1) ∧
    (serviceRedirect.RedirectURL "session" sampleRequest 0).url = "" ∧
    (serviceRedirect.RedirectURL "session" sampleRequest 0).err =
      some (ErrUnsupportedClient "session") ∧
    (serviceRedirect.RedirectURL "oauth" sampleRequest 0) =
      ⟨"https://idp.example.org/authorize", none, 1,
        [Event.redirectURL "oauth" "https://idp.example.org/authorize" none]⟩ :=
  ⟨rfl,
    ((RedirectURL_delegates serviceRedirect "ldap" sampleRequest 0).1 rfl).2.1,
    rfl,
    ((RedirectURL_delegates serviceRedirect "session" sampleRequest 0).2.1
      (awareClient "session" 1 1) rfl rfl).1,
    ((RedirectURL_delegates serviceRedirect "session" sampleRequest 0).2.1
      (awareClient "session" 1 1) rfl rfl).2.1,
    by decide⟩

/-! ## Registration and the priority queue -/

theorem mem_queueInsert {σ : Type} (v : ContextAwareClient σ) (p : Nat) (x : queueItem σ) :
    ∀ q : List (queueItem σ), x ∈ queueInsert v p q ↔ x = { v := v, p := p } ∨ x ∈ q := by
  intro q
  induction q with
  | nil => simp [queueInsert]
  | cons item rest ih =>
    simp only [queueInsert]
    split
    · simp
    · simp only [List.mem_cons, ih]
      tauto

theorem queueInsert_perm {σ : Type} (v : ContextAwareClient σ) (p : Nat) :
    ∀ q : List (queueItem σ), (queueInsert v p q).Perm (q ++ [{ v := v, p := p }]) := by
  intro q
  induction q with
  | nil => simp [queueInsert]
  | cons item rest ih =>
    simp only [queueInsert]
    split
    · exact (List.perm_append_singleton _ _).symm
    · exact List.Perm.cons _ ih

/-- Inserting into a queue that ascends by priority gives a queue that ascends by priority. -/
theorem queueInsert_pairwise {σ : Type} (v : ContextAwareClient σ) (p : Nat) :
    ∀ q : List (queueItem σ), q.Pairwise (fun a b => a.p ≤ b.p) →
      (queueInsert v p q).Pairwise (fun a b => a.p ≤ b.p) := by
  intro q
  induction q with
  | nil => intro _; simp [queueInsert]
  | cons item rest ih =>
    intro h
    rw [List.pairwise_cons] at h
    simp only [queueInsert]
    split
    · rename_i hlt
      rw [List.pairwise_cons]
      refine ⟨?_, List.pairwise_cons.mpr h⟩
      intro x hx
      rcases List.mem_cons.mp hx with rfl | hx
      · exact Nat.le_of_lt hlt
      · exact Nat.le_trans (Nat.le_of_lt hlt) (h.1 x hx)
    · rename_i hge
      rw [List.pairwise_cons]
      refine ⟨?_, ih h.2⟩
      intro x hx
      rcases (mem_queueInsert v p x rest).mp hx with rfl | hx
      · exact Nat.le_of_not_lt hge
      · exact h.1 x hx

/-- Inserting with priority `p` changes only the entries of priority `p`, and puts the new
entry behind those already queued with that priority. -/
theorem queueInsert_filter {σ : Type} (v : ContextAwareClient σ) (p k : Nat) :
    ∀ q : List (queueItem σ), q.Pairwise (fun a b => a.p ≤ b.p) →
      (queueInsert v p q).filter (fun it => it.p == k) =
        q.filter (fun it => it.p == k) ++
          [({ v := v, p := p } : queueItem σ)].filter (fun it => it.p == k) := by
  intro q
  induction q with
  | nil => intro _; simp [queueInsert]
  | cons item rest ih =>
    intro h
    rw [List.pairwise_cons] at h
    simp only [queueInsert]
    split
    · rename_i hlt
      by_cases hk : p = k
      · have hnone : (item :: rest).filter (fun it => it.p == k) = [] := by
          rw [List.filter_eq_nil_iff]
          intro x hx
          have hle : item.p ≤ x.p := by
            rcases List.mem_cons.mp hx with rfl | hx
            · exact Nat.le_refl _
            · exact h.1 x hx
          simp only [beq_iff_eq]
          omega
        rw [List.filter_cons, hnone]
        simp [hk]
      · have : (p == k) = false := by simpa using hk
        simp [List.filter_cons, this]
    · simp only [List.filter_cons, ih h.2]
      split <;> simp

theorem Service.RegisterClient_queue {σ : Type} (s : Service σ) (c : Client σ) :
    (s.RegisterClient c).clientQueue =
      match c.queueEntry with
      | some it => queueInsert it.v it.p s.clientQueue
      | none => s.clientQueue := by
  unfold Service.RegisterClient Client.queueEntry
  cases c.asContextAware <;> rfl

theorem Service.RegisterClient_clients {σ : Type} (s : Service σ) (c : Client σ)
    (n : String) :
    (s.RegisterClient c).clients n = if n = c.Name then some c else s.clients n := by
  unfold Service.RegisterClient
  cases c.asContextAware <;> rfl

/-- Registering strategies keeps the queue ascending by priority, with each priority class in
registration order, and holding exactly the entries of the dispatch-aware strategies. -/
theorem Service.foldl_RegisterClient_queue {σ : Type} (cs : List (Client σ)) :
    ∀ (s : Service σ) (hist : List (queueItem σ)),
      s.clientQueue.Pairwise (fun a b => a.p ≤ b.p) →
      (∀ k, s.clientQueue.filter (fun it => it.p == k) = hist.filter (fun it => it.p == k)) →
      s.clientQueue.Perm hist →
      (cs.foldl Service.RegisterClient s).clientQueue.Pairwise (fun a b => a.p ≤ b.p) ∧
      (∀ k, (cs.foldl Service.RegisterClient s).clientQueue.filter (fun it => it.p == k) =
        (hist ++ cs.filterMap Client.queueEntry).filter (fun it => it.p == k)) ∧
      (cs.foldl Service.RegisterClient s).clientQueue.Perm
        (hist ++ cs.filterMap Client.queueEntry) := by
  induction cs with
  | nil => intro s hist h1 h2 h3; simpa using ⟨h1, h2, h3⟩
  | cons c rest ih =>
    intro s hist h1 h2 h3
    simp only [List.foldl_cons]
    cases hq : c.queueEntry with
    | none =>
      have hs : (s.RegisterClient c).clientQueue = s.clientQueue := by
        rw [s.RegisterClient_queue, hq]
      simp only [List.filterMap_cons, hq]
      exact ih (s.RegisterClient c) hist (hs ▸ h1) (fun k => by rw [hs]; exact h2 k)
        (hs ▸ h3)
    | some it =>
      have hs : (s.RegisterClient c).clientQueue = queueInsert it.v it.p s.clientQueue := by
        rw [s.RegisterClient_queue, hq]
      have hit : ({ v := it.v, p := it.p } : queueItem σ) = it := rfl
      have := ih (s.RegisterClient c) (hist ++ [it])
        (hs ▸ queueInsert_pairwise it.v it.p _ h1)
        (fun k => by
          rw [hs, queueInsert_filter it.v it.p k _ h1, h2 k, hit, List.filter_append])
        (by
          rw [hs]
          exact (queueInsert_perm it.v it.p _).trans (hit ▸ List.Perm.append_right _ h3))
      simpa only [List.filterMap_cons, hq, List.append_assoc, List.singleton_append]
        using this

/-- Counterexample to C14 as stated: the dispatch-aware strategy "session" (priority 1, user 1)
is registered and then a strategy that is not dispatch-aware (user 2) is registered under the
same name.  Lookup by name yields the second strategy, but the second registration never
reaches the queue: the dispatch sequence still holds the entry of the first strategy and no
entry of the second, and `Authenticate` tests and calls the first strategy and returns the
identity it produced (user 1). -/
theorem RegisterClient_same_name_counterexample :
    (awareClient "session" 1 1).Name =
      (sampleClient "session" (some (sampleUser 2), none)).Name ∧
    (serviceReregistered.clients "session").map
        (fun c => (c.contextAware.isSome, (c.Authenticate sampleRequest 0).1)) =
      some (false, (some (sampleUser 2), none)) ∧
    serviceReregistered.clientQueue.map (fun it => (it.v.client.Name, it.p)) =
      [("session", 1)] ∧
    serviceReregistered.clientQueue.map
        (fun it => (it.v.client.Authenticate sampleRequest 0).1) =
      [(some (sampleUser 1), none)] ∧
    (serviceReregistered.Authenticate sampleRequest 0).events =
      [Event.test "session" 0 true,
        Event.clientAuthenticate "session" 0 (some (sampleUser 1)) none] ∧
    (serviceReregistered.Authenticate sampleRequest 0).outcome =
      .ret (some (sampleUser 1)) none := by
  decide

/-- C14, amended: after `RegisterClient(c1)` followed by `RegisterClient(c2)` with the same
name, lookup by name yields `c2`.  `RegisterClient` itself removes nothing from the dispatch
sequence: if `c2` is not dispatch-aware the sequence is left exactly as the first registration
left it, so the entry of a dispatch-aware `c1` is still in the sequence that `Authenticate`
walks; if `c2` is dispatch-aware the sequence is the result of the queue's `insert` of `c2`,
with its priority, into the sequence that the first registration left. -/
theorem RegisterClient_same_name {σ : Type} (s : Service σ) (c1 c2 : Client σ)
    (hname : c1.Name = c2.Name) :
    ((s.RegisterClient c1).RegisterClient c2).clients c1.Name = some c2 ∧
    (c2.contextAware = none →
      ((s.RegisterClient c1).RegisterClient c2).clientQueue =
        (s.RegisterClient c1).clientQueue ∧
      ∀ it, c1.queueEntry = some it →
        it ∈ ((s.RegisterClient c1).RegisterClient c2).clientQueue) ∧
    (∀ it, c2.queueEntry = some it →
      ((s.RegisterClient c1).RegisterClient c2).clientQueue =
        queueInsert it.v it.p (s.RegisterClient c1).clientQueue) := by
  refine ⟨?_, ?_, ?_⟩
  · rw [Service.RegisterClient_clients, if_pos hname]
  · intro hnone
    have hq : ((s.RegisterClient c1).RegisterClient c2).clientQueue =
        (s.RegisterClient c1).clientQueue := by
      rw [Service.RegisterClient_queue]
      simp [Client.queueEntry, Client.asContextAware, hnone]
    refine ⟨hq, ?_⟩
    intro it h1
    rw [hq, Service.RegisterClient_queue, h1]
    exact (mem_queueInsert _ _ _ _).mpr (Or.inl rfl)
  · intro it h2
    rw [Service.RegisterClient_queue, h2]

/-- Witness for C14 (amended): after the second registration under the name "session", with a
strategy that is not dispatch-aware, lookup yields that strategy and the entry of the first
strategy is still in the dispatch sequence. -/
theorem RegisterClient_same_name_witness :
    (awareClient "session" 1 1).Name =
      (sampleClient "session" (some (sampleUser 2), none)).Name ∧
    (sampleClient "session" (some (sampleUser 2), none) : Client Nat).contextAware = none ∧
    serviceReregistered.clients "session" =
      some (sampleClient "session" (some (sampleUser 2), none)) ∧
    serviceReregistered.clientQueue =
      (emptyService.RegisterClient (awareClient "session" 1 1)).clientQueue ∧
    (∀ it, (awareClient "session" 1 1).queueEntry = some it →
      it ∈ serviceReregistered.clientQueue) :=
  ⟨rfl, rfl,
    (RegisterClient_same_name emptyService (awareClient "session" 1 1)
      (sampleClient "session" (some (sampleUser 2), none)) rfl).1,
    ((RegisterClient_same_name emptyService (awareClient "session" 1 1)
      (sampleClient "session" (some (sampleUser 2), none)) rfl).2.1 rfl).1,
    ((RegisterClient_same_name emptyService (awareClient "session" 1 1)
      (sampleClient "session" (some (sampleUser 2), none)) rfl).2.1 rfl).2⟩

/-- C15: starting from an empty queue, after any sequence of `RegisterClient` calls the sequence
that `Authenticate` walks ascends by priority, the priority of each entry is the `Priority()`
of its strategy, the entries of each priority are in registration order, and the sequence holds
exactly the entries of the dispatch-aware strategies that were registered: a strategy that is
not dispatch-aware is stored under its name and leaves the sequence unchanged. -/
theorem RegisterClient_queue_sorted {σ : Type} (s : Service σ) (cs : List (Client σ))
    (h0 : s.clientQueue = []) :
    (cs.foldl Service.RegisterClient s).clientQueue.Pairwise (fun a b => a.p ≤ b.p) ∧
    (∀ it ∈ (cs.foldl Service.RegisterClient s).clientQueue, it.p = it.v.Priority) ∧
    (∀ k, (cs.foldl Service.RegisterClient s).clientQueue.filter (fun it => it.p == k) =
      (cs.filterMap Client.queueEntry).filter (fun it => it.p == k)) ∧
    (cs.foldl Service.RegisterClient s).clientQueue.Perm (cs.filterMap Client.queueEntry) ∧
    (∀ it ∈ (cs.foldl Service.RegisterClient s).clientQueue,
      ∃ c ∈ cs, c.contextAware ≠ none ∧ c.queueEntry = some it) ∧
    (∀ (t : Service σ) (c : Client σ), c.contextAware = none →
      (t.RegisterClient c).clientQueue = t.clientQueue ∧
      (t.RegisterClient c).clients c.Name = some c) := by
  obtain ⟨h1, h2, h3⟩ := Service.foldl_RegisterClient_queue cs s [] (by rw [h0]; simp)
    (by intro k; rw [h0]) (by rw [h0])
  simp only [List.nil_append] at h2 h3
  have hmem : ∀ it ∈ (cs.foldl Service.RegisterClient s).clientQueue,
      ∃ c ∈ cs, c.contextAware ≠ none ∧ c.queueEntry = some it := by
    intro it hit
    obtain ⟨c, hc, hce⟩ := List.mem_filterMap.mp (h3.subset hit)
    refine ⟨c, hc, ?_, hce⟩
    intro hnone
    simp [Client.queueEntry, Client.asContextAware, hnone] at hce
  refine ⟨h1, ?_, h2, h3, hmem, ?_⟩
  · intro it hit
    obtain ⟨c, _, _, hce⟩ := hmem it hit
    unfold Client.queueEntry at hce
    cases hca : c.asContextAware with
    | none => rw [hca] at hce; simp at hce
    | some cac =>
      rw [hca] at hce
      simp only [Option.some.injEq] at hce
      rw [← hce]
  · intro t c hnone
    constructor
    · rw [Service.RegisterClient_queue]
      simp [Client.queueEntry, Client.asContextAware, hnone]
    · rw [Service.RegisterClient_clients, if_pos rfl]

/-- Witness for C15: "jwt" (20), "form" (not dispatch-aware), "apikey" (10) and "session" (20)
are registered in this order; the queue is "apikey", "jwt", "session". -/
theorem RegisterClient_queue_sorted_witness :
    emptyService.clientQueue = [] ∧
    (registrationOrder.foldl Service.RegisterClient emptyService).clientQueue.map
        (fun it => (it.v.client.Name, it.p)) =
      [("apikey", 10), ("jwt", 20), ("session", 20)] ∧
    (registrationOrder.foldl Service.RegisterClient emptyService).clientQueue.Pairwise
      (fun a b => a.p ≤ b.p) :=
  ⟨rfl, by decide, (RegisterClient_queue_sorted emptyService registrationOrder rfl).1⟩

/-! ## Org id resolution -/

theorem ParseInt_empty : ParseInt "" = none := by decide

/-- A query value that parses belongs to a query key that is present. -/
theorem HTTPRequest.queryHas_of_parse (req : HTTPRequest) (key : String) (q : Int)
    (h : ParseInt (req.queryGet key) = some q) : req.queryHas key = true := by
  by_contra hno
  have hfind : req.Query.find? (fun kv => kv.1 == key) = none := by
    rw [List.find?_eq_none]
    intro kv hkv hk
    apply hno
    unfold HTTPRequest.queryHas
    rw [List.any_eq_true]
    exact ⟨kv, hkv, hk⟩
  unfold HTTPRequest.queryGet at h
  rw [hfind] at h
  simp only at h
  rw [ParseInt_empty] at h
  exact absurd h (by simp)

/-- C17: if the request has a transport request whose query parameter `targetOrgId` parses as a
positive base-10 int64 `q`, `orgIDFromRequest` returns `q`, whatever the header holds. -/
theorem orgIDFromRequest_query_wins (r : Request) (req : HTTPRequest) (q : Int)
    (hreq : r.HTTPRequest = some req)
    (hq : ParseInt (req.queryGet orgIDTargetQuery) = some q) (hpos : 0 < q) :
    orgIDFromRequest r = q := by
  have hhas := req.queryHas_of_parse orgIDTargetQuery q hq
  have hquery : orgIDFromQuery req = q := by
    simp [orgIDFromQuery, hhas, hq]
  simp only [orgIDFromRequest, hreq, hquery]
  rw [if_pos hpos]

/-- Witness for C17: `?targetOrgId=7` with the header `X-Grafana-Org-Id: 9` resolves to 7. -/
theorem orgIDFromRequest_query_wins_witness :
    ParseInt (HTTPRequest.queryGet
      { Query := [("targetOrgId", "7")], Header := [("X-Grafana-Org-Id", "9")],
        RemoteAddr := "127.0.0.1" } orgIDTargetQuery) = some 7 ∧
    HTTPRequest.headerGet
      { Query := [("targetOrgId", "7")], Header := [("X-Grafana-Org-Id", "9")],
        RemoteAddr := "127.0.0.1" } orgIDHeaderName = "9" ∧
    orgIDFromRequest requestQuery7Header9 = 7 :=
  ⟨by decide, by decide,
    orgIDFromRequest_query_wins requestQuery7Header9
      { Query := [("targetOrgId", "7")], Header := [("X-Grafana-Org-Id", "9")],
        RemoteAddr := "127.0.0.1" } 7 rfl (by decide) (by decide)⟩

/-- C18: for a request without a `targetOrgId` query parameter, `orgIDFromRequest` returns the
value of the header `X-Grafana-Org-Id` when it parses as a base-10 int64, and 0 when the header
is absent or malformed; it returns 0 when both the query value and the header value are
malformed, and 0 when the request has no transport request. -/
theorem orgIDFromRequest_header (r : Request) :
    (∀ req h, r.HTTPRequest = some req → req.queryHas orgIDTargetQuery = false →
      ParseInt (req.headerGet orgIDHeaderName) = some h → orgIDFromRequest r = h) ∧
    (∀ req, r.HTTPRequest = some req → req.queryHas orgIDTargetQuery = false →
      (req.headerGet orgIDHeaderName = "" ∨ ParseInt (req.headerGet orgIDHeaderName) = none) →
      orgIDFromRequest r = 0) ∧
    (∀ req, r.HTTPRequest = some req →
      ParseInt (req.queryGet orgIDTargetQuery) = none →
      ParseInt (req.headerGet orgIDHeaderName) = none → orgIDFromRequest r = 0) ∧
    (r.HTTPRequest = none → orgIDFromRequest r = 0) := by
  refine ⟨?_, ?_, ?_, ?_⟩
  · intro req h hreq hno hh
    have hne : req.headerGet orgIDHeaderName ≠ "" := by
      intro he
      rw [he, ParseInt_empty] at hh
      exact absurd hh (by simp)
    simp [orgIDFromRequest, hreq, orgIDFromQuery, hno, orgIDFromHeader, hne, hh]
  · intro req hreq hno hh
    rcases hh with hh | hh
    · simp [orgIDFromRequest, hreq, orgIDFromQuery, hno, orgIDFromHeader, hh]
    · simp [orgIDFromRequest, hreq, orgIDFromQuery, hno, orgIDFromHeader, hh]
  · intro req hreq hq hh
    have hquery : orgIDFromQuery req = 0 := by
      unfold orgIDFromQuery
      split
      · rfl
      · rw [hq]
    simp [orgIDFromRequest, hreq, hquery, orgIDFromHeader, hh]
  · intro hreq
    simp [orgIDFromRequest, hreq]

/-- Witness for C18: with only the header `X-Grafana-Org-Id: 9` the request resolves to 9. -/
theorem orgIDFromRequest_header_witness :
    orgIDFromRequest
      { OrgID := 0
        HTTPRequest := some
          { Query := [], Header := [("X-Grafana-Org-Id", "9")], RemoteAddr := "" } } = 9 ∧
    orgIDFromRequest
      { OrgID := 0
        HTTPRequest := some
          { Query := [("targetOrgId", "x")], Header := [("X-Grafana-Org-Id", "1e3")],
            RemoteAddr := "" } } = 0 ∧
    orgIDFromRequest { OrgID := 5, HTTPRequest := none } = 0 :=
  ⟨(orgIDFromRequest_header _).1
      { Query := [], Header := [("X-Grafana-Org-Id", "9")], RemoteAddr := "" } 9 rfl
      (by decide) (by decide),
    (orgIDFromRequest_header _).2.2.1
      { Query := [("targetOrgId", "x")], Header := [("X-Grafana-Org-Id", "1e3")],
        RemoteAddr := "" } rfl (by decide) (by decide),
    (orgIDFromRequest_header _).2.2.2 rfl⟩

/-! ## What the hooks may change -/

/-- A hook loop that starts from the nil identity ends with the nil identity. -/
theorem runPostAuthHooks_identity_nil {σ : Type} (hooks : List (PostAuthHookFn σ)) :
    ∀ (idx : Nat) (r : Request) (w : σ),
      (runPostAuthHooks hooks idx none r w).identity = none := by
  induction hooks with
  | nil => intro idx r w; rfl
  | cons hook rest ih =>
    intro idx r w
    simp only [runPostAuthHooks]
    rcases hc : hook.callNil r w with ⟨e1, w1⟩
    cases e1 with
    | some err => rfl
    | none => exact ih (idx + 1) r w1

/-- If every hook leaves the namespace+ID pair alone, so does the hook loop. -/
theorem runPostAuthHooks_preserves {σ : Type} (hooks : List (PostAuthHookFn σ))
    (hpres : ∀ hook ∈ hooks, ∀ (i : Identity) (r : Request) (w : σ),
      (hook.call i r w).2.1.NamespacedID = i.NamespacedID) :
    ∀ (idx : Nat) (i0 i1 : Identity) (r : Request) (w : σ),
      (runPostAuthHooks hooks idx (some i0) r w).identity = some i1 →
      i1.NamespacedID = i0.NamespacedID := by
  induction hooks with
  | nil =>
    intro idx i0 i1 r w h
    simp only [runPostAuthHooks, Option.some.injEq] at h
    rw [h]
  | cons hook rest ih =>
    intro idx i0 i1 r w h
    have hh := hpres hook (List.mem_cons_self _ _) i0 r w
    simp only [runPostAuthHooks] at h
    rcases hc : hook.call i0 r w with ⟨e1, i2, w1⟩
    rw [hc] at h hh
    cases e1 with
    | some err =>
      simp only [Option.some.injEq] at h
      rw [← h]; exact hh
    | none =>
      simp only at h
      rw [ih (fun hk hm => hpres hk (List.mem_cons_of_mem _ hm)) (idx + 1) i2 i1 r w1 h]
      exact hh

/-- What a successful run of the subroutine tells: the strategy returned an identity and a nil
error, every hook returned nil, and the identity returned is the one the last hook left. -/
theorem Service.authenticate_success_inv {σ : Type} (s : Service σ) (c : Client σ)
    (r : Request) (w : σ) (i : Identity)
    (h : (s.authenticate c r w).outcome = .ret (some i) none) :
    ∃ i0 w1, c.Authenticate { r with OrgID := orgIDFromRequest r } w = ((some i0, none), w1) ∧
      (runPostAuthHooks s.postAuthHooks 0 (some i0)
        { r with OrgID := orgIDFromRequest r } w1).err = none ∧
      (runPostAuthHooks s.postAuthHooks 0 (some i0)
        { r with OrgID := orgIDFromRequest r } w1).identity = some i ∧
      Event.clientAuthenticate c.Name (orgIDFromRequest r) (some i0) none ∈
        (s.authenticate c r w).events := by
  rcases s.authenticate_cases c r w with ⟨i2, e2, w2, hc2, hrun⟩ | ⟨i2, w2, hc2, hrun⟩
  · rw [hrun] at h
    simp at h
  · rw [hrun] at h
    simp only at h
    cases he : (runPostAuthHooks s.postAuthHooks 0 i2
        { r with OrgID := orgIDFromRequest r } w2).err with
    | some err => rw [he] at h; simp at h
    | none =>
      rw [he] at h
      simp only at h
      cases hi : (runPostAuthHooks s.postAuthHooks 0 i2
          { r with OrgID := orgIDFromRequest r } w2).identity with
      | none => rw [hi] at h; simp at h
      | some i3 =>
        rw [hi] at h
        simp only at h
        have hi3 : i3 = i := by
          split at h
          · simp at h
          · simpa using h
        cases i2 with
        | none =>
          rw [runPostAuthHooks_identity_nil] at hi
          simp at hi
        | some i0 =>
          refine ⟨i0, w2, hc2, he, hi3 ▸ hi, ?_⟩
          rw [hrun]
          exact List.mem_cons_self _ _

/-- A walk that returns an identity returns the identity of a successful run of the subroutine
whose events are among those of the walk. -/
theorem Service.walk_returned_identity {σ : Type} (s : Service σ)
    (items : List (queueItem σ)) :
    ∀ (a : Option Err) (r : Request) (w : σ) (run : Run σ) (i : Identity),
      s.walk items a r w = .returned run → run.outcome = .ret (some i) none →
      ∃ c r1 w1, (s.authenticate c r1 w1).outcome = .ret (some i) none ∧
        r1.HTTPRequest = r.HTTPRequest ∧
        ∀ ev ∈ (s.authenticate c r1 w1).events, ev ∈ run.events := by
  induction items with
  | nil => intro a r w run i h; simp [Service.walk] at h
  | cons item rest ih =>
    intro a r w run i h hout
    simp only [Service.walk] at h
    rcases hT : item.v.Test r w with ⟨b, w1⟩
    rw [hT] at h
    cases b
    · simp only at h
      obtain ⟨run1, h1, ho, he⟩ := Walk.prepend_eq_returned _ _ _ h
      obtain ⟨c, r1, w2, hc, hr, hev⟩ := ih a r w1 run1 i h1 (ho ▸ hout)
      exact ⟨c, r1, w2, hc, hr, fun ev hm => by rw [he]; simp [hev ev hm]⟩
    · simp only at h
      rcases hO : (s.authenticate item.v.client r w1).outcome with _ | _
      · rename_i identity err
        rw [hO] at h
        cases err with
        | some e =>
          simp only at h
          obtain ⟨run1, h1, ho, he⟩ := Walk.prepend_eq_returned _ _ _ h
          obtain ⟨c, r1, w2, hc, hr, hev⟩ := ih _ _ _ run1 i h1 (ho ▸ hout)
          refine ⟨c, r1, w2, hc, ?_, fun ev hm => by rw [he]; simp [hev ev hm]⟩
          rw [hr, s.authenticate_req]
        | none =>
          cases identity with
          | some i0 =>
            simp only [Walk.returned.injEq] at h
            subst h
            simp only [Outcome.ret.injEq, Option.some.injEq, and_true] at hout
            subst hout
            exact ⟨item.v.client, r, w1, hO, rfl, fun ev hm => List.mem_cons_of_mem _ hm⟩
          | none => exact absurd hO (s.authenticate_ne_nil_nil _ _ _)
      · rw [hO] at h
        simp only [Walk.returned.injEq] at h
        subst h
        simp at hout

/-- If the body of `Login` is left by a return with an identity, the subroutine succeeded and
the identity differs from the one it returned at most in the session token. -/
theorem Service.loginBody_identity_inv {σ : Type} (s : Service σ) (client : String)
    (r : Request) (w : σ) (c : Client σ) (i : Identity)
    (hcl : s.clients client = some c)
    (hp : (s.loginBody client r w).panicked = false)
    (hi : (s.loginBody client r w).identity = some i) :
    ∃ i1, (s.authenticate c r w).outcome = .ret (some i1) none ∧
      i.NamespacedID = i1.NamespacedID := by
  simp only [Service.loginBody, hcl] at hp hi
  rcases hO : (s.authenticate c r w).outcome with _ | _
  · rename_i identity err
    rw [hO] at hp hi
    cases err with
    | some e => simp at hi
    | none =>
      cases identity with
      | none => simp at hp
      | some i1 =>
        refine ⟨i1, rfl, ?_⟩
        simp only [Identity.NamespacedID] at hp hi
        by_cases hshape : i1.Namespace ≠ NamespaceUser ∨ i1.ID ≤ 0
        · rw [if_pos hshape] at hi
          simp at hi
        · rw [if_neg hshape] at hp hi
          cases hreq : (s.authenticate c r w).req.HTTPRequest with
          | none => simp [hreq] at hp
          | some req =>
            simp only [hreq] at hi
            split at hi
            · simp at hi
            · simp only [Option.some.injEq] at hi
              rw [← hi]
              rfl
  · rw [hO] at hp
    simp at hp

/-! ## Namespace and id of the returned identity -/

/-- Counterexample to C16 as stated: the strategy produces the pair ("user", 42), the
registered post-auth hook sets the id to 99, and the subroutine returns an identity with the pair
("user", 99). -/
theorem authenticate_namespaced_id_counterexample :
    formClient.Authenticate { sampleRequest with OrgID := orgIDFromRequest sampleRequest } 0 =
      ((some (sampleUser 42), none), 1) ∧
    (sampleUser 42).NamespacedID = ("user", 42) ∧
    (serviceHookReassigns.authenticate formClient sampleRequest 0).outcome =
      .ret (some { sampleUser 42 with ID := 99 }) none ∧
    ({ sampleUser 42 with ID := 99 } : Identity).NamespacedID = ("user", 99) ∧
    ({ sampleUser 42 with ID := 99 } : Identity).NamespacedID ≠
      (sampleUser 42).NamespacedID := by
  decide

/-- C16, amended: the subroutine `authenticate`, and with it `Authenticate` and `Login`, never
reassigns the namespace+ID pair itself.  Post-auth hooks can modify the identity, the pair
included; when every registered post-auth hook leaves the pair as it found it, the identity
that the subroutine, `Login` or `Authenticate` returns carries the pair that the strategy's
`Authenticate` produced. -/
theorem authenticate_preserves_namespaced_id {σ : Type} (s : Service σ) (r : Request) (w : σ)
    (hpres : ∀ hook ∈ s.postAuthHooks, ∀ (i : Identity) (r1 : Request) (w1 : σ),
      (hook.call i r1 w1).2.1.NamespacedID = i.NamespacedID) :
    (∀ c i, (s.authenticate c r w).outcome = .ret (some i) none →
      ∃ i0 w1,
        c.Authenticate { r with OrgID := orgIDFromRequest r } w = ((some i0, none), w1) ∧
        i.NamespacedID = i0.NamespacedID) ∧
    (∀ client c i e, s.clients client = some c →
      (s.Login client r w).outcome = .ret (some i) e →
      ∃ i0 w1,
        c.Authenticate { r with OrgID := orgIDFromRequest r } w = ((some i0, none), w1) ∧
        i.NamespacedID = i0.NamespacedID) ∧
    (∀ i, (s.Authenticate r w).outcome = .ret (some i) none →
      ∃ n o i0, Event.clientAuthenticate n o (some i0) none ∈ (s.Authenticate r w).events ∧
        i.NamespacedID = i0.NamespacedID) := by
  have hsub : ∀ (c : Client σ) (r1 : Request) (w1 : σ) (i : Identity),
      (s.authenticate c r1 w1).outcome = .ret (some i) none →
      ∃ i0 w2,
        c.Authenticate { r1 with OrgID := orgIDFromRequest r1 } w1 = ((some i0, none), w2) ∧
        Event.clientAuthenticate c.Name (orgIDFromRequest r1) (some i0) none ∈
          (s.authenticate c r1 w1).events ∧
        i.NamespacedID = i0.NamespacedID := by
    intro c r1 w1 i h
    obtain ⟨i0, w2, hc, _, hid, hev⟩ := s.authenticate_success_inv c r1 w1 i h
    exact ⟨i0, w2, hc, hev, runPostAuthHooks_preserves _ hpres 0 i0 i _ _ hid⟩
  refine ⟨?_, ?_, ?_⟩
  · intro c i h
    obtain ⟨i0, w2, hc, _, hn⟩ := hsub c r w i h
    exact ⟨i0, w2, hc, hn⟩
  · intro client c i e hcl hout
    simp only [Service.Login] at hout
    have hp : (s.loginBody client r w).panicked = false := by
      cases hpb : (s.loginBody client r w).panicked with
      | false => rfl
      | true => rw [hpb] at hout; simp at hout
    rw [hp] at hout
    simp only [Bool.false_eq_true, if_false, Outcome.ret.injEq] at hout
    obtain ⟨i1, h1, hn1⟩ := s.loginBody_identity_inv client r w c i hcl hp hout.1
    obtain ⟨i0, w2, hc, _, hn⟩ := hsub c r w i1 h1
    exact ⟨i0, w2, hc, hn1.trans hn⟩
  · intro i hout
    rw [s.Authenticate_events]
    unfold Service.Authenticate at hout
    cases hx : s.walk s.clientQueue none r w with
    | exhausted a1 r1 w1 evs =>
      rw [hx] at hout
      cases a1 <;> simp at hout
    | returned run =>
      rw [hx] at hout
      simp only at hout
      obtain ⟨c, r1, w1, hc, _, hev⟩ :=
        s.walk_returned_identity s.clientQueue none r w run i hx hout
      obtain ⟨i0, w2, _, hmem, hn⟩ := hsub c r1 w1 i hc
      exact ⟨c.Name, orgIDFromRequest r1, i0, hev _ hmem, hn⟩

/-- Witness for C16 (amended): the hooks of the login service leave the pair alone, and the
login through "form" returns an identity with the pair of user 42. -/
theorem authenticate_preserves_namespaced_id_witness :
    (∀ hook ∈ serviceLogin.postAuthHooks, ∀ (i : Identity) (r1 : Request) (w1 : Nat),
      (hook.call i r1 w1).2.1.NamespacedID = i.NamespacedID) ∧
    (serviceLogin.authenticate formClient sampleRequest 0).outcome =
      .ret (some (sampleUser 42)) none ∧
    ∃ i0 w1,
      formClient.Authenticate
          { sampleRequest with OrgID := orgIDFromRequest sampleRequest } 0 =
        ((some i0, none), w1) ∧
      (sampleUser 42).NamespacedID = i0.NamespacedID :=
  have hpres : ∀ hook ∈ serviceLogin.postAuthHooks, ∀ (i : Identity) (r1 : Request)
      (w1 : Nat), (hook.call i r1 w1).2.1.NamespacedID = i.NamespacedID := by
    intro hook hm i r1 w1
    have hk : hook = hookOk := by
      simpa [serviceLogin, sampleService] using hm
    subst hk
    rfl
  ⟨hpres, by decide,
    (authenticate_preserves_namespaced_id serviceLogin sampleRequest 0 hpres).1 formClient
      (sampleUser 42) (by decide)⟩

/-! ## When the org id is resolved -/

/-- The request that `Authenticate` leaves is the one its loop leaves. -/
theorem Service.Authenticate_req {σ : Type} (s : Service σ) (r : Request) (w : σ) :
    (s.Authenticate r w).req = (s.walk s.clientQueue none r w).req := by
  unfold Service.Authenticate
  rcases s.walk s.clientQueue none r w with _ | ⟨_ | _, _, _, _⟩ <;> rfl

theorem Walk.req_prepend {σ : Type} (evs : List Event) (x : Walk σ) :
    (x.prepend evs).req = x.req := by
  cases x <;> rfl

/-- The first event of the subroutine is the strategy call, and it sees the org id that the
subroutine has just resolved from the request it was given. -/
theorem Service.authenticate_events_head {σ : Type} (s : Service σ) (c : Client σ)
    (r : Request) (w : σ) :
    ∃ i e tl, (s.authenticate c r w).events =
      Event.clientAuthenticate c.Name (orgIDFromRequest r) i e :: tl := by
  rcases s.authenticate_cases c r w with ⟨i, e, _, _, hrun⟩ | ⟨i, _, _, hrun⟩
  · exact ⟨i, some e, _, by rw [hrun]⟩
  · exact ⟨i, none, _, by rw [hrun]⟩

/-- The events of a walk whose first strategy matches: its `Test`, then the events of its
authentication, then whatever follows. -/
theorem Service.walk_match_events {σ : Type} (s : Service σ) (item : queueItem σ)
    (rest : List (queueItem σ)) (a : Option Err) (r : Request) (w w1 : σ)
    (hT : item.v.Test r w = (true, w1)) :
    ∃ tl, (s.walk (item :: rest) a r w).events =
      Event.test item.v.client.Name r.OrgID true ::
        ((s.authenticate item.v.client r w1).events ++ tl) := by
  simp only [Service.walk, hT]
  rcases (s.authenticate item.v.client r w1).outcome with _ | _
  · rename_i identity err
    cases err with
    | some e =>
      exact ⟨Event.logFailedToAuthenticate item.v.client.Name e ::
        (s.walk rest (some (multierrorAppend a e)) (s.authenticate item.v.client r w1).req
          (s.authenticate item.v.client r w1).world).events, by simp [Walk.events_prepend]⟩
    | none =>
      cases identity with
      | some i => exact ⟨[], by simp [Walk.events]⟩
      | none =>
        exact ⟨(s.walk rest a (s.authenticate item.v.client r w1).req
          (s.authenticate item.v.client r w1).world).events, by simp [Walk.events_prepend]⟩
  · exact ⟨[], by simp [Walk.events]⟩

/-- A walk up to its first match.  If no strategy matches, every strategy is tested with the
org id of the request as it was passed and the request is left as it was.  If one matches, the
strategies in front of the first match and that one were tested with the org id as it was
passed, and the strategy call that follows the first match sees the org id resolved from the
request. -/
theorem Service.walk_first_match {σ : Type} (s : Service σ) (items : List (queueItem σ)) :
    ∀ (a : Option Err) (r : Request) (w : σ),
      ((s.walk items a r w).events.filter Event.isMatch = [] →
        (s.walk items a r w).req = r ∧
        (s.walk items a r w).events =
          items.map (fun it => Event.test it.v.client.Name r.OrgID false)) ∧
      ((s.walk items a r w).events.filter Event.isMatch ≠ [] →
        ∃ pre item post i e tl, items = pre ++ item :: post ∧
          (s.walk items a r w).events =
            pre.map (fun it => Event.test it.v.client.Name r.OrgID false) ++
              Event.test item.v.client.Name r.OrgID true ::
                Event.clientAuthenticate item.v.client.Name (orgIDFromRequest r) i e ::
                  tl) := by
  induction items with
  | nil =>
    intro a r w
    simp [Service.walk, Walk.events, Walk.req]
  | cons item rest ih =>
    intro a r w
    rcases hT : item.v.Test r w with ⟨b, w1⟩
    cases b
    · have hev : (s.walk (item :: rest) a r w).events =
          Event.test item.v.client.Name r.OrgID false :: (s.walk rest a r w1).events := by
        simp only [Service.walk, hT, Walk.events_prepend, List.singleton_append]
      have hreq : (s.walk (item :: rest) a r w).req = (s.walk rest a r w1).req := by
        simp only [Service.walk, hT, Walk.req_prepend]
      obtain ⟨h1, h2⟩ := ih a r w1
      rw [hev, hreq]
      constructor
      · intro hf
        have hf1 : (s.walk rest a r w1).events.filter Event.isMatch = [] := by
          simpa [Event.isMatch] using hf
        obtain ⟨hr, he⟩ := h1 hf1
        exact ⟨hr, by rw [he]; rfl⟩
      · intro hf
        have hf1 : (s.walk rest a r w1).events.filter Event.isMatch ≠ [] := by
          simpa [Event.isMatch] using hf
        obtain ⟨pre, it, post, i, e, tl, hsplit, he⟩ := h2 hf1
        exact ⟨item :: pre, it, post, i, e, tl, by rw [hsplit]; rfl, by rw [he]; rfl⟩
    · obtain ⟨tl, hev⟩ := s.walk_match_events item rest a r w w1 hT
      obtain ⟨i, e, tl0, ha⟩ := s.authenticate_events_head item.v.client r w1
      rw [hev, ha]
      constructor
      · intro hf
        simp [Event.isMatch] at hf
      · intro _
        exact ⟨[], item, rest, i, e, tl0 ++ tl, rfl, rfl⟩

/-- The first event of a walk over a non-empty queue is the `Test` of the first strategy, with
the org id of the request as the caller passed it. -/
theorem Service.walk_head {σ : Type} (s : Service σ) (item : queueItem σ)
    (rest : List (queueItem σ)) (a : Option Err) (r : Request) (w : σ) :
    ∃ b, (s.walk (item :: rest) a r w).events.head? =
      some (Event.test item.v.client.Name r.OrgID b) := by
  simp only [Service.walk]
  rcases hT : item.v.Test r w with ⟨b, w1⟩
  refine ⟨b, ?_⟩
  cases b
  · simp [Walk.events_prepend]
  · simp only
    rcases (s.authenticate item.v.client r w1).outcome with _ | _
    · rename_i identity err
      cases err with
      | some e => simp [Walk.events_prepend]
      | none =>
        cases identity with
        | some i => simp [Walk.events]
        | none => simp [Walk.events_prepend]
    · simp [Walk.events]

/-- Counterexample to C19 as stated: the request arrives with `OrgID` 0 and `?targetOrgId=7`.
With one matching strategy, the first `Test` is evaluated with `OrgID` 0, not the resolved 7;
with one strategy that does not match, `Authenticate` returns with `OrgID` still 0. -/
theorem Authenticate_org_id_counterexample :
    orgIDFromRequest requestQuery7Header9 = 7 ∧
    (serviceOneMatch.Authenticate requestQuery7Header9 0).events.head? =
      some (Event.test "A" 0 true) ∧
    (serviceNoMatch.Authenticate requestQuery7Header9 0).outcome =
      .ret none (some errCantAuthenticateReq) ∧
    (serviceNoMatch.Authenticate requestQuery7Header9 0).req.OrgID = 0 ∧
    (serviceNoMatch.Authenticate requestQuery7Header9 0).req.OrgID ≠
      orgIDFromRequest requestQuery7Header9 := by
  decide

/-- C19, amended: `Authenticate` does not resolve the org id as its first step; the subroutine
`authenticate` does, for a strategy that matched, after its `Test` and before its
`Authenticate`.  The first `Test` is evaluated with the org id of the request as the caller
passed it.  If no strategy matches, every `Test` was evaluated with that org id and the request
is returned as it was, its org id not resolved.  If some strategy matches, every `Test` up to
and including that of the first strategy that matches was evaluated with the org id as the
caller passed it, and the `Authenticate` call of that strategy, which comes next, sees `OrgID`
equal to `orgIDFromRequest` of the request. -/
theorem Authenticate_org_id {σ : Type} (s : Service σ) (r : Request) (w : σ) :
    (∀ item rest, s.clientQueue = item :: rest →
      ∃ b, (s.Authenticate r w).events.head? =
        some (Event.test item.v.client.Name r.OrgID b)) ∧
    ((s.Authenticate r w).events.filter Event.isMatch = [] →
      (s.Authenticate r w).req = r ∧
      (s.Authenticate r w).events =
        s.clientQueue.map (fun it => Event.test it.v.client.Name r.OrgID false)) ∧
    ((s.Authenticate r w).events.filter Event.isMatch ≠ [] →
      ∃ pre item post i e tl, s.clientQueue = pre ++ item :: post ∧
        (s.Authenticate r w).events =
          pre.map (fun it => Event.test it.v.client.Name r.OrgID false) ++
            Event.test item.v.client.Name r.OrgID true ::
              Event.clientAuthenticate item.v.client.Name (orgIDFromRequest r) i e :: tl) := by
  rw [s.Authenticate_events, s.Authenticate_req]
  obtain ⟨h1, h2⟩ := s.walk_first_match s.clientQueue none r w
  refine ⟨?_, h1, h2⟩
  intro item rest hq
  rw [hq]
  exact s.walk_head item rest none r w

/-- Witness for C19 (amended): the request arrives with `OrgID` 0 and `?targetOrgId=7`.  The
first strategy does not match and the second does: both are tested with org id 0, and the
strategy call of the second sees org id 7. -/
theorem Authenticate_org_id_witness :
    orgIDFromRequest requestQuery7Header9 = 7 ∧
    (serviceSecondMatches.Authenticate requestQuery7Header9 0).events =
      [Event.test "apikey" 0 false, Event.test "B" 0 true,
        Event.clientAuthenticate "B" 7 (some (sampleUser 2)) none,
        Event.postAuthHook 0 (some (sampleUser 2)) none] ∧
    (serviceSecondMatches.Authenticate requestQuery7Header9 0).events.filter Event.isMatch ≠
      [] ∧
    (∃ pre item post i e tl, serviceSecondMatches.clientQueue = pre ++ item :: post ∧
      (serviceSecondMatches.Authenticate requestQuery7Header9 0).events =
        pre.map (fun it => Event.test it.v.client.Name requestQuery7Header9.OrgID false) ++
          Event.test item.v.client.Name requestQuery7Header9.OrgID true ::
            Event.clientAuthenticate item.v.client.Name
              (orgIDFromRequest requestQuery7Header9) i e :: tl) ∧
    (serviceNoMatch.Authenticate requestQuery7Header9 0).events.filter Event.isMatch = [] ∧
    (serviceNoMatch.Authenticate requestQuery7Header9 0).req = requestQuery7Header9 :=
  ⟨by decide, by decide, by decide,
    (Authenticate_org_id serviceSecondMatches requestQuery7Header9 0).2.2 (by decide),
    by decide,
    ((Authenticate_org_id serviceNoMatch requestQuery7Header9 0).2.1 (by decide)).1⟩

/-! ## Login without a transport request -/

/-- When the named strategy authenticates a user with a positive id and the request has no
transport request, `Login` does not return: reading the remote address and the user agent
through the nil pointer panics, before `CreateToken` is called.  The deferred post-login hooks
still run, with the identity and a nil error. -/
theorem Service.Login_nil_handle {σ : Type} (s : Service σ) (client : String) (r : Request)
    (w : σ) (c : Client σ) (identity : Identity)
    (hcl : s.clients client = some c)
    (hauth : (s.authenticate c r w).outcome = .ret (some identity) none)
    (hns : identity.Namespace = NamespaceUser) (hid : 0 < identity.ID)
    (hreq : r.HTTPRequest = none) :
    (s.Login client r w).outcome = .panic ∧
    (s.Login client r w).events.filter Event.isCreateToken = [] ∧
    (s.Login client r w).events.filterMap Event.loginHookCall =
      (List.range s.postLoginHooks.length).map (fun k => (k, some identity, none)) := by
  have hr : (s.authenticate c r w).req.HTTPRequest = none := by
    rw [s.authenticate_req]; exact hreq
  have hshape : ¬ (identity.Namespace ≠ NamespaceUser ∨ identity.ID ≤ 0) := by
    rw [hns]
    simp only [ne_eq, not_true_eq_false, false_or, not_le]
    exact hid
  obtain ⟨_, _, hf, hl⟩ := s.authenticate_filters c r w
  have hbody : s.loginBody client r w =
      ⟨true, some identity, none, (s.authenticate c r w).req, (s.authenticate c r w).world,
        (s.authenticate c r w).events⟩ := by
    simp only [Service.loginBody, hcl, hauth, Identity.NamespacedID]
    rw [if_neg hshape]
    simp only [hr]
  refine ⟨?_, ?_, ?_⟩
  · simp only [Service.Login, hbody]
    rfl
  · simp only [Service.Login, hbody, runPostLoginHooks_events, List.filter_append, hf,
      filter_isCreateToken_map, List.nil_append]
  · simp only [Service.Login, hbody, runPostLoginHooks_events, List.filterMap_append, hl,
      filterMap_loginHookCall_map, List.nil_append, List.range_eq_range']

/-- C26, the failing input: a login through "form", whose strategy authenticates user 42, with
a request that has no transport request.  `Login` panics; it returns neither the identity with
a session token nor an error, although `orgIDFromRequest` resolves the same request to 0
without touching the nil pointer. -/
theorem Login_nil_handle_panics :
    requestNoHandle.HTTPRequest = none ∧
    orgIDFromRequest requestNoHandle = 0 ∧
    (serviceLogin.authenticate formClient requestNoHandle 0).outcome =
      .ret (some (sampleUser 42)) none ∧
    (serviceLogin.Login "form" requestNoHandle 0).outcome = .panic ∧
    (∀ i e, (serviceLogin.Login "form" requestNoHandle 0).outcome ≠ .ret i e) ∧
    (serviceLogin.Login "form" requestNoHandle 0).events =
      [Event.clientAuthenticate "form" 0 (some (sampleUser 42)) none,
        Event.postAuthHook 0 (some (sampleUser 42)) none,
        Event.postLoginHook 0 (some (sampleUser 42)) none,
        Event.postLoginHook 1 (some (sampleUser 42)) none] := by
  refine ⟨rfl, by decide, by decide, by decide, ?_, by decide⟩
  intro i e h
  have hp : (serviceLogin.Login "form" requestNoHandle 0).outcome = .panic := by decide
  rw [hp] at h
  exact absurd h (by simp)

/-! ## Org id resolution: values that are not positive -/

/-- C29: for a request with a transport request, a `targetOrgId` value that parses to `q ≤ 0`
is treated as absent: `orgIDFromRequest` returns exactly `orgIDFromHeader`.  `orgIDFromHeader`
returns any header value that parses unchanged.  So the resolved org id is negative exactly
when the query gives no positive value and the header parses to a negative integer. -/
theorem orgIDFromRequest_nonpositive_query (r : Request) (req : HTTPRequest)
    (hreq : r.HTTPRequest = some req) :
    (∀ q, ParseInt (req.queryGet orgIDTargetQuery) = some q → q ≤ 0 →
      orgIDFromRequest r = orgIDFromHeader req) ∧
    (∀ h, ParseInt (req.headerGet orgIDHeaderName) = some h → orgIDFromHeader req = h) ∧
    (orgIDFromRequest r < 0 ↔
      ¬ 0 < orgIDFromQuery req ∧
        ∃ h, ParseInt (req.headerGet orgIDHeaderName) = some h ∧ h < 0) := by
  have hhead : ∀ h, ParseInt (req.headerGet orgIDHeaderName) = some h →
      orgIDFromHeader req = h := by
    intro h hh
    have hne : req.headerGet orgIDHeaderName ≠ "" := by
      intro he
      rw [he, ParseInt_empty] at hh
      exact absurd hh (by simp)
    simp [orgIDFromHeader, hne, hh]
  have hhead0 : ParseInt (req.headerGet orgIDHeaderName) = none → orgIDFromHeader req = 0 := by
    intro hh
    simp [orgIDFromHeader, hh]
  refine ⟨?_, hhead, ?_⟩
  · intro q hq hle
    have hquery : orgIDFromQuery req = q := by
      simp [orgIDFromQuery, req.queryHas_of_parse orgIDTargetQuery q hq, hq]
    simp only [orgIDFromRequest, hreq, hquery]
    rw [if_neg (by omega)]
  · simp only [orgIDFromRequest, hreq]
    by_cases hpos : 0 < orgIDFromQuery req
    · have hpos1 : orgIDFromQuery req > 0 := hpos
      rw [if_pos hpos1]
      constructor
      · intro hneg; omega
      · intro hc; exact absurd hpos hc.1
    · have hpos1 : ¬ orgIDFromQuery req > 0 := hpos
      rw [if_neg hpos1]
      cases hh : ParseInt (req.headerGet orgIDHeaderName) with
      | none =>
        rw [hhead0 hh]
        simp
      | some h =>
        rw [hhead h hh]
        simp [hpos]

/-- Witness for C29: `?targetOrgId=-3` with the header `X-Grafana-Org-Id: -5` resolves to -5,
the value of the header. -/
theorem orgIDFromRequest_nonpositive_query_witness :
    ParseInt (HTTPRequest.queryGet
      { Query := [("targetOrgId", "-3")], Header := [("X-Grafana-Org-Id", "-5")],
        RemoteAddr := "" } orgIDTargetQuery) = some (-3) ∧
    orgIDFromRequest
      { OrgID := 0
        HTTPRequest := some
          { Query := [("targetOrgId", "-3")], Header := [("X-Grafana-Org-Id", "-5")],
            RemoteAddr := "" } } =
      orgIDFromHeader
        { Query := [("targetOrgId", "-3")], Header := [("X-Grafana-Org-Id", "-5")],
          RemoteAddr := "" } ∧
    orgIDFromHeader
      { Query := [("targetOrgId", "-3")], Header := [("X-Grafana-Org-Id", "-5")],
        RemoteAddr := "" } = -5 :=
  ⟨by decide,
    (orgIDFromRequest_nonpositive_query _
      { Query := [("targetOrgId", "-3")], Header := [("X-Grafana-Org-Id", "-5")],
        RemoteAddr := "" } rfl).1 (-3) (by decide) (by decide),
    (orgIDFromRequest_nonpositive_query
      { OrgID := 0
        HTTPRequest := some
          { Query := [("targetOrgId", "-3")], Header := [("X-Grafana-Org-Id", "-5")],
            RemoteAddr := "" } }
      { Query := [("targetOrgId", "-3")], Header := [("X-Grafana-Org-Id", "-5")],
        RemoteAddr := "" } rfl).2.1 (-5) (by decide)⟩

end Authn

namespace Historian

/-! ## Facts about `merge` -/

/-- The inner loop ends with `minIdx = -1` only if it started so, and then every stream has,
at its pointer, an entry whose timestamp parses and is not below the starting `minVal`. -/
theorem scan_done_none (pointers : List Nat) (streams : List Stream) :
    ∀ (i : Nat) (m m1 : Min), scan pointers streams i m = .done m1 → m1.minIdx = none →
      m.minIdx = none ∧
      ∀ stream ∈ streams, ∃ el ∈ stream.Values, ∃ v, Authn.ParseInt el.1 = some v ∧
        m.minVal ≤ v := by
  induction streams with
  | nil =>
    intro i m m1 h hn
    simp only [scan, Scan.done.injEq] at h
    subst h
    exact ⟨hn, by simp⟩
  | cons stream rest ih =>
    intro i m m1 h hn
    simp only [scan] at h
    cases hp : pointers[i]? with
    | none => rw [hp] at h; simp at h
    | some p =>
      rw [hp] at h
      simp only at h
      cases hel : stream.Values[p]? with
      | none => rw [hel] at h; simp at h
      | some el =>
        rw [hel] at h
        simp only at h
        cases hv : Authn.ParseInt el.1 with
        | none => rw [hv] at h; simp at h
        | some curVal =>
          rw [hv] at h
          simp only at h
          obtain ⟨hlen, heq⟩ := List.getElem?_eq_some_iff.mp hel
          have hmem : el ∈ stream.Values := by
            rw [← heq]
            exact List.getElem_mem ..
          split at h
          · obtain ⟨h1, _⟩ := ih (i + 1) _ m1 h hn
            simp at h1
          · rename_i hcond
            obtain ⟨h1, h2⟩ := ih (i + 1) m m1 h hn
            refine ⟨h1, ?_⟩
            intro x hx
            rcases List.mem_cons.mp hx with rfl | hx
            · refine ⟨el, hmem, curVal, hv, ?_⟩
              by_contra hlt
              exact hcond ⟨hlen, by omega⟩
            · exact h2 x hx

/-- The initial `minVal` is -1. -/
theorem initialMinVal_eq : initialMinVal = -1 := by decide

/-- Whenever `merge` gets to return a frame, every stream of the result holds an entry whose
timestamp parses and is at least -1; in particular no stream is without entries. -/
theorem mergeLoop_frame (streams : List Stream) :
    ∀ (fuel : Nat) (pointers : List Nat) (rows rows1 : List (String × String)),
      mergeLoop streams fuel pointers rows = some (.frame rows1) →
      ∀ stream ∈ streams, ∃ el ∈ stream.Values, ∃ v, Authn.ParseInt el.1 = some v ∧
        initialMinVal ≤ v := by
  intro fuel
  induction fuel with
  | zero => intro pointers rows rows1 h; simp [mergeLoop] at h
  | succ fuel ih =>
    intro pointers rows rows1 h
    simp only [mergeLoop] at h
    cases hs : scan pointers streams 0
        { minVal := initialMinVal, minIdx := none, minEl := ("", "") } with
    | panic => rw [hs] at h; simp at h
    | parseError => rw [hs] at h; simp at h
    | done m =>
      rw [hs] at h
      simp only at h
      cases hi : m.minIdx with
      | none => exact (scan_done_none pointers streams 0 _ m hs hi).2
      | some idx =>
        rw [hi] at h
        exact ih _ _ _ h

/-- If `merge` returns a frame, every stream of the query result holds an entry whose timestamp
parses and is at least -1: for a result with a stream that holds no entry, `merge` panics or
returns the parse error of a stream in front of it. -/
theorem merge_frame (res : QueryRes) (rows : List (String × String))
    (h : merge res = some (.frame rows)) :
    ∀ stream ∈ res.Result, ∃ el ∈ stream.Values, ∃ v, Authn.ParseInt el.1 = some v ∧
      initialMinVal ≤ v :=
  mergeLoop_frame res.Result _ _ _ _ h

/-- The inner loop selects nothing when every stream has, at its pointer, an entry whose
timestamp parses and is not below `minVal`. -/
theorem scan_none_selected (pointers : List Nat) (m : Min) :
    ∀ (streams : List Stream) (i : Nat),
      (∀ (k : Nat) (stream : Stream), streams[k]? = some stream →
        ∃ p el v, pointers[i + k]? = some p ∧ stream.Values[p]? = some el ∧
          Authn.ParseInt el.1 = some v ∧ m.minVal ≤ v) →
      scan pointers streams i m = .done m := by
  intro streams
  induction streams with
  | nil => intro i _; rfl
  | cons stream rest ih =>
    intro i h
    obtain ⟨p, el, v, hp, hel, hv, hle⟩ := h 0 stream (by simp)
    have hnot : ¬ (p < stream.Values.length ∧ v < m.minVal) := fun hc => by omega
    rw [Nat.add_zero] at hp
    simp only [scan, hp, hel, hv]
    rw [if_neg hnot]
    apply ih (i + 1)
    intro k st hk
    have := h (k + 1) st (by simpa using hk)
    rwa [show i + (k + 1) = i + 1 + k by omega] at this

/-- With `minVal` starting at -1 in every pass, `merge` selects no entry when every stream
begins with an entry whose timestamp parses and is at least -1, as every timestamp that is not
negative is: it returns the frame without rows, whatever the streams hold. -/
theorem merge_selects_nothing (res : QueryRes)
    (h : ∀ stream ∈ res.Result, ∃ el v, stream.Values[0]? = some el ∧
      Authn.ParseInt el.1 = some v ∧ -1 ≤ v) :
    merge res = some (.frame []) := by
  have hs : scan (List.replicate res.Result.length 0) res.Result 0
      { minVal := initialMinVal, minIdx := none, minEl := ("", "") } =
      .done { minVal := initialMinVal, minIdx := none, minEl := ("", "") } := by
    apply scan_none_selected
    intro k stream hk
    obtain ⟨hlen, heq⟩ := List.getElem?_eq_some_iff.mp hk
    obtain ⟨el, v, hel, hv, hle⟩ := h stream (by rw [← heq]; exact List.getElem_mem ..)
    refine ⟨0, el, v, ?_, hel, hv, ?_⟩
    · rw [Nat.zero_add, List.getElem?_replicate, if_pos hlen]
    · rw [initialMinVal_eq]; exact hle
  simp only [merge, mergeLoop, hs]

/-- C20, the failing input: for a query result with one stream that holds the one entry
["1", "a"], in ascending order and with a timestamp that parses, `merge` returns a frame
without rows, not the frame with that row.  `minVal` starts at `^int64(0) >> 1`, which is -1,
so `curVal < minVal` is false for the timestamp 1, no entry is selected and the first pass
ends the loop.  The three entries of two sorted streams are dropped in the same way. -/
theorem merge_drops_entries :
    initialMinVal = -1 ∧
    merge oneEntry = some (.frame []) ∧
    merge oneEntry ≠ some (.frame [("1", "a")]) ∧
    totalLen twoStreams = 3 ∧
    merge twoStreams = some (.frame []) := by
  decide

/-- C27, the failing input: for a query result with one stream that holds no entry, the first
pass of `merge` reads `stream.Values[0]` of an empty slice: `merge` indexes `Values` at its
length and panics, returning neither a frame nor the timestamp-parse error.  The same happens
for streams of different lengths of which one holds no entry, and, for a stream whose only
entry has a timestamp below -1, in the second pass, when the pointer has reached the length. -/
theorem merge_indexes_at_length :
    merge emptyStream = some .panic ∧
    (∀ rows, merge emptyStream ≠ some (.frame rows)) ∧
    merge emptyStream ≠ some .parseError ∧
    merge unevenStreams = some .panic ∧
    merge negativeEntry = some .panic := by
  refine ⟨by decide, ?_, by decide, by decide, by decide⟩
  intro rows h
  have hp : merge emptyStream = some .panic := by decide
  rw [hp] at h
  exact absurd h (by simp)

/-! ## Facts about selectors and labels -/

/-- C23: for selectors whose operators are all valid, `selectorString` returns, with a nil
error, an opening brace, the selectors rendered as label, operator and double-quoted value and
joined by commas in input order, and a closing brace; for the empty list it returns "{}"; if
some selector has an operator that is not valid it returns the empty string and an error. -/
theorem selectorString_spec (selectors : List (String × String × String)) :
    ((∀ s ∈ selectors, isValidOperator s.2.1 = true) →
      selectorString selectors =
        ("\x7b" ++ ",".intercalate (selectors.map renderSelector) ++ "\x7d", none)) ∧
    selectorString [] = ("\x7b\x7d", none) ∧
    ((∃ s ∈ selectors, isValidOperator s.2.1 = false) →
      ∃ e, selectorString selectors = ("", some e)) := by
  refine ⟨?_, by decide, ?_⟩
  · intro h
    have hfind : selectors.find? (fun s => !isValidOperator s.2.1) = none := by
      rw [List.find?_eq_none]
      intro s hs
      simp [h s hs]
    simp only [selectorString, hfind]
  · rintro ⟨s, hs, hinv⟩
    cases hfind : selectors.find? (fun s => !isValidOperator s.2.1) with
    | none =>
      rw [List.find?_eq_none] at hfind
      have := hfind s hs
      simp [hinv] at this
    | some s1 =>
      exact ⟨"'" ++ s1.2.1 ++ "' is not a valid query operator", by
        simp only [selectorString, hfind]⟩

/-- Witness for C23: the three cases of `TestSelectorString`. -/
theorem selectorString_spec_witness :
    (∀ s ∈ [("name", "=", "Bob"), ("age", "=~", "30")], isValidOperator s.2.1 = true) ∧
    selectorString [("name", "=", "Bob"), ("age", "=~", "30")] =
      ("\x7bname=\"Bob\",age=~\"30\"\x7d", none) ∧
    (selectorString [("name", "?", "Bob")]).1 = "" ∧
    (selectorString [("name", "?", "Bob")]).2 ≠ none ∧
    selectorString [("name", "=", "Bob"), ("age", "=~", "30")] =
      ("\x7b" ++ ",".intercalate
        ([("name", "=", "Bob"), ("age", "=~", "30")].map renderSelector) ++ "\x7d", none) :=
  ⟨by decide, by decide, by decide, by decide,
    (selectorString_spec [("name", "=", "Bob"), ("age", "=~", "30")]).1 (by decide)⟩

theorem lookup_setLabel_self (labels : List (String × String)) (key value : String) :
    (setLabel labels key value).lookup key = some value := by
  simp [setLabel, List.lookup]

theorem lookup_setLabel_other (labels : List (String × String)) (key value k : String)
    (h : k ≠ key) : (setLabel labels key value).lookup k = labels.lookup k := by
  have hbeq : (k == key) = false := by simpa using h
  simp only [setLabel, List.lookup, hbeq]
  induction labels with
  | nil => rfl
  | cons kv rest ih =>
    rcases kv with ⟨a, b⟩
    by_cases ha : a = key
    · subst ha
      have hka : (k == a) = false := hbeq
      simp [List.filter_cons, List.lookup, hka, ih]
    · have hne : (a != key) = true := by simpa using ha
      simp only [List.filter_cons, hne, if_true, List.lookup]
      cases hk : k == a <;> simp [ih]

/-- The stream of every state of a rule carries the UID of the rule under `RuleUIDLabel`, and
carries the label "rule_id" only if the state itself has a public label of that name. -/
theorem streamLabels_lookup (rule : AlertRule) (publicLabels : List (String × String)) :
    (streamLabels rule publicLabels).lookup RuleUIDLabel = some rule.UID ∧
    (streamLabels rule publicLabels).lookup "rule_id" = publicLabels.lookup "rule_id" := by
  constructor
  · unfold streamLabels
    rw [lookup_setLabel_other _ _ _ _ (by decide), lookup_setLabel_other _ _ _ _ (by decide),
      lookup_setLabel_self]
  · unfold streamLabels
    rw [lookup_setLabel_other _ _ _ _ (by decide), lookup_setLabel_other _ _ _ _ (by decide),
      lookup_setLabel_other _ _ _ _ (by decide), lookup_setLabel_other _ _ _ _ (by decide)]

/-- C28, the failing input: the states of the rule with UID "abc" are written to a stream
that carries `ruleUID = "abc"`.  The selector that `QueryStates` builds for the rule UID "abc"
names the label "rule_id", which is not `RuleUIDLabel` and which the stream does not carry, so
the stream is not selected; a selector on `RuleUIDLabel` would select it. -/
theorem queryStates_label_mismatch :
    queryStatesSelectors "abc" = [("rule_id", "=", "abc")] ∧
    RuleUIDLabel ≠ "rule_id" ∧
    streamLabels ruleAbc [("alertname", "HighCPU")] =
      [("folderUID", "f1"), ("group", "cpu"), ("ruleUID", "abc"), ("orgID", "1"),
        ("alertname", "HighCPU")] ∧
    selectorsMatch (queryStatesSelectors "abc")
      (streamLabels ruleAbc [("alertname", "HighCPU")]) = false ∧
    selectorsMatch [(RuleUIDLabel, "=", "abc")]
      (streamLabels ruleAbc [("alertname", "HighCPU")]) = true := by
  decide

end Historian

namespace Vectortile

/-! ## Facts about tiles -/

theorem shiftLeftOne_eq (zoom : Int) (h0 : 0 ≤ zoom) (h32 : zoom ≤ 32) :
    shiftLeftOne zoom = 2 ^ zoom.toNat := by
  have hz : toUint64 zoom = zoom.toNat := by
    unfold toUint64
    rw [Int.emod_eq_of_lt h0 (by omega)]
  have hn : zoom.toNat ≤ 32 := by omega
  have hpow : (2 : Int) ^ zoom.toNat ≤ 2 ^ 32 :=
    pow_le_pow_right₀ (by norm_num) hn
  have hpos : (0 : Int) < 2 ^ zoom.toNat := by positivity
  unfold shiftLeftOne
  rw [hz, if_pos (by omega)]
  unfold wrapInt64
  rw [Int.emod_eq_of_lt (by omega) (by norm_num at hpow ⊢; omega)]
  omega

/-- C24: `IsValid` returns true if and only if the zoom is between 0 and 32 and both
coordinates are at least 0 and below 2 to the power of the zoom (with a 64-bit `int`, in which
2 to the power 32 does not wrap). -/
theorem Tile.IsValid_iff {β : Type} (tile : Tile β) :
    tile.IsValid = true ↔
      0 ≤ tile.Zoom ∧ tile.Zoom ≤ 32 ∧
      0 ≤ tile.X ∧ tile.X < 2 ^ tile.Zoom.toNat ∧
      0 ≤ tile.Y ∧ tile.Y < 2 ^ tile.Zoom.toNat := by
  unfold Tile.IsValid
  by_cases hz : tile.Zoom > 32 ∨ tile.Zoom < 0
  · rw [if_pos hz]
    constructor
    · intro h; exact absurd h (by simp)
    · rintro ⟨h0, h32, _⟩
      omega
  · rw [if_neg hz]
    have h0 : 0 ≤ tile.Zoom := by omega
    have h32 : tile.Zoom ≤ 32 := by omega
    simp only [shiftLeftOne_eq tile.Zoom h0 h32]
    by_cases hxy : tile.X < 0 ∨ tile.X ≥ 2 ^ tile.Zoom.toNat ∨ tile.Y < 0 ∨
        tile.Y ≥ 2 ^ tile.Zoom.toNat
    · rw [if_pos hxy]
      constructor
      · intro h; exact absurd h (by simp)
      · rintro ⟨_, _, hx0, hx1, hy0, hy1⟩
        rcases hxy with h | h | h | h <;> omega
    · rw [if_neg hxy]
      simp only [true_iff]
      refine ⟨h0, h32, ?_, ?_, ?_, ?_⟩ <;> by_contra hc <;> apply hxy
      · exact Or.inl (by omega)
      · exact Or.inr (Or.inl (by omega))
      · exact Or.inr (Or.inr (Or.inl (by omega)))
      · exact Or.inr (Or.inr (Or.inr (by omega)))

/-- C25: `MakeTile` returns a tile whose `Zoom`, `X`, `Y` and `Ext` are the arguments.  When the
address is not valid it returns a `TileAppError` with `HTTPCode` 400 whose text is
"invalid tile address " followed by the address as "zoom/x/y.ext", and `Bounds` is left at its
zero value; when the address is valid the error, if any, is not a `TileAppError`. -/
theorem MakeTile_spec {β : Type} (zero : β) (bounds : Int → Int → Int → Except String β)
    (x y zoom : Int) (ext : String) :
    (MakeTile zero bounds x y zoom ext).1.Zoom = zoom ∧
    (MakeTile zero bounds x y zoom ext).1.X = x ∧
    (MakeTile zero bounds x y zoom ext).1.Y = y ∧
    (MakeTile zero bounds x y zoom ext).1.Ext = ext ∧
    (Tile.IsValid { Zoom := zoom, X := x, Y := y, Ext := ext, Bounds := zero } = false →
      ∃ e, (MakeTile zero bounds x y zoom ext).2 = some (.tileApp e) ∧
        e.HTTPCode = 400 ∧
        e.Error =
          "invalid tile address " ++ toString zoom ++ "/" ++ toString x ++ "/" ++
            toString y ++ "." ++ ext ∧
        (MakeTile zero bounds x y zoom ext).1.Bounds = zero) ∧
    (Tile.IsValid { Zoom := zoom, X := x, Y := y, Ext := ext, Bounds := zero } = true →
      ∀ e, (MakeTile zero bounds x y zoom ext).2 ≠ some (.tileApp e)) := by
  cases hv : Tile.IsValid { Zoom := zoom, X := x, Y := y, Ext := ext, Bounds := zero } with
  | false =>
    have hm : MakeTile zero bounds x y zoom ext =
        ({ Zoom := zoom, X := x, Y := y, Ext := ext, Bounds := zero },
          some (.tileApp
            { HTTPCode := 400
              SrcErr := "invalid tile address " ++
                Tile.String { Zoom := zoom, X := x, Y := y, Ext := ext, Bounds := zero }
              Topic := "", Message := "" })) := by
      simp only [MakeTile, hv, Bool.not_false, if_true]
    rw [hm]
    refine ⟨rfl, rfl, rfl, rfl, ?_, ?_⟩
    · intro _
      refine ⟨_, rfl, rfl, ?_, rfl⟩
      simp [TileAppError.Error, Tile.String, String.append_assoc]
    · intro h; exact absurd h (by simp)
  | true =>
    have hm : MakeTile zero bounds x y zoom ext =
        Tile.CalculateBounds bounds
          { Zoom := zoom, X := x, Y := y, Ext := ext, Bounds := zero } := by
      simp only [MakeTile, hv, Bool.not_true, Bool.false_eq_true, if_false]
    rw [hm]
    unfold Tile.CalculateBounds
    cases bounds zoom x y with
    | error e =>
      refine ⟨rfl, rfl, rfl, rfl, ?_, ?_⟩
      · intro h; exact absurd h (by simp)
      · intro _ e1; simp
    | ok b =>
      refine ⟨rfl, rfl, rfl, rfl, ?_, ?_⟩
      · intro h; exact absurd h (by simp)
      · intro _ e1; simp

/-- Witness for C25: the address 1/5/0 lies outside the 2 by 2 grid of zoom 1, and the address
1/1/0 lies inside it. -/
theorem MakeTile_spec_witness :
    Tile.IsValid
        { Zoom := 1, X := 5, Y := 0, Ext := "pbf", Bounds := ((0, 0, 0) : Int × Int × Int) } =
      false ∧
    (∃ e, (MakeTile (0, 0, 0) sampleBounds 5 0 1 "pbf").2 = some (.tileApp e) ∧
      e.HTTPCode = 400 ∧
      e.Error =
        "invalid tile address " ++ toString (1 : Int) ++ "/" ++ toString (5 : Int) ++ "/" ++
          toString (0 : Int) ++ "." ++ "pbf" ∧
      (MakeTile (0, 0, 0) sampleBounds 5 0 1 "pbf").1.Bounds = (0, 0, 0)) ∧
    (MakeTile (0, 0, 0) sampleBounds 5 0 1 "pbf").2 =
      some (.tileApp
        { HTTPCode := 400, SrcErr := "invalid tile address 1/5/0.pbf", Topic := "",
          Message := "" }) ∧
    MakeTile (0, 0, 0) sampleBounds 1 0 1 "pbf" =
      ({ Zoom := 1, X := 1, Y := 0, Ext := "pbf", Bounds := (1, 1, 0) }, none) :=
  ⟨by decide,
    (MakeTile_spec (0, 0, 0) sampleBounds 5 0 1 "pbf").2.2.2.2.1 (by decide),
    by decide, by decide⟩

end Vectortile

namespace Api

/-! ## Facts about the frontend settings -/

/-- C21: in the frontend settings, `BuildInfo.HideVersion` is `AnonymousHideVersion` and the
caller not being signed in.  When it is true, `Version` and `Commit` are empty and `Buildstamp`
is 0 while `Env` is still the configured environment; when it is false, `Version`, `Commit` and
`Buildstamp` are the build version, commit and stamp. -/
theorem buildInfo_hideVersion (anonymousHideVersion isSignedIn : Bool) (st : BuildSettings)
    (edition latestVersion : String) (hasUpdate : Bool) :
    (getFrontendSettingsMapBuildInfo anonymousHideVersion isSignedIn st edition latestVersion
        hasUpdate).HideVersion = (anonymousHideVersion && !isSignedIn) ∧
    ((getFrontendSettingsMapBuildInfo anonymousHideVersion isSignedIn st edition latestVersion
        hasUpdate).HideVersion = true →
      (getFrontendSettingsMapBuildInfo anonymousHideVersion isSignedIn st edition
          latestVersion hasUpdate).Version = "" ∧
      (getFrontendSettingsMapBuildInfo anonymousHideVersion isSignedIn st edition
          latestVersion hasUpdate).Commit = "" ∧
      (getFrontendSettingsMapBuildInfo anonymousHideVersion isSignedIn st edition
          latestVersion hasUpdate).Buildstamp = 0 ∧
      (getFrontendSettingsMapBuildInfo anonymousHideVersion isSignedIn st edition
          latestVersion hasUpdate).Env = st.Env) ∧
    ((getFrontendSettingsMapBuildInfo anonymousHideVersion isSignedIn st edition latestVersion
        hasUpdate).HideVersion = false →
      (getFrontendSettingsMapBuildInfo anonymousHideVersion isSignedIn st edition
          latestVersion hasUpdate).Version = st.BuildVersion ∧
      (getFrontendSettingsMapBuildInfo anonymousHideVersion isSignedIn st edition
          latestVersion hasUpdate).Commit = st.BuildCommit ∧
      (getFrontendSettingsMapBuildInfo anonymousHideVersion isSignedIn st edition
          latestVersion hasUpdate).Buildstamp = st.BuildStamp ∧
      (getFrontendSettingsMapBuildInfo anonymousHideVersion isSignedIn st edition
          latestVersion hasUpdate).Env = st.Env) := by
  unfold getFrontendSettingsMapBuildInfo
  cases anonymousHideVersion <;> cases isSignedIn <;> simp

/-- Witness for C21: the configuration of the test, with the version hidden from an anonymous
caller. -/
theorem buildInfo_hideVersion_witness :
    (getFrontendSettingsMapBuildInfo true false
        { BuildVersion := "7.8.9", BuildCommit := "01234567", BuildStamp := 1, Env := "testing" }
        "Open Source" "" false).HideVersion = true ∧
    (getFrontendSettingsMapBuildInfo true false
        { BuildVersion := "7.8.9", BuildCommit := "01234567", BuildStamp := 1, Env := "testing" }
        "Open Source" "" false).Version = "" ∧
    (getFrontendSettingsMapBuildInfo true false
        { BuildVersion := "7.8.9", BuildCommit := "01234567", BuildStamp := 1, Env := "testing" }
        "Open Source" "" false).Env = "testing" ∧
    (getFrontendSettingsMapBuildInfo false false
        { BuildVersion := "7.8.9", BuildCommit := "01234567", BuildStamp := 1, Env := "testing" }
        "Open Source" "" false).Version = "7.8.9" :=
  ⟨by decide,
    ((buildInfo_hideVersion true false
      { BuildVersion := "7.8.9", BuildCommit := "01234567", BuildStamp := 1, Env := "testing" }
      "Open Source" "" false).2.1 (by decide)).1,
    ((buildInfo_hideVersion true false
      { BuildVersion := "7.8.9", BuildCommit := "01234567", BuildStamp := 1, Env := "testing" }
      "Open Source" "" false).2.1 (by decide)).2.2.2,
    ((buildInfo_hideVersion false false
      { BuildVersion := "7.8.9", BuildCommit := "01234567", BuildStamp := 1, Env := "testing" }
      "Open Source" "" false).2.2 (by decide)).1⟩

/-- C22, the failing input: with `cfg.PluginsCDNURLTemplate` set to
"https://cdn.example.com/{id}/{version}/public/plugins/{id}/{assetPath}" the test expects the
member `pluginsCDNBaseURL` to be "https://cdn.example.com".  `FrontendSettingsDTO` has no such
member, under any spelling of its case, so whatever the configuration the test reads the empty
string. -/
theorem pluginsCDNBaseURL_absent :
    "pluginsCDNBaseURL" ∉ FrontendSettingsDTO.jsonKeys ∧
    "pluginscdnbaseurl" ∉ FrontendSettingsDTO.jsonKeys.map lowerKey ∧
    decodePluginsCDNBaseURL
      (FrontendSettingsDTO.jsonKeys.map fun k => (k, "https://cdn.example.com")) = "" ∧
    decodePluginsCDNBaseURL
      (FrontendSettingsDTO.jsonKeys.map fun k => (k, "https://cdn.example.com")) ≠
      "https://cdn.example.com" := by
  decide

/-! ## Facts about the data sources for the frontend -/

/-- What the body does for a data source whose access mode is not direct: nothing is
decrypted, and the outcome is that of the last statements applied to an entry built from the
fields that are not credentials. -/
theorem dataSourceBody_not_direct (deps : Deps) (ds : DataSource)
    (hacc : ds.Access ≠ DS_ACCESS_DIRECT) :
    dataSourceBody deps ds =
      match deps.plugin ds.TypeName with
      | none => ⟨.skip, []⟩
      | some plugin =>
        finishBody ds
          { ID := ds.Id, UID := ds.Uid, TypeName := ds.TypeName, Name := ds.Name
            PluginMeta := some
              { JSONData := plugin.JSONData, Signature := plugin.Signature,
                Module := plugin.Module, BaseURL := plugin.BaseURL }
            URL := if ds.Access = DS_ACCESS_PROXY then
                "/api/datasources/proxy/" ++ toString ds.Id
              else ds.Url
            IsDefault := ds.IsDefault, Access := ds.Access, Preload := plugin.Preload
            Module := plugin.Module
            JSONData := match ds.JsonData with
              | none => []
              | some m => m
            ReadOnly := ds.ReadOnly, BasicAuth := "", WithCredentials := false
            Username := "", Password := "", Database := "" } [] := by
  unfold dataSourceBody
  cases deps.plugin ds.TypeName with
  | none => rfl
  | some plugin =>
    simp only
    rw [if_neg hacc]

/-- The last statements of the body make no decryption call and leave the credential fields of
the entry, and its URL, as they are. -/
theorem finishBody_fields (ds : DataSource) (d : DataSourceDTO) (calls : List DecryptCall) :
    (finishBody ds d calls).decrypts = calls ∧
    ∀ d1, (finishBody ds d calls).outcome = .dto d1 →
      d1.BasicAuth = d.BasicAuth ∧ d1.Username = d.Username ∧ d1.Password = d.Password ∧
        d1.WithCredentials = d.WithCredentials ∧ d1.URL = d.URL := by
  unfold finishBody
  by_cases hp : ds.TypeName = DS_PROMETHEUS
  · rw [if_pos hp]
    cases ds.JsonData with
    | none => exact ⟨rfl, fun d1 h => by simp at h⟩
    | some m =>
      refine ⟨rfl, fun d1 h => ?_⟩
      simp only [BodyOutcome.dto.injEq] at h
      subst h
      by_cases hdb : ds.TypeName = DS_INFLUXDB ∨ ds.TypeName = DS_ES <;> simp [hdb]
  · rw [if_neg hp]
    refine ⟨rfl, fun d1 h => ?_⟩
    simp only [BodyOutcome.dto.injEq] at h
    subst h
    by_cases hdb : ds.TypeName = DS_INFLUXDB ∨ ds.TypeName = DS_ES <;> simp [hdb]

/-- The last statements of the body do not read the credentials of the data source. -/
theorem finishBody_creds (ds : DataSource) (creds : Credentials) (d : DataSourceDTO)
    (calls : List DecryptCall) :
    finishBody { ds with Creds := creds } d calls = finishBody ds d calls := rfl

/-- C30: for a data source whose access mode is not direct, no password is decrypted; the
entry sent to the frontend has empty `BasicAuth`, `Username` and `Password` and no
with-credentials switch, and for proxy access its URL is "/api/datasources/proxy/" followed by
the id; and the outcome is the same for any other stored credentials and any other decryption
functions: two data sources that differ only in their stored credentials yield equal
entries. -/
theorem dataSourceBody_no_secrets (deps deps2 : Deps) (ds : DataSource) (creds : Credentials)
    (hacc : ds.Access ≠ DS_ACCESS_DIRECT) (hplug : deps2.plugin = deps.plugin) :
    (dataSourceBody deps ds).decrypts = [] ∧
    (∀ d, (dataSourceBody deps ds).outcome = .dto d →
      d.BasicAuth = "" ∧ d.Username = "" ∧ d.Password = "" ∧ d.WithCredentials = false ∧
      (ds.Access = DS_ACCESS_PROXY →
        d.URL = "/api/datasources/proxy/" ++ toString ds.Id)) ∧
    dataSourceBody deps2 { ds with Creds := creds } = dataSourceBody deps ds := by
  have h1 := dataSourceBody_not_direct deps ds hacc
  have h2 := dataSourceBody_not_direct deps2 { ds with Creds := creds } hacc
  refine ⟨?_, ?_, ?_⟩
  · rw [h1]
    cases deps.plugin ds.TypeName with
    | none => rfl
    | some plugin => exact (finishBody_fields ds _ []).1
  · intro d hd
    rw [h1] at hd
    cases hpl : deps.plugin ds.TypeName with
    | none => rw [hpl] at hd; simp at hd
    | some plugin =>
      rw [hpl] at hd
      obtain ⟨hb, hu, hp, hw, hurl⟩ := (finishBody_fields ds _ []).2 d hd
      refine ⟨hb, hu, hp, hw, ?_⟩
      intro hproxy
      rw [hurl]
      simp only [if_pos hproxy]
  · rw [h1, h2, hplug]
    cases deps.plugin ds.TypeName with
    | none => rfl
    | some plugin => rfl

/-- Witness for C30: a proxied Prometheus data source with basic auth and a stored password.
Its entry carries no secret, its URL is the proxy path, and changing the credentials changes
nothing. -/
theorem dataSourceBody_no_secrets_witness :
    sampleProxied.Access ≠ DS_ACCESS_DIRECT ∧
    (dataSourceBody sampleDeps sampleProxied).decrypts = [] ∧
    (∃ d, (dataSourceBody sampleDeps sampleProxied).outcome = .dto d ∧
      d.URL = "/api/datasources/proxy/7" ∧ d.BasicAuth = "" ∧ d.Password = "") ∧
    dataSourceBody sampleDeps
        { sampleProxied with
          Creds :=
            { BasicAuth := false, BasicAuthUser := "", WithCredentials := false, User := "",
              SecureJsonData := [] } } =
      dataSourceBody sampleDeps sampleProxied :=
  ⟨by decide,
    (dataSourceBody_no_secrets sampleDeps sampleDeps sampleProxied sampleProxied.Creds
      (by decide) rfl).1,
    ⟨_, rfl, rfl, rfl, rfl⟩,
    (dataSourceBody_no_secrets sampleDeps sampleDeps sampleProxied
      { BasicAuth := false, BasicAuthUser := "", WithCredentials := false, User := "",
        SecureJsonData := [] } (by decide) rfl).2.2⟩

end Api
